import Mathlib

/-!
# DeskHog: NeoPixel status light and Pomodoro card

A shallow embedding of `src/hardware/NeoPixelController.cpp` and
`src/ui/PomodoroCard.cpp`.

Conventions of the embedding.

* `unsigned long` is the 32-bit unsigned type of the ESP32 target: values are
  naturals and every arithmetic result is reduced modulo `2^32`.
* `int` is the 32-bit signed type: values are integers, and the results of `++`
  and `--` are wrapped into `[-2^31, 2^31)` (signed overflow, undefined in C++,
  wraps here).
* `millis()` reads an external clock; every operation that reads it takes the
  clock value as an argument.
* The `FastLED` singleton (global brightness, number of `show()` calls) is
  carried in the controller record as `fastLedBrightness` and `fastLedShows`.
-/

namespace DeskHog

/-! ## Machine arithmetic -/

/-- The modulus of `unsigned long` / `int` on the target. -/
def U32 : Nat := 4294967296

/-- Wrap an integer into the range of a 32-bit `int`. -/
def wrapInt32 (x : Int) : Int := (x + 2147483648) % 4294967296 - 2147483648

/-- Conversion of an integer to `unsigned long` (reduction modulo `2^32`). -/
def toU32 (x : Int) : Nat := (x % 4294967296).toNat

/-- The value `millis()` returns when the external clock shows `clock` ms. -/
def millis (clock : Nat) : Nat := clock % U32

/-! ## NeoPixelController -/

/-- The `CRGB` pixel value: red, green, blue. -/
structure CRGB where
  r : Nat
  g : Nat
  b : Nat
deriving DecidableEq, Repr

/-- The `NeoPixelController::LedState` enum. -/
inductive LedState where
  | IDLE
  | WORK
  | BREAK
  | BLINKING
deriving DecidableEq, Repr

/-- FastLED's predefined colour `CRGB::Black` (0x000000). -/
def CRGB_Black : CRGB := ⟨0, 0, 0⟩
/-- FastLED's predefined colour `CRGB::Blue` (0x0000FF). -/
def CRGB_Blue : CRGB := ⟨0, 0, 255⟩
/-- FastLED's predefined colour `CRGB::DeepPink` (0xFF1493). -/
def CRGB_DeepPink : CRGB := ⟨255, 20, 147⟩
/-- FastLED's predefined colour `CRGB::Orange` (0xFFA500). -/
def CRGB_Orange : CRGB := ⟨255, 165, 0⟩

def NUM_BLINK_COLORS : Int := 3

/-- The palette `BLINK_COLORS[idx]`; an index outside `0..2` is outside the
array (the code never produces one) and reads as black here. -/
def BLINK_COLORS (idx : Int) : CRGB :=
  if idx = 0 then CRGB_Blue
  else if idx = 1 then CRGB_DeepPink
  else if idx = 2 then CRGB_Orange
  else CRGB_Black

def COLOR_IDLE : CRGB := CRGB_Black
def COLOR_WORK : CRGB := ⟨128, 64, 0⟩
def COLOR_BREAK : CRGB := ⟨0, 0, 128⟩
def NEOPIXEL_BRIGHTNESS : Nat := 50
def UPDATE_INTERVAL_MS : Nat := 16

/-- The members of `NeoPixelController` together with the state of the
`FastLED` singleton it drives. `_blink_is_on_phase` is declared `int` and only
ever holds `true` or `false`. `breathPhase` is initialised and never used. -/
structure NeoPixelController where
  _currentLedState : LedState
  _previousLedState : LedState
  lastUpdate : Nat
  _blink_sweeps_todo : Int
  _blink_sweeps_done : Int
  _blink_color_idx : Int
  _blink_is_on_phase : Bool
  _blink_phase_next_change_time : Nat
  _blink_phase_duration_ms : Int
  _blink_original_brightness : Nat
  leds0 : CRGB
  fastLedBrightness : Nat
  fastLedShows : Nat
deriving DecidableEq, Repr

namespace NeoPixelController

/-- The constructor `NeoPixelController::NeoPixelController()`. FastLED's
brightness is 255 until `setBrightness` is called and the pixel starts black. -/
def new : NeoPixelController :=
  { _currentLedState := LedState.IDLE
    _previousLedState := LedState.IDLE
    lastUpdate := 0
    _blink_sweeps_todo := 0
    _blink_sweeps_done := 0
    _blink_color_idx := 0
    _blink_is_on_phase := false
    _blink_phase_next_change_time := 0
    _blink_phase_duration_ms := 0
    _blink_original_brightness := NEOPIXEL_BRIGHTNESS
    leds0 := CRGB_Black
    fastLedBrightness := 255
    fastLedShows := 0 }

/-- The method `begin()`. -/
def begin (c : NeoPixelController) : NeoPixelController :=
  let c := { c with _blink_original_brightness := NEOPIXEL_BRIGHTNESS }
  let c := { c with fastLedBrightness := c._blink_original_brightness }
  let c := { c with leds0 := COLOR_IDLE }
  let c := { c with fastLedShows := c.fastLedShows + 1 }
  { c with _currentLedState := LedState.IDLE }

/-- The method `setLedState(newState)`. -/
def setLedState (newState : LedState) (c : NeoPixelController) : NeoPixelController :=
  if c._currentLedState = LedState.BLINKING ∧ newState ≠ LedState.BLINKING then
    let c := { c with _currentLedState := newState }
    { c with fastLedBrightness := c._blink_original_brightness }
  else if c._currentLedState ≠ LedState.BLINKING then
    { c with _currentLedState := newState }
  else c

/-- The blink block of `update()` (source lines 81-116), run with the value
`currentTime` read from `millis()`. -/
def updateBlink (currentTime : Nat) (c : NeoPixelController) : NeoPixelController :=
  if c._currentLedState = LedState.BLINKING then
    if currentTime ≥ c._blink_phase_next_change_time then
      let c := { c with _blink_phase_next_change_time :=
                          toU32 ((currentTime : Int) + c._blink_phase_duration_ms) }
      if c._blink_is_on_phase then
        let c := { c with leds0 := CRGB_Black }
        { c with _blink_is_on_phase := false }
      else
        let c := { c with _blink_color_idx := wrapInt32 (c._blink_color_idx + 1) }
        let c :=
          if c._blink_color_idx ≥ NUM_BLINK_COLORS then
            let c := { c with _blink_color_idx := 0 }
            { c with _blink_sweeps_done := wrapInt32 (c._blink_sweeps_done + 1) }
          else c
        if c._blink_sweeps_done ≥ c._blink_sweeps_todo then
          let c := { c with fastLedBrightness := c._blink_original_brightness }
          { c with _currentLedState := c._previousLedState }
        else
          let c := { c with leds0 := BLINK_COLORS c._blink_color_idx }
          { c with _blink_is_on_phase := true }
    else c
  else c

/-- The steady-state block of `update()` (source lines 120-145). -/
def updateSteady (currentTime : Nat) (c : NeoPixelController) : NeoPixelController :=
  if c._currentLedState ≠ LedState.BLINKING then
    let c := { c with lastUpdate := currentTime }
    let c := { c with _previousLedState := c._currentLedState }
    match c._currentLedState with
    | LedState.IDLE => { c with leds0 := COLOR_IDLE }
    | LedState.WORK => { c with leds0 := COLOR_WORK }
    | LedState.BREAK => { c with leds0 := COLOR_BREAK }
    | LedState.BLINKING => c
  else c

/-- The method `update()`, called when the external clock shows `clock`. -/
def update (clock : Nat) (c : NeoPixelController) : NeoPixelController :=
  let currentTime := millis clock
  if c._currentLedState ≠ LedState.BLINKING
      ∧ toU32 ((currentTime : Int) - c.lastUpdate) < UPDATE_INTERVAL_MS then
    c
  else
    let c := updateBlink currentTime c
    let c := updateSteady currentTime c
    { c with fastLedShows := c.fastLedShows + 1 }

/-- The method `blinkLight(sweeps, phase_duration_ms)`, called when the external
clock shows `clock`. -/
def blinkLight (clock : Nat) (sweeps phase_duration_ms : Int) (c : NeoPixelController) :
    NeoPixelController :=
  let c :=
    if c._currentLedState ≠ LedState.BLINKING then
      { c with _previousLedState := c._currentLedState }
    else c
  let c := { c with _currentLedState := LedState.BLINKING }
  let c := { c with _blink_sweeps_todo := sweeps }
  let c := { c with _blink_sweeps_done := 0 }
  let c := { c with _blink_color_idx := 0 }
  let c := { c with _blink_is_on_phase := true }
  let c := { c with _blink_phase_duration_ms := phase_duration_ms }
  let c := { c with _blink_phase_next_change_time :=
                      toU32 ((millis clock : Int) + c._blink_phase_duration_ms) }
  let c :=
    if c._previousLedState ≠ LedState.BLINKING then
      { c with _blink_original_brightness := c.fastLedBrightness }
    else c
  let c := { c with fastLedBrightness := 255 }
  { c with leds0 := BLINK_COLORS c._blink_color_idx }

end NeoPixelController

/-- The colour `update()` paints for a steady state. -/
def steadyColor : LedState → CRGB
  | LedState.IDLE => COLOR_IDLE
  | LedState.WORK => COLOR_WORK
  | LedState.BREAK => COLOR_BREAK
  | LedState.BLINKING => CRGB_Black

/-- Run `update()` once for each clock reading of the list, in order. -/
def NeoPixelController.updates (c : NeoPixelController) (clocks : List Nat) :
    NeoPixelController :=
  clocks.foldl (fun c t => NeoPixelController.update t c) c

/-- An `update()` at clock reading `clock` performs a blink phase change: the
controller is Blinking and the time has reached the phase deadline. -/
def NeoPixelController.phaseDue (c : NeoPixelController) (clock : Nat) : Bool :=
  decide (c._currentLedState = LedState.BLINKING
    ∧ millis clock ≥ c._blink_phase_next_change_time)

/-- The number of `update()` calls of the run that reached the phase deadline. -/
def NeoPixelController.dueCount : NeoPixelController → List Nat → Nat
  | _, [] => 0
  | c, t :: ts =>
    (if c.phaseDue t then 1 else 0) + dueCount (NeoPixelController.update t c) ts

/-- A call of the controller's public interface, with the clock reading at
which it happens where the method reads `millis()`. -/
inductive LightCall where
  | begin
  | setLedState (newState : LedState)
  | blinkLight (clock : Nat) (sweeps phase_duration_ms : Int)
  | update (clock : Nat)
deriving DecidableEq, Repr

/-- Perform one call. -/
def LightCall.apply : LightCall → NeoPixelController → NeoPixelController
  | LightCall.begin, c => c.begin
  | LightCall.setLedState s, c => c.setLedState s
  | LightCall.blinkLight clock n d, c => c.blinkLight clock n d
  | LightCall.update clock, c => NeoPixelController.update clock c

/-- Perform a sequence of calls, in order. -/
def NeoPixelController.runCalls (c : NeoPixelController) (calls : List LightCall) :
    NeoPixelController :=
  calls.foldl (fun c call => call.apply c) c

/-- The call is a `blinkLight` or an `update`. -/
def LightCall.isBlinkOrUpdate : LightCall → Bool
  | LightCall.blinkLight _ _ _ => true
  | LightCall.update _ => true
  | _ => false

/-- The early-return test of `update()`: the state is steady and fewer than
`UPDATE_INTERVAL_MS` milliseconds (modulo `2^32`) have passed since `lastUpdate`. -/
def NeoPixelController.rateLimited (c : NeoPixelController) (clock : Nat) : Bool :=
  decide (c._currentLedState ≠ LedState.BLINKING
    ∧ toU32 ((millis clock : Int) - c.lastUpdate) < UPDATE_INTERVAL_MS)

/-! ## Single-precision arithmetic

`updateDisplay` computes the progress percentage in `float`. The values that
occur are non-negative and far from the limits of the exponent range, so a
`float` is modelled as zero or a number `mant * 2^exp` with a 24-bit
significand `2^23 ≤ mant < 2^24`, and each operation returns the exact result
rounded to such a number, ties to even (IEEE 754 binary32, the arithmetic of
the target's FPU). -/

/-- A non-negative finite `float`: the number `mant * 2^exp`. -/
structure F32 where
  mant : Nat
  exp : Int
deriving DecidableEq, Repr

/-- Division of `n` by `d` rounded to the nearest integer, ties to even. -/
def roundHalfEven (n d : Nat) : Nat :=
  if 2 * (n % d) < d then n / d
  else if d < 2 * (n % d) then n / d + 1
  else if (n / d) % 2 = 0 then n / d
  else n / d + 1

/-- Helper of `floorLog2`, with the recursion bounded by `fuel`. -/
def floorLog2Aux : Nat → Nat → Nat
  | 0, _ => 0
  | fuel + 1, n => if n < 2 then 0 else floorLog2Aux fuel (n / 2) + 1

/-- The position of the highest set bit of `n` (0 for `n ≤ 1`). -/
def floorLog2 (n : Nat) : Nat := floorLog2Aux n n

/-- Renormalise after rounding: a significand rounded up to `2^24` becomes
`2^23` with the exponent raised by one; zero has exponent 0. -/
def f32Normalize (m : Nat) (e : Int) : F32 :=
  if m = 0 then ⟨0, 0⟩
  else if m = 16777216 then ⟨8388608, e + 1⟩
  else ⟨m, e⟩

/-- Conversion of a non-negative `int` to `float`. -/
def f32OfNat (n : Nat) : F32 :=
  if n = 0 then ⟨0, 0⟩
  else if floorLog2 n ≤ 23 then ⟨n * 2 ^ (23 - floorLog2 n), (floorLog2 n : Int) - 23⟩
  else f32Normalize (roundHalfEven n (2 ^ (floorLog2 n - 23))) ((floorLog2 n : Int) - 23)

/-- The `float` quotient `a / b` (`b` not zero): the quotient of the
significands lies in `(1/2, 2)` and is scaled into `[2^23, 2^24)`. -/
def f32Div (a b : F32) : F32 :=
  if a.mant < b.mant then
    f32Normalize (roundHalfEven (a.mant * 16777216) b.mant) (a.exp - b.exp - 24)
  else
    f32Normalize (roundHalfEven (a.mant * 8388608) b.mant) (a.exp - b.exp - 23)

/-- The `float` product `a * b`: the product of the significands lies in
`[2^46, 2^48)` and is scaled into `[2^23, 2^24)`. -/
def f32Mul (a b : F32) : F32 :=
  if a.mant * b.mant < 140737488355328 then
    f32Normalize (roundHalfEven (a.mant * b.mant) 8388608) (a.exp + b.exp + 23)
  else
    f32Normalize (roundHalfEven (a.mant * b.mant) 16777216) (a.exp + b.exp + 24)

/-- Conversion of a `float` to an integer type: truncation toward zero. -/
def f32Trunc (a : F32) : Int :=
  if 0 ≤ a.exp then ((a.mant * 2 ^ a.exp.toNat : Nat) : Int)
  else ((a.mant / 2 ^ (-a.exp).toNat : Nat) : Int)

/-- Wrap an integer into the range of `int16_t`. -/
def wrapInt16 (x : Int) : Int := (x + 32768) % 65536 - 32768

/-! ## PomodoroCard -/

/-- The callback an LVGL timer runs: the lambda registered by `startTimer`
(it calls `updateDisplay`) or `effects_timer_cb`. -/
inductive TimerCb where
  | display
  | effects
deriving DecidableEq, Repr

/-- An LVGL timer: its handle, callback, period in ms and repeat count
(`-1` repeats forever). -/
structure LvTimer where
  id : Nat
  cb : TimerCb
  period : Nat
  repeat_count : Int
deriving DecidableEq, Repr

/-- The members of `PomodoroCard`. A widget pointer is `none` when null;
otherwise it carries what the card last wrote to the widget: the text of a
label, the value of the arc, the background colour. A timer pointer is the
handle of the LVGL timer. -/
structure PomodoroCard where
  _card : Bool
  _background : Option Nat
  _label : Option String
  _label_shadow : Option String
  _tally_label : Option String
  _progress_arc : Option Int
  _timer : Option Nat
  _effects_timer : Option Nat
  _is_running : Bool
  _is_work_mode : Bool
  _remaining_seconds : Int
  _completed_work_sessions : Int
deriving DecidableEq, Repr

/-- Everything the card's methods read and write: the card, the global
`neoPixelController` pointer (`none` when null), LVGL's timer list with the
next free handle, and the number of rainbow animations started. -/
structure System where
  card : PomodoroCard
  neoPixelController : Option NeoPixelController
  lvTimers : List LvTimer
  lvNextId : Nat
  lvAnimsStarted : Nat
deriving DecidableEq, Repr

def WORK_TIME : Int := 25 * 60
def BREAK_TIME : Int := 5 * 60
def WORK_BG_COLOR : Nat := 0xE07A5F
def BREAK_BG_COLOR : Nat := 0x3A5A7A

/-- LVGL's `lv_timer_create(cb, period, user_data)`: a new timer that repeats
forever; returns the system and the handle. -/
def lv_timer_create (cb : TimerCb) (period : Nat) (w : System) : System × Nat :=
  ({ w with lvTimers := w.lvTimers ++ [⟨w.lvNextId, cb, period, -1⟩]
            lvNextId := w.lvNextId + 1 }, w.lvNextId)

/-- LVGL's `lv_timer_del(timer)`. -/
def lv_timer_del (id : Nat) (w : System) : System :=
  { w with lvTimers := w.lvTimers.filter (fun t => t.id ≠ id) }

/-- LVGL's `lv_timer_set_repeat_count(timer, n)`. -/
def lv_timer_set_repeat_count (id : Nat) (n : Int) (w : System) : System :=
  { w with lvTimers := w.lvTimers.map (fun t => if t.id = id then { t with repeat_count := n } else t) }

/-- The call `neoPixelController->setLedState(s)` behind its null check. -/
def setLight (s : LedState) (w : System) : System :=
  match w.neoPixelController with
  | some c => { w with neoPixelController := some (c.setLedState s) }
  | none => w

/-- The conversion `%02d` of `printf`. -/
def fmt02d (v : Int) : String :=
  if v < 0 then "-" ++ toString v.natAbs
  else if v.natAbs < 10 then "0" ++ toString v.natAbs
  else toString v.natAbs

/-- The text `"%02d:%02d"` of minutes and seconds, before truncation. -/
def formatTime (minutes seconds : Int) : String :=
  fmt02d minutes ++ ":" ++ fmt02d seconds

/-- The call `snprintf(buf, 6, ...)`: the formatted text cut to the five
characters that fit the buffer with its terminator. -/
def snprintf6 (s : String) : String := String.mk (s.data.take 5)

/-- The text `updateDisplay` writes for `_remaining_seconds`. -/
def timeText (remaining : Int) : String :=
  snprintf6 (formatTime (Int.tdiv remaining 60) (Int.tmod remaining 60))

/-- The progress value of `updateDisplay` (source lines 176-180). The cast of
an out-of-range `float` to `int16_t` is undefined in C++ and wraps here. -/
def progressPercent (is_work_mode : Bool) (remaining : Int) : Int :=
  let total_seconds_in_mode : Int := if is_work_mode then WORK_TIME else BREAK_TIME
  let total_seconds_in_mode : Int := if total_seconds_in_mode = 0 then 1 else total_seconds_in_mode
  if remaining ≥ 0 then
    wrapInt16 (f32Trunc (f32Mul
      (f32Div (f32OfNat remaining.toNat) (f32OfNat total_seconds_in_mode.toNat)) (f32OfNat 100)))
  else 0

/-- The text `updateTallyDisplay` builds in its loop `for (i = 1; i <= n; ++i)`. -/
def tallyString (n : Int) : String :=
  (List.range n.toNat).foldl
    (fun (tally_str : String) (j : Nat) =>
      let i : Int := (j : Int) + 1
      let tally_str := if i % 5 = 0 then tally_str ++ "/" else tally_str ++ "|"
      if i % 5 = 0 ∧ i ≠ n then tally_str ++ " " else tally_str)
    ""

namespace PomodoroCard

/-- The method `updateTallyDisplay()`. -/
def updateTallyDisplay (w : System) : System :=
  if w.card._tally_label.isNone then w
  else if w.card._completed_work_sessions = 0 then
    { w with card := { w.card with _tally_label := some "" } }
  else
    { w with card := { w.card with _tally_label := some (tallyString w.card._completed_work_sessions) } }

/-- The method `stopTimer()`. -/
def stopTimer (w : System) : System :=
  let w := { w with card := { w.card with _is_running := false } }
  let w :=
    match w.card._timer with
    | some t => { lv_timer_del t w with card := { w.card with _timer := none } }
    | none => w
  let w :=
    match w.card._effects_timer with
    | some t => { lv_timer_del t w with card := { w.card with _effects_timer := none } }
    | none => w
  setLight LedState.IDLE w

/-- The tail of `updateDisplay()` (source lines 174-196), reached when the
countdown has not expired: progress arc, time labels, background colour. It
runs behind the null guard of `updateDisplay()`, so both labels exist. -/
def refreshDisplay (w : System) : System :=
  let w :=
    if w.card._progress_arc.isSome then
      { w with card := { w.card with
          _progress_arc := some (progressPercent w.card._is_work_mode w.card._remaining_seconds) } }
    else w
  let time_str := timeText w.card._remaining_seconds
  let w := { w with card := { w.card with _label := some time_str } }
  let w := { w with card := { w.card with _label_shadow := some time_str } }
  if !w.card._is_running ∧ w.card._background.isSome then
    { w with card := { w.card with
        _background := some (if w.card._is_work_mode then WORK_BG_COLOR else BREAK_BG_COLOR) } }
  else w

/-- The part of `updateDisplay()` after `switchMode()` returns (source lines
150-170): schedule the one-shot effects timer and repaint. It runs behind the
null guard of `updateDisplay()`, so both labels exist. -/
def scheduleEffects (w : System) : System :=
  let w :=
    match w.card._effects_timer with
    | some t => { lv_timer_del t w with card := { w.card with _effects_timer := none } }
    | none => w
  let w := { (lv_timer_create TimerCb.effects 100 w).1 with
              card := { w.card with _effects_timer := some (lv_timer_create TimerCb.effects 100 w).2 } }
  let w :=
    match w.card._effects_timer with
    | some t => lv_timer_set_repeat_count t 1 w
    | none => w
  let time_str_after_switch := timeText w.card._remaining_seconds
  let w := { w with card := { w.card with _label := some time_str_after_switch } }
  let w := { w with card := { w.card with _label_shadow := some time_str_after_switch } }
  if w.card._progress_arc.isSome then
    { w with card := { w.card with _progress_arc := some 100 } }
  else w

/-- The first part of `switchMode()` (source lines 296-313): tally, mode
toggle, reset of the countdown, background colour, full progress arc. -/
def switchModeBegin (w : System) : System :=
  let w :=
    if w.card._is_work_mode then
      updateTallyDisplay { w with card := { w.card with
        _completed_work_sessions := wrapInt32 (w.card._completed_work_sessions + 1) } }
    else w
  let w := { w with card := { w.card with _is_work_mode := !w.card._is_work_mode } }
  let w := { w with card := { w.card with
    _remaining_seconds := if w.card._is_work_mode then WORK_TIME else BREAK_TIME } }
  let w :=
    if w.card._background.isSome then
      { w with card := { w.card with
          _background := some (if w.card._is_work_mode then WORK_BG_COLOR else BREAK_BG_COLOR) } }
    else w
  if w.card._progress_arc.isSome then
    { w with card := { w.card with _progress_arc := some 100 } }
  else w

/-- The last part of `switchMode()` (source lines 316-319). -/
def switchModeEnd (w : System) : System :=
  if w.card._is_running ∧ w.neoPixelController.isSome then
    setLight (if w.card._is_work_mode then LedState.WORK else LedState.BREAK) w
  else w

mutual

/-- The method `updateDisplay()`. -/
def updateDisplay (w : System) : System :=
  if w.card._label.isNone ∨ w.card._label_shadow.isNone then w
  else if w.card._is_running = true then
    if wrapInt32 (w.card._remaining_seconds - 1) < 0 then
      scheduleEffects (switchMode (stopTimer
        { w with card := { w.card with
            _remaining_seconds := wrapInt32 (w.card._remaining_seconds - 1) } }))
    else
      refreshDisplay
        { w with card := { w.card with
            _remaining_seconds := wrapInt32 (w.card._remaining_seconds - 1) } }
  else refreshDisplay w
termination_by (if w.card._is_running then 2 else 0)
decreasing_by
  rename_i hrun _
  simp only [hrun, if_true]
  cases h1 : w.card._timer <;> cases h2 : w.card._effects_timer <;>
    cases h3 : w.neoPixelController <;>
    simp [stopTimer, setLight, lv_timer_del, h1, h2, h3]

/-- The method `switchMode()`: `switchModeBegin`, the call of `updateDisplay()`,
`switchModeEnd`. -/
def switchMode (w : System) : System :=
  switchModeEnd (updateDisplay (switchModeBegin w))
termination_by (if w.card._is_running then 3 else 1)
decreasing_by
  have h : (switchModeBegin w).card._is_running = w.card._is_running := by
    simp only [switchModeBegin, updateTallyDisplay]
    split_ifs <;> rfl
  rw [h]
  split <;> decide

end

/-- The method `startTimer()`. -/
def startTimer (w : System) : System :=
  if w.card._is_running then w
  else
    let w := { w with card := { w.card with _is_running := true } }
    let w := updateDisplay w
    let w := setLight (if w.card._is_work_mode then LedState.WORK else LedState.BREAK) w
    if w.card._timer.isNone then
      { (lv_timer_create TimerCb.display 1000 w).1 with
          card := { w.card with _timer := some (lv_timer_create TimerCb.display 1000 w).2 } }
    else w

/-- The method `handleButtonPress(button_index)`: the system afterwards and
the returned flag. -/
def handleButtonPress (button_index : Nat) (w : System) : System × Bool :=
  if button_index = 1 then
    if w.card._is_running then (stopTimer w, true) else (startTimer w, true)
  else (w, false)

/-- The method `flashRainbow()`: starts one animation on the background. -/
def flashRainbow (w : System) : System :=
  if w.card._background.isNone then w
  else { w with lvAnimsStarted := w.lvAnimsStarted + 1 }

/-- The method `executePostTimerEffects()`, run when the clock shows `clock`. -/
def executePostTimerEffects (clock : Nat) (w : System) : System :=
  let w := flashRainbow w
  match w.neoPixelController with
  | some c => { w with neoPixelController := some (c.blinkLight clock 2 250) }
  | none => w

/-- The callback `effects_timer_cb(timer)` for the LVGL timer with handle
`timer`, run when the clock shows `clock`. -/
def effects_timer_cb (clock : Nat) (timer : Nat) (w : System) : System :=
  let w :=
    if w.card._effects_timer = some timer then
      { w with card := { w.card with _effects_timer := none } }
    else w
  executePostTimerEffects clock w

end PomodoroCard

/-! ## Auxiliary definitions used to state the results -/

/-- The `TimerSession` of the card: is-running flag, is-work-mode flag,
remaining seconds, completed work sessions. -/
structure TimerSession where
  is_running : Bool
  is_work_mode : Bool
  remaining_seconds : Int
  completed_work_sessions : Int
deriving DecidableEq, Repr

/-- The timer session held in the card's members. -/
def PomodoroCard.session (p : PomodoroCard) : TimerSession :=
  ⟨p._is_running, p._is_work_mode, p._remaining_seconds, p._completed_work_sessions⟩

/-- Both time labels exist, so `updateDisplay()` passes its null guard. -/
def System.labelsPresent (w : System) : Bool :=
  w.card._label.isSome && w.card._label_shadow.isSome

/-- The fixed duration of a mode: `WORK_TIME` or `BREAK_TIME`. -/
def modeDuration (is_work_mode : Bool) : Int :=
  if is_work_mode then WORK_TIME else BREAK_TIME

/-- Run `updateDisplay()` `k` times. -/
def PomodoroCard.ticks : Nat → System → System
  | 0, w => w
  | k + 1, w => PomodoroCard.ticks k (PomodoroCard.updateDisplay w)

/-- A system after a successful construction of the card and `begin()` of the
light controller: every widget exists, the countdown shows the full work time. -/
def System.fresh : System :=
  { card :=
      { _card := true
        _background := some WORK_BG_COLOR
        _label := some "25:00"
        _label_shadow := some "25:00"
        _tally_label := some ""
        _progress_arc := some 100
        _timer := none
        _effects_timer := none
        _is_running := false
        _is_work_mode := true
        _remaining_seconds := WORK_TIME
        _completed_work_sessions := 0 }
    neoPixelController := some NeoPixelController.new.begin
    lvTimers := []
    lvNextId := 0
    lvAnimsStarted := 0 }

/-- The system `System.fresh` after `startTimer()`: running with 1499 seconds
left, the 1 Hz timer registered with handle 0, the light in state Work. -/
def System.started : System :=
  { card :=
      { _card := true
        _background := some WORK_BG_COLOR
        _label := some "24:59"
        _label_shadow := some "24:59"
        _tally_label := some ""
        _progress_arc := some 99
        _timer := some 0
        _effects_timer := none
        _is_running := true
        _is_work_mode := true
        _remaining_seconds := 1499
        _completed_work_sessions := 0 }
    neoPixelController := some (NeoPixelController.new.begin.setLedState LedState.WORK)
    lvTimers := [⟨0, TimerCb.display, 1000, -1⟩]
    lvNextId := 1
    lvAnimsStarted := 0 }

/-- Replace the timer session of the card, leaving everything else. -/
def System.withSession (w : System) (s : TimerSession) : System :=
  { w with card := { w.card with
      _is_running := s.is_running
      _is_work_mode := s.is_work_mode
      _remaining_seconds := s.remaining_seconds
      _completed_work_sessions := s.completed_work_sessions } }

/-- The percentage of the mode's duration rounded to the nearest integer, as the
specification words the progress value: `round(remaining / modeDuration * 100)`. -/
def specRoundedPercent (is_work_mode : Bool) (remaining : Int) : Int :=
  (200 * remaining + modeDuration is_work_mode) / (2 * modeDuration is_work_mode)

/-- LVGL's handling of a due timer (`lv_timer_exec`): the repeat count, when
positive, is decremented, the callback runs, and a timer that still exists with
its repeat count at 0 is deleted. The `display` callback is the lambda of
`startTimer`, which calls `updateDisplay()`. -/
def lv_timer_exec (clock : Nat) (id : Nat) (w : System) : System :=
  match w.lvTimers.find? (fun t => t.id = id) with
  | none => w
  | some t =>
    let w := if t.repeat_count > 0 then lv_timer_set_repeat_count id (t.repeat_count - 1) w else w
    let w :=
      match t.cb with
      | TimerCb.display => PomodoroCard.updateDisplay w
      | TimerCb.effects => PomodoroCard.effects_timer_cb clock id w
    match w.lvTimers.find? (fun t => t.id = id) with
    | some t' => if t'.repeat_count = 0 then lv_timer_del id w else w
    | none => w

/-- Every LVGL timer in the list is one the card holds a handle of. -/
def System.timersOwned (w : System) : Bool :=
  w.lvTimers.all
    (fun t => decide (w.card._timer = some t.id ∨ w.card._effects_timer = some t.id))

/-- The system with both time labels missing (their creation failed). -/
def System.withoutLabels (w : System) : System :=
  { w with card := { w.card with _label := none, _label_shadow := none } }

/-- An operation on the card: a call of one of its methods or callbacks. -/
inductive TimerOp where
  | updateDisplay
  | startTimer
  | stopTimer
  | handleButtonPress (button_index : Nat)
  | effects_timer_cb (clock : Nat) (timer : Nat)
deriving DecidableEq, Repr

/-- Perform one operation. -/
def TimerOp.apply : TimerOp → System → System
  | TimerOp.updateDisplay, w => PomodoroCard.updateDisplay w
  | TimerOp.startTimer, w => PomodoroCard.startTimer w
  | TimerOp.stopTimer, w => PomodoroCard.stopTimer w
  | TimerOp.handleButtonPress i, w => (PomodoroCard.handleButtonPress i w).1
  | TimerOp.effects_timer_cb clock timer, w => PomodoroCard.effects_timer_cb clock timer w

/-- A call of `updateDisplay()` in this state takes the expiry branch: it
passes the null guard, the timer is running and the decremented countdown is
negative. -/
def System.tickExpires (w : System) : Bool :=
  w.labelsPresent && w.card._is_running
    && decide (wrapInt32 (w.card._remaining_seconds - 1) < 0)

/-- The operation expires the countdown: it reaches a call of `updateDisplay()`
that takes the expiry branch. `startTimer()` on a stopped timer sets the
running flag and calls `updateDisplay()`; `handleButtonPress(1)` on a stopped
timer calls `startTimer()`. -/
def TimerOp.expires : TimerOp → System → Bool
  | TimerOp.updateDisplay, w => w.tickExpires
  | TimerOp.startTimer, w =>
    !w.card._is_running
      && ({ w with card := { w.card with _is_running := true } } : System).tickExpires
  | TimerOp.stopTimer, _ => false
  | TimerOp.handleButtonPress i, w =>
    decide (i = 1) && !w.card._is_running
      && ({ w with card := { w.card with _is_running := true } } : System).tickExpires
  | TimerOp.effects_timer_cb _ _, _ => false

/-- The tally text as the specification describes it: one mark per completed
work session, the `k`-th mark (1-based) the closing glyph `/` when `k` is a
multiple of 5 and `|` otherwise, and one space after each closing glyph that
is not the final mark. -/
def specTallyChars (n : Nat) : List Char :=
  (List.range n).flatMap
    (fun j =>
      (if (j + 1) % 5 = 0 then '/' else '|')
        :: (if (j + 1) % 5 = 0 ∧ j + 1 ≠ n then [' '] else []))

/-- The marks of the tally text: the `k`-th (1-based) is `/` when `k` is a
multiple of 5 and `|` otherwise. -/
def specTallyMarks (n : Nat) : List Char :=
  (List.range n).map (fun j => if (j + 1) % 5 = 0 then '/' else '|')

/-- The outcome of the widget creations in the constructor of the card: for
each widget, whether LVGL could create it (a failed creation returns null). -/
structure WidgetAlloc where
  card : Bool
  background : Bool
  progress_arc : Bool
  label_shadow : Bool
  label : Bool
  tally_label : Bool
deriving DecidableEq, Repr

/-- Every widget creation succeeds. -/
def WidgetAlloc.all : WidgetAlloc := ⟨true, true, true, true, true, true⟩

/-- The member initialisers of the constructor of the card, with the global
light controller pointer `neo` and no LVGL timers yet. -/
def PomodoroCard.initial (neo : Option NeoPixelController) : System :=
  { card :=
      { _card := false
        _background := none
        _label := none
        _label_shadow := none
        _tally_label := none
        _progress_arc := none
        _timer := none
        _effects_timer := none
        _is_running := false
        _is_work_mode := true
        _remaining_seconds := WORK_TIME
        _completed_work_sessions := 0 }
    neoPixelController := neo
    lvTimers := []
    lvNextId := 0
    lvAnimsStarted := 0 }

/-- The constructor `PomodoroCard::PomodoroCard(parent)`. It returns early
when the card or its background cannot be created. A label LVGL has just
created shows LVGL's default text `"Text"`. -/
def PomodoroCard.new (alloc : WidgetAlloc) (neo : Option NeoPixelController) : System :=
  let w := PomodoroCard.initial neo
  if !alloc.card then w
  else
    let w := { w with card := { w.card with _card := true } }
    if !alloc.background then w
    else
      let w := { w with card := { w.card with _background := some WORK_BG_COLOR } }
      let w :=
        if alloc.progress_arc then { w with card := { w.card with _progress_arc := some 100 } }
        else w
      let w :=
        if alloc.label_shadow then { w with card := { w.card with _label_shadow := some "Text" } }
        else w
      let w :=
        if alloc.label then { w with card := { w.card with _label := some "Text" } }
        else w
      let w :=
        if alloc.tally_label then { w with card := { w.card with _tally_label := some "Text" } }
        else w
      let w := PomodoroCard.updateDisplay w
      let w := PomodoroCard.updateTallyDisplay w
      setLight LedState.IDLE w

/-- What can happen to a constructed card: a button press, or LVGL running one
of the timers in its list (the 1 Hz periodic or the one-shot effects timer)
when the clock shows `clock`. -/
inductive CardEvent where
  | handleButtonPress (button_index : Nat)
  | timerFires (clock : Nat) (id : Nat)
deriving DecidableEq, Repr

/-- Perform one event. A timer that is not in LVGL's list does not fire
(`lv_timer_exec` leaves the system unchanged). -/
def CardEvent.apply : CardEvent → System → System
  | CardEvent.handleButtonPress i, w => (PomodoroCard.handleButtonPress i w).1
  | CardEvent.timerFires clock id, w => lv_timer_exec clock id w

/-- Perform a sequence of events, in order. -/
def System.runEvents (w : System) (events : List CardEvent) : System :=
  events.foldl (fun w e => e.apply w) w

/-- The remaining seconds of the session lie between 0 and the duration of its
mode. -/
def TimerSession.inRange (s : TimerSession) : Prop :=
  0 ≤ s.remaining_seconds ∧ s.remaining_seconds ≤ modeDuration s.is_work_mode

/-- The events of a pause at 00:00: the button starts the timer, the 1 Hz
timer (handle 0) fires 1499 times, one second apart, taking the countdown from
1499 to 0, the button stops the timer, and the button starts it again. -/
def CardEvent.pauseAtZero : List CardEvent :=
  [CardEvent.handleButtonPress 1]
    ++ ((List.range 1499).map (fun j => 1000 * (j + 1))).map
        (fun clock => CardEvent.timerFires clock 0)
    ++ [CardEvent.handleButtonPress 1, CardEvent.handleButtonPress 1]

/-- The 1 Hz periodic is registered: the card holds a handle in `_timer` and
LVGL's list has a timer with that handle that runs the display callback. -/
def System.periodicRegistered (w : System) : Bool :=
  w.lvTimers.any (fun t => decide (t.cb = TimerCb.display ∧ w.card._timer = some t.id))

/-- A call that reaches a constructed card from outside: an event (a button
press, LVGL running a timer), or one of the public methods `updateDisplay()`
and `updateTallyDisplay()` called directly. -/
inductive CardCall where
  | event (e : CardEvent)
  | updateDisplay
  | updateTallyDisplay
deriving DecidableEq, Repr

/-- Perform one call. -/
def CardCall.apply : CardCall → System → System
  | CardCall.event e, w => e.apply w
  | CardCall.updateDisplay, w => PomodoroCard.updateDisplay w
  | CardCall.updateTallyDisplay, w => PomodoroCard.updateTallyDisplay w

/-- Perform a sequence of calls, in order. -/
def System.runCardCalls (w : System) (calls : List CardCall) : System :=
  calls.foldl (fun w c => c.apply w) w

/-- Every LVGL timer in the list is the card's: a forever-repeating timer with
the display callback whose handle is in `_timer`, or a one-shot timer with the
effects callback whose handle is in `_effects_timer`. -/
def System.timersWellFormed (w : System) : Bool :=
  w.lvTimers.all
    (fun t =>
      decide
        ((t.cb = TimerCb.display ∧ t.repeat_count = -1 ∧ w.card._timer = some t.id)
          ∨ (t.cb = TimerCb.effects ∧ t.repeat_count = 1
            ∧ w.card._effects_timer = some t.id)))

/-- The creation of both time labels fails; every other widget is created. -/
def WidgetAlloc.withoutLabels : WidgetAlloc := ⟨true, true, true, false, false, true⟩

/-- Firings of the LVGL timer with handle `id`, one for each clock value. -/
def CardEvent.firings (id : Nat) (clocks : List Nat) : List CardEvent :=
  clocks.map (fun clock => CardEvent.timerFires clock id)

/-- The clock values `1000, 2000, ..., 1000 * n`: a timer of period 1000 ms
running on time. -/
def secondsClock (n : Nat) : List Nat :=
  (List.range n).map (fun j => 1000 * (j + 1))

/-- The progress of a blink: the number of phase changes performed since
`blinkLight`, read off the sweep counter, the colour index and the phase flag. -/
def NeoPixelController.blinkProgress (c : NeoPixelController) : Int :=
  6 * c._blink_sweeps_done + 2 * c._blink_color_idx + (if c._blink_is_on_phase then 0 else 1)

/-- The invariant of a running blink of `n` sweeps that will restore `s`. -/
structure BlinkInv (c : NeoPixelController) (s : LedState) (n : Int) : Prop where
  cur : c._currentLedState = LedState.BLINKING
  prev : c._previousLedState = s
  todo : c._blink_sweeps_todo = n
  idx0 : 0 ≤ c._blink_color_idx
  idx3 : c._blink_color_idx < 3
  done0 : 0 ≤ c._blink_sweeps_done
  doneN : c._blink_sweeps_done < n


/-! ## Theorems: NeoPixelController -/

open NeoPixelController

theorem wrapInt32_id (x : Int) (h0 : -2147483648 ≤ x) (h1 : x < 2147483648) :
    wrapInt32 x = x := by
  unfold wrapInt32
  omega

theorem blinkLight_inv (c : NeoPixelController) (clock : Nat) (n d : Int)
    (hc : c._currentLedState ≠ LedState.BLINKING) (hn : 1 ≤ n) :
    BlinkInv (c.blinkLight clock n d) c._currentLedState n
      ∧ (c.blinkLight clock n d).blinkProgress = 0 := by
  refine ⟨⟨?_, ?_, ?_, ?_, ?_, ?_, ?_⟩, ?_⟩
  all_goals simp [blinkLight, hc, blinkProgress]
  all_goals omega

theorem update_not_due (c : NeoPixelController) (t : Nat)
    (hc : c._currentLedState = LedState.BLINKING) (hd : c.phaseDue t = false) :
    update t c = { c with fastLedShows := c.fastLedShows + 1 } := by
  have h : ¬ (c._blink_phase_next_change_time ≤ millis t) := by
    simpa [phaseDue, hc] using hd
  simp [update, updateBlink, updateSteady, hc, h]

theorem update_steady_state (c : NeoPixelController) (t : Nat)
    (hc : c._currentLedState ≠ LedState.BLINKING) :
    (update t c)._currentLedState = c._currentLedState := by
  simp only [update]
  split_ifs
  · rfl
  · cases h : c._currentLedState <;> simp_all [updateBlink, updateSteady]

theorem updates_steady_state (ts : List Nat) (c : NeoPixelController)
    (hc : c._currentLedState ≠ LedState.BLINKING) :
    (c.updates ts)._currentLedState = c._currentLedState ∧ c.dueCount ts = 0 := by
  induction ts generalizing c with
  | nil => simp [updates, dueCount]
  | cons t ts ih =>
    have h1 := update_steady_state c t hc
    have h2 := ih (update t c) (by rw [h1]; exact hc)
    simp only [updates, List.foldl_cons, dueCount] at h2 ⊢
    refine ⟨by rw [← h1]; exact h2.1, ?_⟩
    simp [phaseDue, hc, h2.2]

theorem update_due (c : NeoPixelController) (s : LedState) (n : Int) (t : Nat)
    (hinv : BlinkInv c s n) (hs : s ≠ LedState.BLINKING) (hn : n < 2147483648)
    (hd : c.phaseDue t = true) :
    (c.blinkProgress + 1 < 6 * n →
        BlinkInv (update t c) s n ∧ (update t c).blinkProgress = c.blinkProgress + 1)
      ∧ (c.blinkProgress + 1 = 6 * n → (update t c)._currentLedState = s)
      ∧ c.blinkProgress + 1 ≤ 6 * n := by
  obtain ⟨hcur, hprev, htodo, hi0, hi3, hd0, hdn⟩ := hinv
  have hdue : c._blink_phase_next_change_time ≤ millis t := by
    simpa [phaseDue, hcur] using hd
  obtain ⟨cur, prev, lu, todo, done, idx, isOn, next, dur, ob, led, br, sh⟩ := c
  simp only at hcur hprev htodo hi0 hi3 hd0 hdn hdue
  subst hcur hprev htodo
  have hw1 : wrapInt32 (idx + 1) = idx + 1 := wrapInt32_id _ (by omega) (by omega)
  have hw2 : wrapInt32 (done + 1) = done + 1 := wrapInt32_id _ (by omega) (by omega)
  cases isOn
  · -- was OFF: advance the colour, maybe the sweep, maybe finish
    by_cases h3 : 3 ≤ idx + 1
    · by_cases hfin : todo ≤ done + 1
      · refine ⟨?_, ?_, ?_⟩
        · intro h; simp [blinkProgress] at h; omega
        · intro _
          cases prev <;>
            simp_all [update, updateBlink, updateSteady, NUM_BLINK_COLORS]
        · simp [blinkProgress]; omega
      · refine ⟨?_, ?_, ?_⟩
        · intro _
          refine ⟨⟨?_, ?_, ?_, ?_, ?_, ?_, ?_⟩, ?_⟩ <;>
            simp [update, updateBlink, updateSteady, NUM_BLINK_COLORS, hdue, hw1,
              hw2, h3, hfin, blinkProgress] <;> omega
        · intro h; simp [blinkProgress] at h; omega
        · simp [blinkProgress]; omega
    · have hfin : ¬ todo ≤ done := by omega
      refine ⟨?_, ?_, ?_⟩
      · intro _
        refine ⟨⟨?_, ?_, ?_, ?_, ?_, ?_, ?_⟩, ?_⟩ <;>
          simp [update, updateBlink, updateSteady, NUM_BLINK_COLORS, hdue, hw1,
            h3, hfin, blinkProgress] <;> omega
      · intro h; simp [blinkProgress] at h; omega
      · simp [blinkProgress]; omega
  · -- was ON: turn off
    refine ⟨?_, ?_, ?_⟩
    · intro _
      refine ⟨⟨?_, ?_, ?_, ?_, ?_, ?_, ?_⟩, ?_⟩ <;>
        simp [update, updateBlink, updateSteady, hdue, blinkProgress] <;> omega
    · intro h; simp [blinkProgress] at h; omega
    · simp [blinkProgress]; omega

theorem blinkProgress_lt (c : NeoPixelController) (s : LedState) (n : Int)
    (hinv : BlinkInv c s n) : 0 ≤ c.blinkProgress ∧ c.blinkProgress < 6 * n := by
  obtain ⟨_, _, _, hi0, hi3, hd0, hdn⟩ := hinv
  unfold blinkProgress
  split <;> omega

theorem blinkInv_shows (c : NeoPixelController) (s : LedState) (n : Int) (k : Nat)
    (hinv : BlinkInv c s n) : BlinkInv { c with fastLedShows := k } s n :=
  ⟨hinv.cur, hinv.prev, hinv.todo, hinv.idx0, hinv.idx3, hinv.done0, hinv.doneN⟩

theorem updates_blinking (ts : List Nat) (c : NeoPixelController) (s : LedState) (n : Int)
    (hinv : BlinkInv c s n) (hs : s ≠ LedState.BLINKING) (hn : n < 2147483648) :
    c.blinkProgress + c.dueCount ts ≤ 6 * n
      ∧ (c.blinkProgress + c.dueCount ts < 6 * n →
          (c.updates ts)._currentLedState = LedState.BLINKING)
      ∧ (c.blinkProgress + c.dueCount ts = 6 * n → (c.updates ts)._currentLedState = s) := by
  induction ts generalizing c with
  | nil =>
    have h := blinkProgress_lt c s n hinv
    simp only [dueCount, updates, List.foldl_nil, Nat.cast_zero, add_zero]
    exact ⟨by omega, fun _ => hinv.cur, fun h' => by omega⟩
  | cons t ts ih =>
    simp only [dueCount, updates, List.foldl_cons]
    cases hd : c.phaseDue t
    · -- the deadline is not reached: nothing but the show count changes
      rw [update_not_due c t hinv.cur hd]
      have h := ih _ (blinkInv_shows c s n (c.fastLedShows + 1) hinv)
      simpa [updates, blinkProgress] using h
    · obtain ⟨h1, h2, h3⟩ := update_due c s n t hinv hs hn hd
      rcases lt_or_eq_of_le h3 with hlt | heq
      · obtain ⟨hinv', hp⟩ := h1 hlt
        have h := ih _ hinv'
        rw [hp] at h
        simp only [updates] at h
        simp only [if_true, Nat.cast_add, Nat.cast_one]
        refine ⟨by omega, fun h' => h.2.1 (by omega), fun h' => h.2.2 (by omega)⟩
      · have hcur := h2 heq
        have hst := updates_steady_state ts (update t c) (by rw [hcur]; exact hs)
        simp only [updates] at hst
        simp only [if_true, Nat.cast_add, Nat.cast_one, hst.2, Nat.cast_zero, add_zero]
        refine ⟨by omega, fun h' => by omega, fun _ => by rw [hst.1, hcur]⟩

/-- C1: after `blinkLight(n, d)` in a steady state `s` (with `n ≥ 1` an `int`),
and only `update()` calls afterwards, the controller is Blinking as long as
fewer than `6n` updates have reached the phase deadline, and from the `6n`-th
such update on the current state is `s`; no run has more than `6n` such
updates. An `update()` that has not reached the deadline changes nothing but
the number of `show()` calls. -/
theorem C1_blink_lasts_n_sweeps (c0 : NeoPixelController) (s : LedState) (n d : Int)
    (clock : Nat) (hs : s ≠ LedState.BLINKING) (hc : c0._currentLedState = s)
    (hn1 : 1 ≤ n) (hn2 : n < 2147483648) :
    (∀ ts : List Nat,
        ((c0.blinkLight clock n d).dueCount ts : Int) ≤ 6 * n
        ∧ (((c0.blinkLight clock n d).dueCount ts : Int) < 6 * n →
            ((c0.blinkLight clock n d).updates ts)._currentLedState = LedState.BLINKING)
        ∧ (((c0.blinkLight clock n d).dueCount ts : Int) = 6 * n →
            ((c0.blinkLight clock n d).updates ts)._currentLedState = s))
      ∧ (∀ (c : NeoPixelController) (t : Nat), c._currentLedState = LedState.BLINKING →
          c.phaseDue t = false → update t c = { c with fastLedShows := c.fastLedShows + 1 }) := by
  refine ⟨fun ts => ?_, update_not_due⟩
  obtain ⟨hinv, hp⟩ := blinkLight_inv c0 clock n d (by rw [hc]; exact hs) hn1
  rw [hc] at hinv
  have h := updates_blinking ts _ s n hinv hs hn2
  rw [hp] at h
  simpa using h

/-- Witness for C1: one sweep from the Work state, six due updates. -/
theorem C1_blink_lasts_n_sweeps_witness :
    ((((NeoPixelController.new.begin.setLedState LedState.WORK).blinkLight 0 1 0).updates
        [0, 0, 0, 0, 0])._currentLedState = LedState.BLINKING)
      ∧ ((((NeoPixelController.new.begin.setLedState LedState.WORK).blinkLight 0 1 0).updates
        [0, 0, 0, 0, 0, 0])._currentLedState = LedState.WORK) := by
  have h := C1_blink_lasts_n_sweeps (NeoPixelController.new.begin.setLedState LedState.WORK)
    LedState.WORK 1 0 0 (by decide) (by decide) (by decide) (by decide)
  exact ⟨(h.1 [0, 0, 0, 0, 0]).2.1 (by decide), (h.1 [0, 0, 0, 0, 0, 0]).2.2 (by decide)⟩

theorem blinkLight_keeps_origin (c : NeoPixelController) (s : LedState) (clock : Nat)
    (n d : Int) (hs : s ≠ LedState.BLINKING)
    (h : (c._currentLedState = LedState.BLINKING ∨ c._currentLedState = s)
      ∧ c._previousLedState = s) :
    ((c.blinkLight clock n d)._currentLedState = LedState.BLINKING
        ∨ (c.blinkLight clock n d)._currentLedState = s)
      ∧ (c.blinkLight clock n d)._previousLedState = s := by
  obtain ⟨cur, prev, lu, todo, done, idx, isOn, next, dur, ob, led, br, sh⟩ := c
  simp only at h
  obtain ⟨h1, h2⟩ := h
  subst h2
  rcases h1 with h1 | h1 <;> subst h1 <;> simp [blinkLight, hs]

theorem updateBlink_prev (c : NeoPixelController) (t : Nat) :
    (updateBlink t c)._previousLedState = c._previousLedState := by
  simp only [updateBlink]
  split_ifs <;> rfl

theorem updateBlink_cur (c : NeoPixelController) (t : Nat) :
    (updateBlink t c)._currentLedState = c._currentLedState
      ∨ (updateBlink t c)._currentLedState = c._previousLedState := by
  simp only [updateBlink]
  split_ifs <;> simp

theorem updateSteady_cur (c : NeoPixelController) (t : Nat) :
    (updateSteady t c)._currentLedState = c._currentLedState := by
  simp only [updateSteady]
  split_ifs with h
  · cases hc : c._currentLedState <;> simp
  · rfl

theorem updateSteady_prev (c : NeoPixelController) (t : Nat) :
    (updateSteady t c)._previousLedState
      = if c._currentLedState ≠ LedState.BLINKING then c._currentLedState
        else c._previousLedState := by
  simp only [updateSteady]
  split_ifs with h
  · cases hc : c._currentLedState <;> simp
  · rfl

theorem update_keeps_origin (c : NeoPixelController) (s : LedState) (t : Nat)
    (h : (c._currentLedState = LedState.BLINKING ∨ c._currentLedState = s)
      ∧ c._previousLedState = s) :
    ((update t c)._currentLedState = LedState.BLINKING
        ∨ (update t c)._currentLedState = s)
      ∧ (update t c)._previousLedState = s := by
  simp only [update]
  split_ifs with hr
  · exact h
  · have h1 := updateBlink_cur c (millis t)
    have h2 := updateBlink_prev c (millis t)
    simp only [updateSteady_cur, updateSteady_prev]
    rw [h.2] at h1 h2
    have h3 : (updateBlink (millis t) c)._currentLedState = LedState.BLINKING
        ∨ (updateBlink (millis t) c)._currentLedState = s := by
      rcases h1 with h1 | h1
      · rw [h1]; exact h.1
      · exact Or.inr h1
    refine ⟨h3, ?_⟩
    split_ifs with hb
    · exact h3.resolve_left hb
    · exact h2

theorem runCalls_keeps_origin (calls : List LightCall) (c : NeoPixelController)
    (s : LedState) (hs : s ≠ LedState.BLINKING)
    (hcalls : ∀ call ∈ calls, call.isBlinkOrUpdate = true)
    (h : (c._currentLedState = LedState.BLINKING ∨ c._currentLedState = s)
      ∧ c._previousLedState = s) :
    ((c.runCalls calls)._currentLedState = LedState.BLINKING
        ∨ (c.runCalls calls)._currentLedState = s)
      ∧ (c.runCalls calls)._previousLedState = s := by
  induction calls generalizing c with
  | nil => simpa [runCalls] using h
  | cons call calls ih =>
    have hrest : ∀ call ∈ calls, call.isBlinkOrUpdate = true :=
      fun x hx => hcalls x (List.mem_cons_of_mem _ hx)
    have hcall := hcalls call (List.mem_cons_self _ _)
    simp only [runCalls, List.foldl_cons]
    cases call with
    | begin => simp [LightCall.isBlinkOrUpdate] at hcall
    | setLedState st => simp [LightCall.isBlinkOrUpdate] at hcall
    | blinkLight clock n d =>
      exact ih _ hrest (blinkLight_keeps_origin c s clock n d hs h)
    | update clock =>
      exact ih _ hrest (update_keeps_origin c s clock h)

/-- C2: from a controller whose current state is a steady state `s`, after every
non-empty prefix of a sequence of `blinkLight` and `update` calls that begins
with a `blinkLight`, the current state is Blinking or `s`, and the saved
previous state (the one restored when the blinking ends) is `s`. -/
theorem C2_overlapping_blinks_keep_origin (c0 : NeoPixelController) (s : LedState)
    (clock : Nat) (n d : Int) (calls : List LightCall) (k : Nat)
    (hs : s ≠ LedState.BLINKING) (hc : c0._currentLedState = s)
    (hcalls : ∀ call ∈ calls, call.isBlinkOrUpdate = true) :
    ((c0.runCalls ((LightCall.blinkLight clock n d :: calls).take (k + 1)))._currentLedState
          = LedState.BLINKING
        ∨ (c0.runCalls ((LightCall.blinkLight clock n d :: calls).take (k + 1)))._currentLedState
          = s)
      ∧ (c0.runCalls ((LightCall.blinkLight clock n d :: calls).take (k + 1)))._previousLedState
          = s := by
  rw [List.take_succ_cons]
  simp only [runCalls, List.foldl_cons]
  refine runCalls_keeps_origin _ _ s hs
    (fun x hx => hcalls x (List.mem_of_mem_take hx)) ?_
  subst hc
  simp [LightCall.apply, blinkLight, hs]

/-- Witness for C2: two overlapping blinks of one sweep from Break, run to the end. -/
theorem C2_overlapping_blinks_keep_origin_witness :
    (((NeoPixelController.new.begin.setLedState LedState.BREAK).runCalls
        ((LightCall.blinkLight 0 1 0 ::
          [LightCall.update 0, LightCall.blinkLight 0 1 0, LightCall.update 0,
           LightCall.update 0, LightCall.update 0, LightCall.update 0, LightCall.update 0,
           LightCall.update 0]).take (8 + 1)))._currentLedState = LedState.BREAK)
      ∧ ((NeoPixelController.new.begin.setLedState LedState.BREAK).runCalls
        ((LightCall.blinkLight 0 1 0 ::
          [LightCall.update 0, LightCall.blinkLight 0 1 0, LightCall.update 0,
           LightCall.update 0, LightCall.update 0, LightCall.update 0, LightCall.update 0,
           LightCall.update 0]).take (8 + 1)))._previousLedState = LedState.BREAK := by
  have h := C2_overlapping_blinks_keep_origin
    (NeoPixelController.new.begin.setLedState LedState.BREAK) LedState.BREAK 0 1 0
    [LightCall.update 0, LightCall.blinkLight 0 1 0, LightCall.update 0,
     LightCall.update 0, LightCall.update 0, LightCall.update 0, LightCall.update 0,
     LightCall.update 0] 8 (by decide) (by decide) (by decide)
  exact ⟨h.1.resolve_left (by decide), h.2⟩

/-- C3 (failing input): `begin()`, `blinkLight(2, 250)` at 0 ms, then an
overlapping `blinkLight(2, 250)` at 100 ms. The second call happens while
Blinking with the saved brightness 50, and overwrites it with the blink
brightness 255; when the blink completes (12 phase changes later) the driver
brightness is 255, not the 50 in force before the first call. -/
theorem C3_overlapping_blink_overwrites_saved_brightness :
    (NeoPixelController.new.begin.blinkLight 0 2 250)._currentLedState = LedState.BLINKING
      ∧ NeoPixelController.new.begin.fastLedBrightness = 50
      ∧ (NeoPixelController.new.begin.blinkLight 0 2 250)._blink_original_brightness = 50
      ∧ ((NeoPixelController.new.begin.blinkLight 0 2 250).blinkLight 100 2 250)._blink_original_brightness
          = 255
      ∧ ((((NeoPixelController.new.begin.blinkLight 0 2 250).blinkLight 100 2 250).updates
          [350, 600, 850, 1100, 1350, 1600, 1850, 2100, 2350, 2600, 2850, 3100])._currentLedState
          = LedState.IDLE)
      ∧ ((((NeoPixelController.new.begin.blinkLight 0 2 250).blinkLight 100 2 250).updates
          [350, 600, 850, 1100, 1350, 1600, 1850, 2100, 2350, 2600, 2850, 3100]).fastLedBrightness
          = 255) := by
  decide

theorem updateBlink_shows (c : NeoPixelController) (t : Nat) :
    (updateBlink t c).fastLedShows = c.fastLedShows := by
  simp only [updateBlink]
  split_ifs <;> rfl

theorem updateSteady_shows (c : NeoPixelController) (t : Nat) :
    (updateSteady t c).fastLedShows = c.fastLedShows := by
  simp only [updateSteady]
  split_ifs with h
  · cases hc : c._currentLedState <;> simp
  · rfl

theorem updateSteady_leds0 (c : NeoPixelController) (t : Nat)
    (h : c._currentLedState ≠ LedState.BLINKING) :
    (updateSteady t c).leds0 = steadyColor c._currentLedState := by
  simp only [updateSteady]
  cases hc : c._currentLedState <;> simp_all [steadyColor]

/-- C4 (counterexample): a steady update at 1000 ms, `blinkLight` at 1001 ms,
`setLedState(WORK)`, and the very next `update()` at 1005 ms: the update
returns early and the pixel still shows the first blink colour. -/
theorem C4_next_update_may_be_rate_limited :
    ((NeoPixelController.update 1000 NeoPixelController.new.begin).blinkLight 1001 2 250)._currentLedState
        = LedState.BLINKING
      ∧ (NeoPixelController.update 1005
          (((NeoPixelController.update 1000 NeoPixelController.new.begin).blinkLight 1001 2 250).setLedState
            LedState.WORK)).leds0 = CRGB_Blue
      ∧ (NeoPixelController.update 1005
          (((NeoPixelController.update 1000 NeoPixelController.new.begin).blinkLight 1001 2 250).setLedState
            LedState.WORK)).leds0 ≠ COLOR_WORK := by
  decide

/-- C4 (amended): while Blinking, `setLedState(s)` with `s` steady makes the
current state `s` and sets the driver brightness to the saved original
brightness; the next `update()` paints `s`'s steady colour when it is not
rate-limited, and changes nothing when it is. -/
theorem C4_setLedState_cancels_blink (c : NeoPixelController) (s : LedState) (clock : Nat)
    (hc : c._currentLedState = LedState.BLINKING) (hs : s ≠ LedState.BLINKING) :
    (c.setLedState s)._currentLedState = s
      ∧ (c.setLedState s).fastLedBrightness = c._blink_original_brightness
      ∧ ((c.setLedState s).rateLimited clock = false →
          (NeoPixelController.update clock (c.setLedState s)).leds0 = steadyColor s)
      ∧ ((c.setLedState s).rateLimited clock = true →
          NeoPixelController.update clock (c.setLedState s) = c.setLedState s) := by
  have h1 : (c.setLedState s)._currentLedState = s := by simp [setLedState, hc, hs]
  refine ⟨h1, by simp [setLedState, hc, hs], ?_, ?_⟩
  · intro hr
    have hr' : ¬ ((c.setLedState s)._currentLedState ≠ LedState.BLINKING
        ∧ toU32 ((millis clock : Int) - (c.setLedState s).lastUpdate) < UPDATE_INTERVAL_MS) := by
      simpa [rateLimited] using hr
    simp only [update, if_neg hr']
    have hb : updateBlink (millis clock) (c.setLedState s) = c.setLedState s := by
      simp [updateBlink, h1, hs]
    rw [hb, updateSteady_leds0 _ _ (by rw [h1]; exact hs), h1]
  · intro hr
    have hr' : (c.setLedState s)._currentLedState ≠ LedState.BLINKING
        ∧ toU32 ((millis clock : Int) - (c.setLedState s).lastUpdate) < UPDATE_INTERVAL_MS := by
      simpa [rateLimited] using hr
    simp only [update, if_pos hr']

/-- Witness for C4 (amended). -/
theorem C4_setLedState_cancels_blink_witness :
    ((NeoPixelController.new.begin.blinkLight 0 2 250).setLedState LedState.BREAK)._currentLedState
        = LedState.BREAK
      ∧ ((NeoPixelController.new.begin.blinkLight 0 2 250).setLedState LedState.BREAK).fastLedBrightness
        = 50
      ∧ (NeoPixelController.update 16
          ((NeoPixelController.new.begin.blinkLight 0 2 250).setLedState LedState.BREAK)).leds0
        = COLOR_BREAK := by
  have h := C4_setLedState_cancels_blink (NeoPixelController.new.begin.blinkLight 0 2 250)
    LedState.BREAK 16 (by decide) (by decide)
  exact ⟨h.1, h.2.1, h.2.2.1 (by decide)⟩

/-- C5 (counterexample): an `update()` 5 ms after `begin()` returns early and
performs no `show()`. -/
theorem C5_rate_limited_update_shows_nothing :
    (NeoPixelController.update 5 NeoPixelController.new.begin).fastLedShows
      = NeoPixelController.new.begin.fastLedShows := by
  decide

/-- C5 (amended): every `update()` performs exactly one `show()`, except that a
rate-limited one (steady state, fewer than 16 ms since `lastUpdate`) returns
at once, performs none and changes nothing. -/
theorem C5_update_shows_once_unless_rate_limited (c : NeoPixelController) (clock : Nat) :
    (NeoPixelController.update clock c).fastLedShows
        = c.fastLedShows + (if c.rateLimited clock then 0 else 1)
      ∧ (c.rateLimited clock = true → NeoPixelController.update clock c = c) := by
  by_cases hr : c._currentLedState ≠ LedState.BLINKING
      ∧ toU32 ((millis clock : Int) - c.lastUpdate) < UPDATE_INTERVAL_MS
  · have hr' : c.rateLimited clock = true := by simpa [rateLimited] using hr
    simp only [update, if_pos hr, hr', if_true, add_zero, true_and, implies_true]
  · have hr' : c.rateLimited clock = false := by simpa [rateLimited] using hr
    simp [update, if_neg hr, hr', updateSteady_shows, updateBlink_shows]

/-! ## Theorems: PomodoroCard -/

open PomodoroCard

theorem setLight_card (s : LedState) (w : System) : (setLight s w).card = w.card := by
  unfold setLight
  split <;> rfl

theorem setLight_neo (s : LedState) (w : System) :
    (setLight s w).neoPixelController = w.neoPixelController.map (fun c => c.setLedState s) := by
  unfold setLight
  split <;> simp [*]

theorem stopTimer_card (w : System) :
    (stopTimer w).card
      = { w.card with _is_running := false, _timer := none, _effects_timer := none } := by
  cases h1 : w.card._timer <;> cases h2 : w.card._effects_timer <;>
    simp [stopTimer, setLight_card, lv_timer_del, h1, h2]

theorem stopTimer_neo (w : System) :
    (stopTimer w).neoPixelController
      = w.neoPixelController.map (fun c => c.setLedState LedState.IDLE) := by
  cases h1 : w.card._timer <;> cases h2 : w.card._effects_timer <;>
    simp [stopTimer, setLight_neo, lv_timer_del, h1, h2]

theorem refreshDisplay_session (w : System) :
    (refreshDisplay w).card.session = w.card.session := by
  simp only [refreshDisplay]
  split_ifs <;> rfl

theorem refreshDisplay_labels (w : System) : (refreshDisplay w).labelsPresent = true := by
  simp only [refreshDisplay, System.labelsPresent]
  split_ifs <;> rfl

theorem refreshDisplay_neo (w : System) :
    (refreshDisplay w).neoPixelController = w.neoPixelController := by
  simp only [refreshDisplay]
  split_ifs <;> rfl

theorem refreshDisplay_timer (w : System) :
    (refreshDisplay w).card._timer = w.card._timer := by
  simp only [refreshDisplay]
  split_ifs <;> rfl

theorem refreshDisplay_arc (w : System) (h : w.card._progress_arc.isSome = true) :
    (refreshDisplay w).card._progress_arc
      = some (progressPercent w.card._is_work_mode w.card._remaining_seconds) := by
  simp only [refreshDisplay, h, if_true]
  split_ifs <;> rfl

theorem updateDisplay_no_labels (w : System) (h : w.labelsPresent = false) :
    updateDisplay w = w := by
  have h' : w.card._label.isNone = true ∨ w.card._label_shadow.isNone = true := by
    simp only [System.labelsPresent, Bool.and_eq_false_iff] at h
    rcases h with h | h
    · left; cases hl : w.card._label <;> simp_all
    · right; cases hl : w.card._label_shadow <;> simp_all
  rw [updateDisplay, if_pos h']

theorem labels_guard (w : System) (h : w.labelsPresent = true) :
    ¬ (w.card._label.isNone = true ∨ w.card._label_shadow.isNone = true) := by
  simp only [System.labelsPresent, Bool.and_eq_true] at h
  cases hl : w.card._label <;> cases hs : w.card._label_shadow <;> simp_all

theorem updateDisplay_idle (w : System) (h : w.labelsPresent = true)
    (hr : w.card._is_running = false) : updateDisplay w = refreshDisplay w := by
  rw [updateDisplay, if_neg (labels_guard w h)]
  simp [hr]

theorem updateDisplay_count (w : System) (h : w.labelsPresent = true)
    (hr : w.card._is_running = true) (hpos : 0 ≤ wrapInt32 (w.card._remaining_seconds - 1)) :
    updateDisplay w
      = refreshDisplay { w with card := { w.card with
          _remaining_seconds := wrapInt32 (w.card._remaining_seconds - 1) } } := by
  rw [updateDisplay, if_neg (labels_guard w h)]
  simp [hr, not_lt.mpr hpos]

theorem updateDisplay_expire (w : System) (h : w.labelsPresent = true)
    (hr : w.card._is_running = true) (hneg : wrapInt32 (w.card._remaining_seconds - 1) < 0) :
    updateDisplay w
      = scheduleEffects (switchMode (stopTimer { w with card := { w.card with
          _remaining_seconds := wrapInt32 (w.card._remaining_seconds - 1) } })) := by
  rw [updateDisplay, if_neg (labels_guard w h)]
  simp [hr, hneg]

theorem updateTallyDisplay_session (w : System) :
    (updateTallyDisplay w).card.session = w.card.session
      ∧ (updateTallyDisplay w).labelsPresent = w.labelsPresent
      ∧ (updateTallyDisplay w).neoPixelController = w.neoPixelController := by
  simp only [updateTallyDisplay]
  split_ifs <;> exact ⟨rfl, rfl, rfl⟩

theorem switchModeBegin_session (w : System) :
    (switchModeBegin w).card.session
      = ⟨w.card._is_running, !w.card._is_work_mode, modeDuration (!w.card._is_work_mode),
          if w.card._is_work_mode then wrapInt32 (w.card._completed_work_sessions + 1)
          else w.card._completed_work_sessions⟩ := by
  have h := (updateTallyDisplay_session { w with card := { w.card with
      _completed_work_sessions := wrapInt32 (w.card._completed_work_sessions + 1) } }).1
  simp only [PomodoroCard.session, TimerSession.mk.injEq] at h
  obtain ⟨h1, h2, h3, h4⟩ := h
  cases hm : w.card._is_work_mode <;>
    simp only [switchModeBegin, hm, PomodoroCard.session, modeDuration, Bool.false_eq_true,
      if_false, if_true, Bool.not_false, Bool.not_true] <;>
    split_ifs <;> simp_all

theorem switchModeBegin_labels (w : System) :
    (switchModeBegin w).labelsPresent = w.labelsPresent := by
  have h := (updateTallyDisplay_session { w with card := { w.card with
      _completed_work_sessions := wrapInt32 (w.card._completed_work_sessions + 1) } }).2.1
  simp only [System.labelsPresent] at h
  cases hm : w.card._is_work_mode <;>
    simp only [switchModeBegin, hm, System.labelsPresent, Bool.false_eq_true,
      if_false, if_true, Bool.not_false, Bool.not_true] <;>
    split_ifs <;> simp_all

theorem switchModeBegin_neo (w : System) :
    (switchModeBegin w).neoPixelController = w.neoPixelController := by
  have h := (updateTallyDisplay_session { w with card := { w.card with
      _completed_work_sessions := wrapInt32 (w.card._completed_work_sessions + 1) } }).2.2
  cases hm : w.card._is_work_mode <;>
    simp only [switchModeBegin, hm, Bool.false_eq_true,
      if_false, if_true, Bool.not_false, Bool.not_true] <;>
    split_ifs <;> simp_all

theorem switchModeEnd_idle (w : System) (hr : w.card._is_running = false) :
    switchModeEnd w = w := by
  simp [switchModeEnd, hr]

theorem scheduleEffects_session (w : System) :
    (scheduleEffects w).card.session = w.card.session
      ∧ (scheduleEffects w).labelsPresent = true
      ∧ (scheduleEffects w).neoPixelController = w.neoPixelController
      ∧ (scheduleEffects w).card._timer = w.card._timer := by
  cases h1 : w.card._effects_timer <;>
    simp only [scheduleEffects, h1, lv_timer_create, lv_timer_del, lv_timer_set_repeat_count,
      System.labelsPresent] <;>
    split_ifs <;> exact ⟨rfl, rfl, rfl, rfl⟩

theorem switchMode_idle (w : System) (h : w.labelsPresent = true)
    (hr : w.card._is_running = false) :
    switchMode w = refreshDisplay (switchModeBegin w) := by
  have hs := switchModeBegin_session w
  have hr' : (switchModeBegin w).card._is_running = false := by
    have := congrArg TimerSession.is_running hs
    simpa [PomodoroCard.session, hr] using this
  have hl : (switchModeBegin w).labelsPresent = true := by rw [switchModeBegin_labels, h]
  rw [switchMode, updateDisplay_idle _ hl hr', switchModeEnd_idle]
  have := congrArg TimerSession.is_running (refreshDisplay_session (switchModeBegin w))
  simpa [PomodoroCard.session, hr'] using this

/-- The system on which `switchMode()` runs at expiry: the countdown decremented
and the timer stopped. -/
theorem stopped_facts (w : System) (r : Int) :
    (stopTimer { w with card := { w.card with _remaining_seconds := r } }).labelsPresent
        = w.labelsPresent
      ∧ (stopTimer { w with card := { w.card with _remaining_seconds := r } }).card.session
        = ⟨false, w.card._is_work_mode, r, w.card._completed_work_sessions⟩ := by
  simp [System.labelsPresent, stopTimer_card, PomodoroCard.session]

theorem updateDisplay_expire_session (w : System) (h : w.labelsPresent = true)
    (hr : w.card._is_running = true) (hneg : wrapInt32 (w.card._remaining_seconds - 1) < 0) :
    (updateDisplay w).card.session
      = ⟨false, !w.card._is_work_mode, modeDuration (!w.card._is_work_mode),
          if w.card._is_work_mode then wrapInt32 (w.card._completed_work_sessions + 1)
          else w.card._completed_work_sessions⟩ := by
  obtain ⟨hl, hs⟩ := stopped_facts w (wrapInt32 (w.card._remaining_seconds - 1))
  have hrun := congrArg TimerSession.is_running hs
  have hmode := congrArg TimerSession.is_work_mode hs
  have htally := congrArg TimerSession.completed_work_sessions hs
  simp only [PomodoroCard.session] at hrun hmode htally
  rw [updateDisplay_expire w h hr hneg, (scheduleEffects_session _).1,
    switchMode_idle _ (by rw [hl, h]) hrun, refreshDisplay_session, switchModeBegin_session,
    hrun, hmode, htally]

theorem updateDisplay_count_session (w : System) (h : w.labelsPresent = true)
    (hr : w.card._is_running = true) (hpos : 0 ≤ wrapInt32 (w.card._remaining_seconds - 1)) :
    (updateDisplay w).card.session
        = ⟨true, w.card._is_work_mode, wrapInt32 (w.card._remaining_seconds - 1),
            w.card._completed_work_sessions⟩
      ∧ (updateDisplay w).labelsPresent = true := by
  rw [updateDisplay_count w h hr hpos, refreshDisplay_session, refreshDisplay_labels]
  simp [PomodoroCard.session, hr]

theorem ticks_succ (k : Nat) (w : System) :
    ticks (k + 1) w = updateDisplay (ticks k w) := by
  induction k generalizing w with
  | zero => rfl
  | succ k ih =>
    show ticks (k + 1) (updateDisplay w) = updateDisplay (ticks (k + 1) w)
    rw [ih (updateDisplay w)]
    rfl

theorem ticks_count (k : Nat) (w : System) (h : w.labelsPresent = true)
    (hr : w.card._is_running = true) (hk : (k : Int) ≤ w.card._remaining_seconds)
    (hmax : w.card._remaining_seconds < 2147483648) :
    (ticks k w).card.session
        = ⟨true, w.card._is_work_mode, w.card._remaining_seconds - k,
            w.card._completed_work_sessions⟩
      ∧ (ticks k w).labelsPresent = true := by
  induction k generalizing w with
  | zero => simp [ticks, PomodoroCard.session, hr, h]
  | succ k ih =>
    have hw : wrapInt32 (w.card._remaining_seconds - 1) = w.card._remaining_seconds - 1 :=
      wrapInt32_id _ (by omega) (by omega)
    obtain ⟨hs, hl⟩ := updateDisplay_count_session w h hr (by rw [hw]; omega)
    rw [hw] at hs
    simp only [PomodoroCard.session, TimerSession.mk.injEq] at hs
    obtain ⟨h1, h2, h3, h4⟩ := hs
    have := ih (updateDisplay w) hl h1 (by rw [h3]; omega) (by rw [h3]; omega)
    simp only [ticks]
    rw [this.1, h2, h3, h4]
    refine ⟨?_, this.2⟩
    simp only [TimerSession.mk.injEq, true_and, and_true, Nat.cast_add, Nat.cast_one]
    omega

/-- C7 (counterexample): for 5 completed work sessions the tally text is
four strokes and the closing glyph, not the closing glyph alone. -/
theorem C7_tally_of_five_keeps_strokes :
    (updateTallyDisplay (System.fresh.withSession ⟨false, true, 1500, 5⟩)).card._tally_label
        = some "||||/"
      ∧ (updateTallyDisplay (System.fresh.withSession ⟨false, true, 1500, 5⟩)).card._tally_label
        ≠ some "/" := by
  decide

/-- C7 (amended): with the tally label present, the text written by
`updateTallyDisplay` for 0, 1, 5, 6 and 10 completed work sessions is `""`,
`"|"`, `"||||/"`, `"||||/ |"` and `"||||/ ||||/"`. -/
theorem C7_tally_text_examples (w : System) (h : w.card._tally_label.isSome = true) :
    (w.card._completed_work_sessions = 0 → (updateTallyDisplay w).card._tally_label = some "")
      ∧ (w.card._completed_work_sessions = 1 →
          (updateTallyDisplay w).card._tally_label = some "|")
      ∧ (w.card._completed_work_sessions = 5 →
          (updateTallyDisplay w).card._tally_label = some "||||/")
      ∧ (w.card._completed_work_sessions = 6 →
          (updateTallyDisplay w).card._tally_label = some "||||/ |")
      ∧ (w.card._completed_work_sessions = 10 →
          (updateTallyDisplay w).card._tally_label = some "||||/ ||||/") := by
  have hn : w.card._tally_label.isNone = false := by
    cases ht : w.card._tally_label <;> simp_all
  have e1 : tallyString 1 = "|" := by decide
  have e5 : tallyString 5 = "||||/" := by decide
  have e6 : tallyString 6 = "||||/ |" := by decide
  have e10 : tallyString 10 = "||||/ ||||/" := by decide
  refine ⟨?_, ?_, ?_, ?_, ?_⟩ <;> intro hc <;>
    simp [updateTallyDisplay, hn, hc, e1, e5, e6, e10]

/-- Witness for C7 (amended): six completed work sessions. -/
theorem C7_tally_text_examples_witness :
    (updateTallyDisplay (System.fresh.withSession ⟨false, true, 1500, 6⟩)).card._tally_label
      = some "||||/ |" :=
  (C7_tally_text_examples (System.fresh.withSession ⟨false, true, 1500, 6⟩)
    (by decide)).2.2.2.1 (by decide)

theorem startTimer_card (w : System) (hr : w.card._is_running = false) :
    (startTimer w).card.session
        = (updateDisplay { w with card := { w.card with _is_running := true } }).card.session
      ∧ (startTimer w).neoPixelController
        = (updateDisplay { w with card := { w.card with _is_running := true }
            }).neoPixelController.map
          (fun c => c.setLedState
            (if (updateDisplay { w with card := { w.card with _is_running := true }
              }).card._is_work_mode then LedState.WORK else LedState.BREAK)) := by
  simp only [startTimer, hr, Bool.false_eq_true, if_false, setLight_card]
  split_ifs <;> simp [PomodoroCard.session, lv_timer_create, setLight_neo, setLight_card, *]

theorem updateDisplay_neo_isSome (w : System) :
    (updateDisplay w).neoPixelController.isSome = w.neoPixelController.isSome := by
  cases hl : w.labelsPresent
  · rw [updateDisplay_no_labels w hl]
  · cases hr : w.card._is_running
    · rw [updateDisplay_idle w hl hr, refreshDisplay_neo]
    · by_cases hneg : wrapInt32 (w.card._remaining_seconds - 1) < 0
      · obtain ⟨hl', hs⟩ := stopped_facts w (wrapInt32 (w.card._remaining_seconds - 1))
        have hrun := congrArg TimerSession.is_running hs
        simp only [PomodoroCard.session] at hrun
        rw [updateDisplay_expire w hl hr hneg, (scheduleEffects_session _).2.2.1,
          switchMode_idle _ (by rw [hl', hl]) hrun, refreshDisplay_neo, switchModeBegin_neo,
          stopTimer_neo]
        cases w.neoPixelController <;> rfl
      · rw [updateDisplay_count w hl hr (not_lt.mp hneg), refreshDisplay_neo]

theorem setLedState_steady (c : NeoPixelController) (s : LedState)
    (hs : s ≠ LedState.BLINKING) : (c.setLedState s)._currentLedState = s := by
  simp only [NeoPixelController.setLedState]
  split_ifs with h1 h2
  · rfl
  · rfl
  · simp_all

/-- What `startTimer()` does to the timer session of a stopped timer: without
the labels only the flag is set; with them the refresh counts one second, and
expires the countdown when none is left. -/
theorem startTimer_session (w : System) (hr : w.card._is_running = false) :
    (w.labelsPresent = false →
        (startTimer w).card.session
          = ⟨true, w.card._is_work_mode, w.card._remaining_seconds,
              w.card._completed_work_sessions⟩)
      ∧ (w.labelsPresent = true → 0 ≤ wrapInt32 (w.card._remaining_seconds - 1) →
        (startTimer w).card.session
          = ⟨true, w.card._is_work_mode, wrapInt32 (w.card._remaining_seconds - 1),
              w.card._completed_work_sessions⟩)
      ∧ (w.labelsPresent = true → wrapInt32 (w.card._remaining_seconds - 1) < 0 →
        (startTimer w).card.session
          = ⟨false, !w.card._is_work_mode, modeDuration (!w.card._is_work_mode),
              if w.card._is_work_mode then wrapInt32 (w.card._completed_work_sessions + 1)
              else w.card._completed_work_sessions⟩) := by
  rw [(startTimer_card w hr).1]
  refine ⟨fun hl => ?_, fun hl hpos => ?_, fun hl hneg => ?_⟩
  · rw [updateDisplay_no_labels _ (by simpa [System.labelsPresent] using hl)]
    rfl
  · exact (updateDisplay_count_session { w with card := { w.card with _is_running := true } }
      (by simpa [System.labelsPresent] using hl) rfl hpos).1
  · exact updateDisplay_expire_session { w with card := { w.card with _is_running := true } }
      (by simpa [System.labelsPresent] using hl) rfl hneg

theorem stop_start_counts_a_second (w : System) (hl : w.labelsPresent = true)
    (h1 : 1 ≤ w.card._remaining_seconds) (h2 : w.card._remaining_seconds < 2147483648) :
    (startTimer (stopTimer w)).card.session
      = ⟨true, w.card._is_work_mode, w.card._remaining_seconds - 1,
          w.card._completed_work_sessions⟩ := by
  have hw : wrapInt32 (w.card._remaining_seconds - 1) = w.card._remaining_seconds - 1 :=
    wrapInt32_id _ (by omega) (by omega)
  have hc := stopTimer_card w
  have h := (startTimer_session (stopTimer w) (by rw [hc])).2.1
    (by simpa [System.labelsPresent, hc] using hl) (by rw [hc]; simp only; rw [hw]; omega)
  rw [h, hc]
  simp only [hw]

/-- C8 (counterexample): a running timer in work mode with 100 seconds left;
after `stopTimer()` and `startTimer()` 99 seconds are left. -/
theorem C8_pause_resume_loses_a_second :
    (System.fresh.withSession ⟨true, true, 100, 0⟩).card._remaining_seconds = 100
      ∧ (startTimer (stopTimer (System.fresh.withSession ⟨true, true, 100, 0⟩))).card.session
        = ⟨true, true, 99, 0⟩ := by
  refine ⟨by decide, ?_⟩
  rw [stop_start_counts_a_second _ (by decide) (by decide) (by decide)]
  decide

/-- C8 (amended): `stopTimer()` followed by `startTimer()` leaves the timer
running in the same mode with one second less than at the stop when the time
labels exist and at least one second is left (the refresh in `startTimer`
counts a second); with the labels and no second left the refresh expires the
countdown (stopped, mode toggled, the new mode's duration); without the labels
the remaining seconds are unchanged. With a light controller attached, the
light's state afterwards is Work if the timer is then in work mode and Break
if it is in break mode. -/
theorem C8_stop_then_start (w : System) :
    (w.labelsPresent = true → 1 ≤ w.card._remaining_seconds →
        w.card._remaining_seconds < 2147483648 →
        (startTimer (stopTimer w)).card.session
          = ⟨true, w.card._is_work_mode, w.card._remaining_seconds - 1,
              w.card._completed_work_sessions⟩)
      ∧ (w.labelsPresent = true → w.card._remaining_seconds = 0 →
        (startTimer (stopTimer w)).card.session
          = ⟨false, !w.card._is_work_mode, modeDuration (!w.card._is_work_mode),
              if w.card._is_work_mode then wrapInt32 (w.card._completed_work_sessions + 1)
              else w.card._completed_work_sessions⟩)
      ∧ (w.labelsPresent = false →
        (startTimer (stopTimer w)).card.session
          = ⟨true, w.card._is_work_mode, w.card._remaining_seconds,
              w.card._completed_work_sessions⟩)
      ∧ (∀ c, w.neoPixelController = some c →
        ∃ c', (startTimer (stopTimer w)).neoPixelController = some c'
          ∧ c'._currentLedState
            = if (startTimer (stopTimer w)).card._is_work_mode then LedState.WORK
              else LedState.BREAK) := by
  have hc := stopTimer_card w
  have hstop : (stopTimer w).card._is_running = false := by rw [hc]
  refine ⟨stop_start_counts_a_second w, fun hl hz => ?_, fun hl => ?_, fun c hcn => ?_⟩
  · rw [(startTimer_session (stopTimer w) hstop).2.2
      (by simpa [System.labelsPresent, hc] using hl) (by rw [hc]; simp only; rw [hz]; decide),
      hc]
  · rw [(startTimer_session (stopTimer w) hstop).1
      (by simpa [System.labelsPresent, hc] using hl), hc]
  · obtain ⟨hs, hn⟩ := startTimer_card (stopTimer w) hstop
    have hmode := congrArg TimerSession.is_work_mode hs
    simp only [PomodoroCard.session] at hmode
    have hsome : (updateDisplay { stopTimer w with
        card := { (stopTimer w).card with _is_running := true } }).neoPixelController.isSome
        = true := by
      rw [updateDisplay_neo_isSome]
      show (stopTimer w).neoPixelController.isSome = true
      rw [stopTimer_neo, hcn]
      rfl
    obtain ⟨c0, hc0⟩ := Option.isSome_iff_exists.mp hsome
    rw [hn, hc0, hmode]
    refine ⟨_, rfl, ?_⟩
    apply setLedState_steady
    split_ifs <;> decide

/-- Witness for C8 (amended): pausing at 100 seconds in break mode. -/
theorem C8_stop_then_start_witness :
    (startTimer (stopTimer (System.fresh.withSession ⟨true, false, 100, 1⟩))).card.session
      = ⟨true, false, 100 - 1, 1⟩ :=
  (C8_stop_then_start (System.fresh.withSession ⟨true, false, 100, 1⟩)).1
    (by decide) (by decide) (by decide)

theorem modeDuration_le (m : Bool) : modeDuration m ≤ 1500 := by
  cases m <;> decide

/-- C10 (counterexample): a stopped timer in work mode with 0 seconds left;
`handleButtonPress(1)` starts it, the start expires the countdown at once, and
the is-running flag is false after the call as it was before. -/
theorem C10_press_at_zero_does_not_toggle :
    (System.fresh.withSession ⟨false, true, 0, 0⟩).card._is_running = false
      ∧ (handleButtonPress 1 (System.fresh.withSession ⟨false, true, 0, 0⟩)).1.card.session
        = ⟨false, false, 300, 1⟩ := by
  refine ⟨by decide, ?_⟩
  have h := (startTimer_session (System.fresh.withSession ⟨false, true, 0, 0⟩)
    (by decide)).2.2 (by decide) (by decide)
  simp only [handleButtonPress, if_true]
  rw [if_neg (by decide)]
  simp only [h]
  decide

/-- C10 (amended): for every timer state with remaining seconds in
`[0, modeDuration]`, `handleButtonPress(1)` negates the is-running flag, except
for a stopped timer with 0 seconds left and the time labels present: there the
start expires the countdown at once and the flag is false after the call. -/
theorem C10_center_button_toggles (w : System) (h0 : 0 ≤ w.card._remaining_seconds)
    (h1 : w.card._remaining_seconds ≤ modeDuration w.card._is_work_mode) :
    (handleButtonPress 1 w).1.card._is_running
      = if w.card._is_running = false ∧ w.card._remaining_seconds = 0
            ∧ w.labelsPresent = true then false
        else !w.card._is_running := by
  have hmax := modeDuration_le w.card._is_work_mode
  cases hr : w.card._is_running
  · have hstart : (handleButtonPress 1 w).1 = startTimer w := by
      simp [handleButtonPress, hr]
    rw [hstart]
    obtain ⟨c1, c2, c3⟩ := startTimer_session w hr
    cases hl : w.labelsPresent
    · have := congrArg TimerSession.is_running (c1 hl)
      simpa using this
    · by_cases hz : w.card._remaining_seconds = 0
      · have := congrArg TimerSession.is_running (c3 hl (by rw [hz]; decide))
        simpa [hz] using this
      · have hw : wrapInt32 (w.card._remaining_seconds - 1) = w.card._remaining_seconds - 1 :=
          wrapInt32_id _ (by omega) (by omega)
        have := congrArg TimerSession.is_running (c2 hl (by rw [hw]; omega))
        simpa [hz] using this
  · have hstop : (handleButtonPress 1 w).1 = stopTimer w := by
      simp [handleButtonPress, hr]
    rw [hstop, stopTimer_card]
    simp

/-- Witness for C10 (amended): pressing the button on a stopped timer with the
full work time left starts it. -/
theorem C10_center_button_toggles_witness :
    (handleButtonPress 1 System.fresh).1.card._is_running = true := by
  have h := C10_center_button_toggles System.fresh (by decide) (by decide)
  rw [h]
  decide

theorem progress_table_work : ∀ r : Nat, r < 1501 →
    0 ≤ progressPercent true (r : Int) ∧ progressPercent true (r : Int) ≤ 100
      ∧ progressPercent true (r : Int)
        = 100 * (r : Int) / 1500
          - (if 100 * (r : Int) = 53 * 1500 ∨ 100 * (r : Int) = 59 * 1500 then 1 else 0) := by
  decide!

theorem progress_table_break : ∀ r : Nat, r < 301 →
    0 ≤ progressPercent false (r : Int) ∧ progressPercent false (r : Int) ≤ 100
      ∧ progressPercent false (r : Int)
        = 100 * (r : Int) / 300
          - (if 100 * (r : Int) = 53 * 300 ∨ 100 * (r : Int) = 59 * 300 then 1 else 0) := by
  decide!

theorem progressPercent_neg (m : Bool) (r : Int) (h : r < 0) : progressPercent m r = 0 := by
  simp [progressPercent, not_le.mpr h]

theorem updateDisplay_idle_arc (w : System) (hl : w.labelsPresent = true)
    (hr : w.card._is_running = false) (ha : w.card._progress_arc.isSome = true) :
    (updateDisplay w).card._progress_arc
      = some (progressPercent w.card._is_work_mode w.card._remaining_seconds) := by
  rw [updateDisplay_idle w hl hr, refreshDisplay_arc w ha]

/-! ## Theorems: second part -/

/-- C16: while not Blinking, calling `setLedState(s)` twice gives the same
controller state as calling it once, for each of the four states `s`, hence the
same result of a following `update()`; for a steady `s` the current state is
then `s`. -/
theorem C16_setLedState_idempotent (c : NeoPixelController) (s : LedState)
    (hc : c._currentLedState ≠ LedState.BLINKING) :
    (c.setLedState s).setLedState s = c.setLedState s
      ∧ (∀ clock : Nat, NeoPixelController.update clock ((c.setLedState s).setLedState s)
          = NeoPixelController.update clock (c.setLedState s))
      ∧ (s ≠ LedState.BLINKING → (c.setLedState s)._currentLedState = s) := by
  have h : (c.setLedState s).setLedState s = c.setLedState s := by
    cases s <;> simp [NeoPixelController.setLedState, hc]
  exact ⟨h, fun clock => by rw [h], setLedState_steady c s⟩

/-- Witness for C16: setting Work twice from Idle. -/
theorem C16_setLedState_idempotent_witness :
    (NeoPixelController.new.begin.setLedState LedState.WORK).setLedState LedState.WORK
      = NeoPixelController.new.begin.setLedState LedState.WORK :=
  (C16_setLedState_idempotent NeoPixelController.new.begin LedState.WORK (by decide)).1

/-- C17: `handleButtonPress(i)` returns true exactly when `i = 1`, and for
`i ≠ 1` it leaves the whole system (timer state, callbacks, light) unchanged. -/
theorem C17_only_center_button_handled (i : Nat) (w : System) :
    ((handleButtonPress i w).2 = true ↔ i = 1)
      ∧ (i ≠ 1 → (handleButtonPress i w).1 = w) := by
  by_cases hi : i = 1
  · subst hi
    cases hr : w.card._is_running <;> simp [handleButtonPress, hr]
  · simp [handleButtonPress, hi]

theorem stopTimer_lvTimers (w : System) :
    (stopTimer w).lvTimers
      = w.lvTimers.filter (fun t =>
          decide (w.card._timer ≠ some t.id) && decide (w.card._effects_timer ≠ some t.id)) := by
  cases h1 : w.card._timer <;> cases h2 : w.card._effects_timer <;>
    simp [stopTimer, setLight, lv_timer_del, h1, h2, List.filter_filter] <;>
    (try split) <;> simp [eq_comm, and_comm, Bool.and_comm]

theorem stopTimer_lvTimers_owned (w : System) (h : w.timersOwned = true) :
    (stopTimer w).lvTimers = [] := by
  rw [stopTimer_lvTimers, List.filter_eq_nil_iff]
  intro t ht
  have := (List.all_eq_true.mp h) t ht
  simp only [decide_eq_true_eq] at this
  rcases this with h1 | h1 <;> simp [h1]

/-- C14: `stopTimer()` leaves the timer not running, with no handle of a 1 Hz
periodic or of a deferred effects action and the timers those handles named
gone from LVGL's list (which is then empty when it held only the card's
timers); remaining seconds, mode and tally are unchanged; an attached light
controller, in whatever state (Blinking included), ends in state Idle. -/
theorem C14_stopTimer_effect (w : System) :
    (stopTimer w).card._is_running = false
      ∧ (stopTimer w).card._timer = none
      ∧ (stopTimer w).card._effects_timer = none
      ∧ (∀ t ∈ (stopTimer w).lvTimers,
          w.card._timer ≠ some t.id ∧ w.card._effects_timer ≠ some t.id)
      ∧ (w.timersOwned = true → (stopTimer w).lvTimers = [])
      ∧ (stopTimer w).card._remaining_seconds = w.card._remaining_seconds
      ∧ (stopTimer w).card._is_work_mode = w.card._is_work_mode
      ∧ (stopTimer w).card._completed_work_sessions = w.card._completed_work_sessions
      ∧ (∀ c, w.neoPixelController = some c →
          ∃ c', (stopTimer w).neoPixelController = some c'
            ∧ c'._currentLedState = LedState.IDLE) := by
  refine ⟨by rw [stopTimer_card], by rw [stopTimer_card], by rw [stopTimer_card], ?_,
    stopTimer_lvTimers_owned w, by rw [stopTimer_card], by rw [stopTimer_card],
    by rw [stopTimer_card], ?_⟩
  · intro t ht
    rw [stopTimer_lvTimers] at ht
    simpa using (List.mem_filter.mp ht).2
  · intro c hc
    rw [stopTimer_neo, hc]
    exact ⟨_, rfl, setLedState_steady c LedState.IDLE (by decide)⟩

theorem update_steady_painted (c : NeoPixelController) (t : Nat)
    (hc : c._currentLedState ≠ LedState.BLINKING)
    (hl : c.leds0 = steadyColor c._currentLedState) :
    (NeoPixelController.update t c)._currentLedState = c._currentLedState
      ∧ (NeoPixelController.update t c).leds0 = steadyColor c._currentLedState
      ∧ (NeoPixelController.update t c).fastLedBrightness = c.fastLedBrightness := by
  obtain ⟨cur, prev, lu, todo, done, idx, isOn, next, dur, ob, led, br, sh⟩ := c
  simp only at hc hl
  subst hl
  simp only [NeoPixelController.update]
  split_ifs
  · exact ⟨rfl, rfl, rfl⟩
  · cases cur <;> simp_all [NeoPixelController.updateBlink, NeoPixelController.updateSteady,
      steadyColor]

theorem updates_steady_painted (ts : List Nat) (c : NeoPixelController)
    (hc : c._currentLedState ≠ LedState.BLINKING)
    (hl : c.leds0 = steadyColor c._currentLedState) :
    (c.updates ts)._currentLedState = c._currentLedState
      ∧ (c.updates ts).leds0 = steadyColor c._currentLedState
      ∧ (c.updates ts).fastLedBrightness = c.fastLedBrightness
      ∧ c.dueCount ts = 0 := by
  induction ts generalizing c with
  | nil => exact ⟨rfl, hl, rfl, rfl⟩
  | cons t ts ih =>
    obtain ⟨h1, h2, h3⟩ := update_steady_painted c t hc hl
    have h := ih (NeoPixelController.update t c) (by rw [h1]; exact hc) (by rw [h1]; exact h2)
    simp only [NeoPixelController.updates, List.foldl_cons, NeoPixelController.dueCount] at h ⊢
    rw [h1, h3] at h
    refine ⟨h.1, h.2.1, h.2.2.1, ?_⟩
    simp [NeoPixelController.phaseDue, hc, h.2.2.2]

/-- The second phase change of a blink with a sweep count `≤ 0`: the blink
finishes, the brightness is restored and the restored state is painted. -/
theorem update_due_degenerate_off (c : NeoPixelController) (t : Nat)
    (hcur : c._currentLedState = LedState.BLINKING) (hon : c._blink_is_on_phase = false)
    (hidx : c._blink_color_idx = 0) (hdone : c._blink_sweeps_done = 0)
    (htodo : c._blink_sweeps_todo ≤ 0) (hprev : c._previousLedState ≠ LedState.BLINKING)
    (hd : c.phaseDue t = true) :
    (NeoPixelController.update t c)._currentLedState = c._previousLedState
      ∧ (NeoPixelController.update t c).fastLedBrightness = c._blink_original_brightness
      ∧ (NeoPixelController.update t c).leds0 = steadyColor c._previousLedState := by
  have hdue : c._blink_phase_next_change_time ≤ millis t := by
    simpa [NeoPixelController.phaseDue, hcur] using hd
  obtain ⟨cur, prev, lu, todo, done, idx, isOn, next, dur, ob, led, br, sh⟩ := c
  simp only at hcur hon hidx hdone htodo hprev hdue
  subst hcur hon hidx hdone
  have hw : wrapInt32 (0 + 1) = 1 := by decide
  cases prev <;>
    simp_all [NeoPixelController.update, NeoPixelController.updateBlink,
      NeoPixelController.updateSteady, NUM_BLINK_COLORS, steadyColor]

/-- The first phase change after `blinkLight`: the pixel is blanked and the
controller stays Blinking with the counters untouched. -/
theorem update_due_first (c : NeoPixelController) (t : Nat)
    (hcur : c._currentLedState = LedState.BLINKING) (hon : c._blink_is_on_phase = true)
    (hd : c.phaseDue t = true) :
    NeoPixelController.update t c
      = { c with
          _blink_phase_next_change_time := toU32 ((millis t : Int) + c._blink_phase_duration_ms)
          leds0 := CRGB_Black
          _blink_is_on_phase := false
          fastLedShows := c.fastLedShows + 1 } := by
  have hdue : c._blink_phase_next_change_time ≤ millis t := by
    simpa [NeoPixelController.phaseDue, hcur] using hd
  simp [NeoPixelController.update, NeoPixelController.updateBlink,
    NeoPixelController.updateSteady, hcur, hon, hdue]

theorem updates_degenerate_off (ts : List Nat) (c : NeoPixelController) (s : LedState)
    (hcur : c._currentLedState = LedState.BLINKING) (hon : c._blink_is_on_phase = false)
    (hidx : c._blink_color_idx = 0) (hdone : c._blink_sweeps_done = 0)
    (htodo : c._blink_sweeps_todo ≤ 0) (hprev : c._previousLedState = s)
    (hs : s ≠ LedState.BLINKING) (hled : c.leds0 = CRGB_Black) :
    c.dueCount ts ≤ 1
      ∧ (c.dueCount ts = 0 →
          (c.updates ts)._currentLedState = LedState.BLINKING
            ∧ (c.updates ts).leds0 = CRGB_Black)
      ∧ (c.dueCount ts = 1 →
          (c.updates ts)._currentLedState = s
            ∧ (c.updates ts).fastLedBrightness = c._blink_original_brightness
            ∧ (c.updates ts).leds0 = steadyColor s) := by
  induction ts generalizing c with
  | nil =>
    simp only [NeoPixelController.dueCount, NeoPixelController.updates, List.foldl_nil]
    exact ⟨by omega, fun _ => ⟨hcur, hled⟩, fun h => by omega⟩
  | cons t ts ih =>
    simp only [NeoPixelController.dueCount, NeoPixelController.updates, List.foldl_cons]
    cases hd : c.phaseDue t
    · rw [update_not_due c t hcur hd]
      have h := ih { c with fastLedShows := c.fastLedShows + 1 } hcur hon hidx hdone htodo
        hprev hled
      simpa [NeoPixelController.updates] using h
    · obtain ⟨h1, h2, h3⟩ := update_due_degenerate_off c t hcur hon hidx hdone htodo
        (by rw [hprev]; exact hs) hd
      rw [hprev] at h1 h3
      obtain ⟨g1, g2, g3, g4⟩ := updates_steady_painted ts (NeoPixelController.update t c)
        (by rw [h1]; exact hs) (by rw [h1]; exact h3)
      simp only [NeoPixelController.updates] at g1 g2 g3
      simp only [if_true, g4, add_zero]
      refine ⟨le_refl _, fun h => by omega, fun _ => ?_⟩
      rw [g1, g2, g3, h1, h2]
      exact ⟨rfl, rfl, rfl⟩

theorem updates_degenerate_on (ts : List Nat) (c : NeoPixelController) (s : LedState)
    (hcur : c._currentLedState = LedState.BLINKING) (hon : c._blink_is_on_phase = true)
    (hidx : c._blink_color_idx = 0) (hdone : c._blink_sweeps_done = 0)
    (htodo : c._blink_sweeps_todo ≤ 0) (hprev : c._previousLedState = s)
    (hs : s ≠ LedState.BLINKING) :
    c.dueCount ts ≤ 2
      ∧ (c.dueCount ts = 0 → (c.updates ts)._currentLedState = LedState.BLINKING)
      ∧ (c.dueCount ts = 1 →
          (c.updates ts)._currentLedState = LedState.BLINKING
            ∧ (c.updates ts).leds0 = CRGB_Black)
      ∧ (c.dueCount ts = 2 →
          (c.updates ts)._currentLedState = s
            ∧ (c.updates ts).fastLedBrightness = c._blink_original_brightness
            ∧ (c.updates ts).leds0 = steadyColor s) := by
  induction ts generalizing c with
  | nil =>
    simp only [NeoPixelController.dueCount, NeoPixelController.updates, List.foldl_nil]
    exact ⟨by omega, fun _ => hcur, fun h => by omega, fun h => by omega⟩
  | cons t ts ih =>
    simp only [NeoPixelController.dueCount, NeoPixelController.updates, List.foldl_cons]
    cases hd : c.phaseDue t
    · rw [update_not_due c t hcur hd]
      have h := ih { c with fastLedShows := c.fastLedShows + 1 } hcur hon hidx hdone htodo
        hprev
      simpa [NeoPixelController.updates] using h
    · rw [update_due_first c t hcur hon hd]
      obtain ⟨g1, g2, g3⟩ := updates_degenerate_off ts
        { c with
          _blink_phase_next_change_time := toU32 ((millis t : Int) + c._blink_phase_duration_ms)
          leds0 := CRGB_Black
          _blink_is_on_phase := false
          fastLedShows := c.fastLedShows + 1 } s hcur rfl hidx hdone htodo hprev hs rfl
      simp only [NeoPixelController.updates] at g2 g3
      simp only [if_true]
      refine ⟨by omega, fun h => by omega, fun h => g2 (by omega), fun h => g3 (by omega)⟩

/-- The state `blinkLight` leaves when called in a steady state. -/
theorem blinkLight_steady (c : NeoPixelController) (clock : Nat) (n d : Int)
    (hc : c._currentLedState ≠ LedState.BLINKING) :
    c.blinkLight clock n d
      = { c with
          _previousLedState := c._currentLedState
          _currentLedState := LedState.BLINKING
          _blink_sweeps_todo := n
          _blink_sweeps_done := 0
          _blink_color_idx := 0
          _blink_is_on_phase := true
          _blink_phase_duration_ms := d
          _blink_phase_next_change_time := toU32 ((millis clock : Int) + d)
          _blink_original_brightness := c.fastLedBrightness
          fastLedBrightness := 255
          leds0 := CRGB_Blue } := by
  simp [NeoPixelController.blinkLight, hc, BLINK_COLORS]

/-- C20: after `blinkLight(n, d)` with `n ≤ 0` in a steady state `s`, and only
`update()` calls afterwards, at most two updates reach the phase deadline: up
to the first the controller is Blinking, the first blanks the pixel and stays
Blinking, and the second restores the brightness in force before the call,
returns the current state to `s` and paints `s`'s steady colour. -/
theorem C20_degenerate_blink_is_transient (c0 : NeoPixelController) (s : LedState)
    (n d : Int) (clock : Nat) (hs : s ≠ LedState.BLINKING) (hc : c0._currentLedState = s)
    (hn : n ≤ 0) :
    ∀ ts : List Nat,
      (c0.blinkLight clock n d).dueCount ts ≤ 2
        ∧ ((c0.blinkLight clock n d).dueCount ts = 0 →
            ((c0.blinkLight clock n d).updates ts)._currentLedState = LedState.BLINKING)
        ∧ ((c0.blinkLight clock n d).dueCount ts = 1 →
            ((c0.blinkLight clock n d).updates ts)._currentLedState = LedState.BLINKING
              ∧ ((c0.blinkLight clock n d).updates ts).leds0 = CRGB_Black)
        ∧ ((c0.blinkLight clock n d).dueCount ts = 2 →
            ((c0.blinkLight clock n d).updates ts)._currentLedState = s
              ∧ ((c0.blinkLight clock n d).updates ts).fastLedBrightness = c0.fastLedBrightness
              ∧ ((c0.blinkLight clock n d).updates ts).leds0 = steadyColor s) := by
  intro ts
  have hc' : c0._currentLedState ≠ LedState.BLINKING := by rw [hc]; exact hs
  rw [blinkLight_steady c0 clock n d hc']
  exact updates_degenerate_on ts _ s rfl rfl rfl rfl hn hc hs

/-- Witness for C20: `blinkLight(0, 250)` at 0 ms from Work, updates at 100 ms
(early), 250 ms and 500 ms. -/
theorem C20_degenerate_blink_is_transient_witness :
    (((NeoPixelController.new.begin.setLedState LedState.WORK).blinkLight 0 0 250).updates
        [100, 250])._currentLedState = LedState.BLINKING
      ∧ (((NeoPixelController.new.begin.setLedState LedState.WORK).blinkLight 0 0 250).updates
        [100, 250, 500])._currentLedState = LedState.WORK
      ∧ (((NeoPixelController.new.begin.setLedState LedState.WORK).blinkLight 0 0 250).updates
        [100, 250, 500]).leds0 = COLOR_WORK := by
  have h := C20_degenerate_blink_is_transient
    (NeoPixelController.new.begin.setLedState LedState.WORK) LedState.WORK 0 250 0
    (by decide) (by decide) (by decide)
  exact ⟨((h [100, 250]).2.2.1 (by decide)).1, ((h [100, 250, 500]).2.2.2 (by decide)).1,
    ((h [100, 250, 500]).2.2.2 (by decide)).2.2⟩

theorem updateSteady_deadline (c : NeoPixelController) (t : Nat) :
    (NeoPixelController.updateSteady t c)._blink_phase_next_change_time
        = c._blink_phase_next_change_time
      ∧ (NeoPixelController.updateSteady t c)._blink_phase_duration_ms
        = c._blink_phase_duration_ms := by
  simp only [NeoPixelController.updateSteady]
  split_ifs with h
  · cases hc : c._currentLedState <;> simp
  · exact ⟨rfl, rfl⟩

theorem updateBlink_deadline (c : NeoPixelController) (t : Nat)
    (hcur : c._currentLedState = LedState.BLINKING)
    (hdue : c._blink_phase_next_change_time ≤ t) :
    (NeoPixelController.updateBlink t c)._blink_phase_next_change_time
        = toU32 ((t : Int) + c._blink_phase_duration_ms)
      ∧ (NeoPixelController.updateBlink t c)._blink_phase_duration_ms
        = c._blink_phase_duration_ms := by
  simp only [NeoPixelController.updateBlink, hcur, hdue, if_true, ge_iff_le]
  split_ifs <;> exact ⟨rfl, rfl⟩

/-- C19 (counterexample): `blinkLight(2, 250)` at 0 ms; the first phase change
is due at 250 ms but the update arrives at 400 ms. The second phase change is
then due at 650 ms, not at 500 ms: an update at 500 ms is not due. -/
theorem C19_late_tick_delays_next_deadline :
    (NeoPixelController.new.begin.blinkLight 0 2 250)._blink_phase_next_change_time = 250
      ∧ (NeoPixelController.update 400
          (NeoPixelController.new.begin.blinkLight 0 2 250))._blink_phase_next_change_time = 650
      ∧ (NeoPixelController.update 400
          (NeoPixelController.new.begin.blinkLight 0 2 250)).phaseDue 500 = false
      ∧ (NeoPixelController.update 400
          (NeoPixelController.new.begin.blinkLight 0 2 250)).phaseDue 650 = true := by
  decide

/-- C19 (amended): `blinkLight(n, d)` at clock time `t0` sets the first phase
deadline to `t0 + d`; an `update()` at time `t` that performs a phase change
sets the next deadline to `t + d`, counted from the time of that update and
not from the deadline it met, and keeps `d`; an `update()` that does not reach
the deadline leaves the deadline unchanged. All sums are modulo `2^32`, and
equal the plain sums when `d ≥ 0` and the sum is below `2^32`. -/
theorem C19_deadline_counts_from_update_time :
    (∀ (c : NeoPixelController) (t0 : Nat) (n d : Int),
        (c.blinkLight t0 n d)._blink_phase_next_change_time = toU32 ((millis t0 : Int) + d)
          ∧ (c.blinkLight t0 n d)._blink_phase_duration_ms = d)
      ∧ (∀ (c : NeoPixelController) (t : Nat), c.phaseDue t = true →
          (NeoPixelController.update t c)._blink_phase_next_change_time
              = toU32 ((millis t : Int) + c._blink_phase_duration_ms)
            ∧ (NeoPixelController.update t c)._blink_phase_duration_ms
              = c._blink_phase_duration_ms)
      ∧ (∀ (c : NeoPixelController) (t : Nat),
          c._currentLedState = LedState.BLINKING → c.phaseDue t = false →
          (NeoPixelController.update t c)._blink_phase_next_change_time
            = c._blink_phase_next_change_time)
      ∧ (∀ (t : Nat) (d : Int), 0 ≤ d → (t : Int) + d < 4294967296 →
          (toU32 ((t : Int) + d) : Int) = (t : Int) + d) := by
  refine ⟨fun c t0 n d => ?_, fun c t hd => ?_, fun c t hc hd => ?_, fun t d h0 h1 => ?_⟩
  · simp only [NeoPixelController.blinkLight]
    split_ifs <;> exact ⟨rfl, rfl⟩
  · have hd' : c._currentLedState = LedState.BLINKING
        ∧ c._blink_phase_next_change_time ≤ millis t := by
      simpa [NeoPixelController.phaseDue] using hd
    have hr : ¬ (c._currentLedState ≠ LedState.BLINKING
        ∧ toU32 ((millis t : Int) - c.lastUpdate) < UPDATE_INTERVAL_MS) := by
      simp [hd'.1]
    simp only [NeoPixelController.update, if_neg hr]
    rw [(updateSteady_deadline _ _).1, (updateSteady_deadline _ _).2]
    exact updateBlink_deadline c (millis t) hd'.1 hd'.2
  · rw [update_not_due c t hc hd]
  · unfold toU32
    omega

/-- C18 (counterexample): a running timer in work mode with 1500 seconds left
whose time labels are missing: `updateDisplay` returns at its null guard and
the remaining seconds stay 1500. -/
theorem C18_tick_without_labels_counts_nothing :
    ((System.fresh.withoutLabels).withSession ⟨true, true, 1500, 0⟩).card._is_running = true
      ∧ (updateDisplay ((System.fresh.withoutLabels).withSession
          ⟨true, true, 1500, 0⟩)).card._remaining_seconds = 1500 := by
  refine ⟨by decide, ?_⟩
  rw [updateDisplay_no_labels _ (by decide)]
  decide

/-- C18 (amended): `updateDisplay` on a stopped timer leaves the running flag,
the mode, the remaining seconds and the tally unchanged; on a running timer
with both time labels present and `r ≥ 1` seconds left it leaves `r - 1`
seconds and the running flag, mode and tally unchanged; when a time label is
missing it returns at once and changes nothing. -/
theorem C18_countdown_step (w : System) :
    (w.card._is_running = false → (updateDisplay w).card.session = w.card.session)
      ∧ (w.card._is_running = true → w.labelsPresent = true →
          1 ≤ w.card._remaining_seconds → w.card._remaining_seconds < 2147483648 →
          (updateDisplay w).card.session
            = ⟨true, w.card._is_work_mode, w.card._remaining_seconds - 1,
                w.card._completed_work_sessions⟩)
      ∧ (w.labelsPresent = false → updateDisplay w = w) := by
  refine ⟨fun hr => ?_, fun hr hl h1 h2 => ?_, updateDisplay_no_labels w⟩
  · cases hl : w.labelsPresent
    · rw [updateDisplay_no_labels w hl]
    · rw [updateDisplay_idle w hl hr, refreshDisplay_session]
  · have hw : wrapInt32 (w.card._remaining_seconds - 1) = w.card._remaining_seconds - 1 :=
      wrapInt32_id _ (by omega) (by omega)
    have h := (updateDisplay_count_session w hl hr (by rw [hw]; omega)).1
    rw [hw] at h
    exact h

/-- Witness for C18 (amended): one tick of a running timer at 1500 seconds. -/
theorem C18_countdown_step_witness :
    (updateDisplay (System.fresh.withSession ⟨true, true, 1500, 0⟩)).card.session
      = ⟨true, true, 1500 - 1, 0⟩ :=
  (C18_countdown_step (System.fresh.withSession ⟨true, true, 1500, 0⟩)).2.1
    (by decide) (by decide) (by decide) (by decide)

/-- The light controller after a call of `updateDisplay()` that expires the
countdown: only `stopTimer()` has touched it. -/
theorem updateDisplay_expire_neo (w : System) (h : w.labelsPresent = true)
    (hr : w.card._is_running = true) (hneg : wrapInt32 (w.card._remaining_seconds - 1) < 0) :
    (updateDisplay w).neoPixelController
      = w.neoPixelController.map (fun c => c.setLedState LedState.IDLE) := by
  obtain ⟨hl', hs⟩ := stopped_facts w (wrapInt32 (w.card._remaining_seconds - 1))
  have hrun := congrArg TimerSession.is_running hs
  simp only [PomodoroCard.session] at hrun
  rw [updateDisplay_expire w h hr hneg, (scheduleEffects_session _).2.2.1,
    switchMode_idle _ (by rw [hl', h]) hrun, refreshDisplay_neo, switchModeBegin_neo,
    stopTimer_neo]

/-- C12 (counterexample): a running timer in work mode with 0 seconds left and
the light in state Work; after the `updateDisplay` call that expires the
countdown the timer is in break mode and the light is Idle, not Break. -/
theorem C12_light_is_idle_after_expiry :
    (updateDisplay ((setLight LedState.WORK System.fresh).withSession
        ⟨true, true, 0, 0⟩)).card.session = ⟨false, false, 300, 1⟩
      ∧ (updateDisplay ((setLight LedState.WORK System.fresh).withSession
        ⟨true, true, 0, 0⟩)).neoPixelController.map (fun c => c._currentLedState)
        = some LedState.IDLE := by
  constructor
  · rw [updateDisplay_expire_session _ (by decide) (by decide) (by decide)]
    decide
  · rw [updateDisplay_expire_neo _ (by decide) (by decide) (by decide)]
    decide

theorem updateDisplay_expire_labels (w : System) (h : w.labelsPresent = true)
    (hr : w.card._is_running = true) (hneg : wrapInt32 (w.card._remaining_seconds - 1) < 0) :
    (updateDisplay w).labelsPresent = true := by
  rw [updateDisplay_expire w h hr hneg]
  exact (scheduleEffects_session _).2.1

theorem updateDisplay_count_neo (w : System) (h : w.labelsPresent = true)
    (hr : w.card._is_running = true) (hpos : 0 ≤ wrapInt32 (w.card._remaining_seconds - 1)) :
    (updateDisplay w).neoPixelController = w.neoPixelController := by
  rw [updateDisplay_count w h hr hpos, refreshDisplay_neo]

/-- C12 (amended): after the `updateDisplay` call that expires the countdown
(running, 0 seconds left, time labels present) an attached light controller is
in state Idle, in either mode and whatever its state before; a following
`startTimer()` puts it in the steady state of the new mode: Break after a work
session, Work after a break. -/
theorem C12_expiry_leaves_light_idle (w : System) (c : NeoPixelController)
    (hl : w.labelsPresent = true) (hr : w.card._is_running = true)
    (h0 : w.card._remaining_seconds = 0) (hc : w.neoPixelController = some c) :
    (∃ c1, (updateDisplay w).neoPixelController = some c1
        ∧ c1._currentLedState = LedState.IDLE)
      ∧ (∃ c2, (startTimer (updateDisplay w)).neoPixelController = some c2
        ∧ c2._currentLedState
          = if w.card._is_work_mode then LedState.BREAK else LedState.WORK) := by
  have hneg : wrapInt32 (w.card._remaining_seconds - 1) < 0 := by rw [h0]; decide
  have hneo := updateDisplay_expire_neo w hl hr hneg
  rw [hc] at hneo
  have hs := updateDisplay_expire_session w hl hr hneg
  have hl1 := updateDisplay_expire_labels w hl hr hneg
  simp only [PomodoroCard.session, TimerSession.mk.injEq] at hs
  obtain ⟨s1, s2, s3, s4⟩ := hs
  refine ⟨⟨_, hneo, setLedState_steady c LedState.IDLE (by decide)⟩, ?_⟩
  obtain ⟨k1, k2⟩ := startTimer_card (updateDisplay w) s1
  have hdur : 1 ≤ modeDuration (!w.card._is_work_mode)
      ∧ modeDuration (!w.card._is_work_mode) < 2147483648 := by
    cases w.card._is_work_mode <;> decide
  have hw : wrapInt32 ((updateDisplay w).card._remaining_seconds - 1)
      = (updateDisplay w).card._remaining_seconds - 1 :=
    wrapInt32_id _ (by rw [s3]; omega) (by rw [s3]; omega)
  have hpos : 0 ≤ wrapInt32 ((updateDisplay w).card._remaining_seconds - 1) := by
    rw [hw, s3]; omega
  have hcs := (updateDisplay_count_session
    { updateDisplay w with card := { (updateDisplay w).card with _is_running := true } }
    (by simpa [System.labelsPresent] using hl1) rfl hpos).1
  have hcn := updateDisplay_count_neo
    { updateDisplay w with card := { (updateDisplay w).card with _is_running := true } }
    (by simpa [System.labelsPresent] using hl1) rfl hpos
  have hmode := congrArg TimerSession.is_work_mode hcs
  simp only [PomodoroCard.session] at hmode
  rw [k2, hcn, hmode]
  simp only [hneo, Option.map_some', s2]
  refine ⟨_, rfl, ?_⟩
  cases w.card._is_work_mode <;> exact setLedState_steady _ _ (by decide)

/-- Witness for C12 (amended): expiry of a work session with the light in Work. -/
theorem C12_expiry_leaves_light_idle_witness :
    (updateDisplay ((setLight LedState.WORK System.fresh).withSession
        ⟨true, true, 0, 0⟩)).neoPixelController.map (fun c => c._currentLedState)
      = some LedState.IDLE := by
  obtain ⟨c1, h1, h2⟩ := (C12_expiry_leaves_light_idle
    ((setLight LedState.WORK System.fresh).withSession ⟨true, true, 0, 0⟩)
    (NeoPixelController.new.begin.setLedState LedState.WORK)
    (by decide) (by decide) (by decide) (by decide)).1
  rw [h1, Option.map_some', h2]

theorem updateTallyDisplay_frame (w : System) :
    (updateTallyDisplay w).lvTimers = w.lvTimers
      ∧ (updateTallyDisplay w).lvNextId = w.lvNextId
      ∧ (updateTallyDisplay w).card._timer = w.card._timer
      ∧ (updateTallyDisplay w).card._effects_timer = w.card._effects_timer := by
  simp only [updateTallyDisplay]
  split_ifs <;> exact ⟨rfl, rfl, rfl, rfl⟩

theorem refreshDisplay_frame (w : System) :
    (refreshDisplay w).lvTimers = w.lvTimers
      ∧ (refreshDisplay w).lvNextId = w.lvNextId
      ∧ (refreshDisplay w).card._timer = w.card._timer
      ∧ (refreshDisplay w).card._effects_timer = w.card._effects_timer := by
  simp only [refreshDisplay]
  split_ifs <;> exact ⟨rfl, rfl, rfl, rfl⟩

theorem switchModeBegin_frame (w : System) :
    (switchModeBegin w).lvTimers = w.lvTimers
      ∧ (switchModeBegin w).lvNextId = w.lvNextId
      ∧ (switchModeBegin w).card._timer = w.card._timer
      ∧ (switchModeBegin w).card._effects_timer = w.card._effects_timer := by
  have h := updateTallyDisplay_frame { w with card := { w.card with
      _completed_work_sessions := wrapInt32 (w.card._completed_work_sessions + 1) } }
  cases hm : w.card._is_work_mode <;>
    simp only [switchModeBegin, hm, Bool.false_eq_true,
      if_false, if_true, Bool.not_false, Bool.not_true] <;>
    split_ifs <;> simp_all

theorem stopTimer_lvNextId (w : System) : (stopTimer w).lvNextId = w.lvNextId := by
  cases h1 : w.card._timer <;> cases h2 : w.card._effects_timer <;>
    cases h3 : w.neoPixelController <;>
    simp [stopTimer, setLight, lv_timer_del, h1, h2, h3]

/-- The timers after `scheduleEffects` when no effects timer is held: a new
one-shot effects timer is appended and its handle kept. -/
theorem scheduleEffects_timers (w : System) (h : w.card._effects_timer = none) :
    (scheduleEffects w).card._effects_timer = some w.lvNextId
      ∧ (scheduleEffects w).card._timer = w.card._timer
      ∧ (scheduleEffects w).lvTimers
        = (w.lvTimers ++ [LvTimer.mk w.lvNextId TimerCb.effects 100 (-1)]).map
            (fun t : LvTimer => if t.id = w.lvNextId then { t with repeat_count := 1 } else t) := by
  simp only [scheduleEffects, h, lv_timer_create, lv_timer_set_repeat_count]
  split_ifs <;> exact ⟨rfl, rfl, rfl⟩

/-- The timers after a call of `updateDisplay()` that expires the countdown. -/
theorem updateDisplay_expire_timers (w : System) (h : w.labelsPresent = true)
    (hr : w.card._is_running = true) (hneg : wrapInt32 (w.card._remaining_seconds - 1) < 0) :
    (updateDisplay w).card._effects_timer = some w.lvNextId
      ∧ (updateDisplay w).card._timer = none
      ∧ (updateDisplay w).lvTimers
        = ((stopTimer w).lvTimers ++ [LvTimer.mk w.lvNextId TimerCb.effects 100 (-1)]).map
            (fun t : LvTimer => if t.id = w.lvNextId then { t with repeat_count := 1 } else t) := by
  obtain ⟨hl', hs⟩ := stopped_facts w (wrapInt32 (w.card._remaining_seconds - 1))
  have hrun := congrArg TimerSession.is_running hs
  simp only [PomodoroCard.session] at hrun
  have e : switchMode (stopTimer { w with card := { w.card with
      _remaining_seconds := wrapInt32 (w.card._remaining_seconds - 1) } })
      = refreshDisplay (switchModeBegin (stopTimer { w with card := { w.card with
          _remaining_seconds := wrapInt32 (w.card._remaining_seconds - 1) } })) :=
    switchMode_idle _ (by rw [hl', h]) hrun
  have f1 := refreshDisplay_frame (switchModeBegin (stopTimer { w with card := { w.card with
      _remaining_seconds := wrapInt32 (w.card._remaining_seconds - 1) } }))
  have f2 := switchModeBegin_frame (stopTimer { w with card := { w.card with
      _remaining_seconds := wrapInt32 (w.card._remaining_seconds - 1) } })
  have f3 := stopTimer_card { w with card := { w.card with
      _remaining_seconds := wrapInt32 (w.card._remaining_seconds - 1) } }
  have f4 := stopTimer_lvNextId { w with card := { w.card with
      _remaining_seconds := wrapInt32 (w.card._remaining_seconds - 1) } }
  have f5 := stopTimer_lvTimers { w with card := { w.card with
      _remaining_seconds := wrapInt32 (w.card._remaining_seconds - 1) } }
  have f6 := stopTimer_lvTimers w
  have heff : (refreshDisplay (switchModeBegin (stopTimer { w with card := { w.card with
      _remaining_seconds := wrapInt32 (w.card._remaining_seconds - 1) } }))).card._effects_timer
      = none := by rw [f1.2.2.2, f2.2.2.2, f3]
  obtain ⟨g1, g2, g3⟩ := scheduleEffects_timers _ heff
  rw [updateDisplay_expire w h hr hneg, e]
  refine ⟨?_, ?_, ?_⟩
  · rw [g1, f1.2.1, f2.2.1, f4]
  · rw [g2, f1.2.2.1, f2.2.2.1, f3]
  · rw [g3, f1.1, f2.1, f1.2.1, f2.2.1, f4, f5, f6]

theorem effects_timer_cb_effect (clock timer : Nat) (w : System) :
    (effects_timer_cb clock timer w).card.session = w.card.session
      ∧ (effects_timer_cb clock timer w).lvTimers = w.lvTimers
      ∧ (effects_timer_cb clock timer w).neoPixelController
        = w.neoPixelController.map (fun c => c.blinkLight clock 2 250)
      ∧ (effects_timer_cb clock timer w).card._effects_timer
        = (if w.card._effects_timer = some timer then none else w.card._effects_timer)
      ∧ (effects_timer_cb clock timer w).card._timer = w.card._timer := by
  cases hn : w.neoPixelController <;>
    simp only [effects_timer_cb, executePostTimerEffects, flashRainbow] <;>
    split_ifs <;> simp [hn, PomodoroCard.session]

/-- LVGL running the one-shot effects timer, the only timer in its list: the
callback runs and the timer is deleted. -/
theorem lv_timer_exec_oneshot (clock id : Nat) (w : System)
    (h1 : w.lvTimers = [LvTimer.mk id TimerCb.effects 100 1])
    (h2 : w.card._effects_timer = some id) :
    (lv_timer_exec clock id w).lvTimers = []
      ∧ (lv_timer_exec clock id w).card._effects_timer = none
      ∧ (lv_timer_exec clock id w).neoPixelController
        = w.neoPixelController.map (fun c => c.blinkLight clock 2 250)
      ∧ (lv_timer_exec clock id w).card.session = w.card.session := by
  obtain ⟨e1, e2, e3, e4, _⟩ := effects_timer_cb_effect clock id
    (lv_timer_set_repeat_count id 0 w)
  have hl : (lv_timer_set_repeat_count id 0 w).lvTimers
      = [LvTimer.mk id TimerCb.effects 100 0] := by
    simp [lv_timer_set_repeat_count, h1]
  have hexec : lv_timer_exec clock id w
      = lv_timer_del id (effects_timer_cb clock id (lv_timer_set_repeat_count id 0 w)) := by
    simp only [lv_timer_exec, h1, List.find?, decide_True, gt_iff_lt, zero_lt_one, if_true,
      sub_self]
    rw [e2, hl]
    simp [List.find?]
  rw [hexec]
  refine ⟨?_, ?_, ?_, ?_⟩
  · simp [lv_timer_del, e2, hl]
  · show (effects_timer_cb clock id (lv_timer_set_repeat_count id 0 w)).card._effects_timer
      = none
    rw [e4]
    simp [lv_timer_set_repeat_count, h2]
  · show (effects_timer_cb clock id (lv_timer_set_repeat_count id 0 w)).neoPixelController
      = _
    rw [e3]
    rfl
  · show (effects_timer_cb clock id (lv_timer_set_repeat_count id 0 w)).card.session = _
    rw [e1]
    rfl

/-- The expiry step of `updateDisplay()` on a running timer with 0 seconds left
and both time labels present: the timer is stopped, no handle of the 1 Hz
periodic is left, the mode is toggled, the remaining seconds are the new mode's
duration, and a new one-shot effects timer (100 ms, repeat count 1) is pending
and held by the card; when LVGL's list held only the card's timers, that
one-shot timer is the only timer left, and when it fires it calls
`blinkLight(2, 250)` on the light controller, clears the handle and is deleted.
When a time label is missing the call changes nothing. -/
theorem updateDisplay_expiry_step (w : System) (hr : w.card._is_running = true)
    (h0 : w.card._remaining_seconds = 0) :
    (w.labelsPresent = false → updateDisplay w = w)
      ∧ (w.labelsPresent = true →
        (updateDisplay w).card._is_running = false
          ∧ (updateDisplay w).card._timer = none
          ∧ (updateDisplay w).card._is_work_mode = (!w.card._is_work_mode)
          ∧ (updateDisplay w).card._remaining_seconds
            = (if w.card._is_work_mode then 300 else 1500)
          ∧ (updateDisplay w).card._effects_timer = some w.lvNextId
          ∧ LvTimer.mk w.lvNextId TimerCb.effects 100 1 ∈ (updateDisplay w).lvTimers
          ∧ (w.timersOwned = true →
            (updateDisplay w).lvTimers = [LvTimer.mk w.lvNextId TimerCb.effects 100 1]
              ∧ ∀ clock : Nat,
                (lv_timer_exec clock w.lvNextId (updateDisplay w)).neoPixelController
                    = (updateDisplay w).neoPixelController.map
                        (fun c => c.blinkLight clock 2 250)
                  ∧ (lv_timer_exec clock w.lvNextId (updateDisplay w)).card._effects_timer
                    = none
                  ∧ (lv_timer_exec clock w.lvNextId (updateDisplay w)).lvTimers = [])) := by
  refine ⟨updateDisplay_no_labels w, fun hl => ?_⟩
  have hneg : wrapInt32 (w.card._remaining_seconds - 1) < 0 := by rw [h0]; decide
  have hs := updateDisplay_expire_session w hl hr hneg
  simp only [PomodoroCard.session, TimerSession.mk.injEq] at hs
  obtain ⟨s1, s2, s3, s4⟩ := hs
  obtain ⟨t1, t2, t3⟩ := updateDisplay_expire_timers w hl hr hneg
  refine ⟨s1, t2, s2, ?_, t1, ?_, fun ho => ?_⟩
  · rw [s3]
    cases w.card._is_work_mode <;> decide
  · rw [t3]
    simp
  · have hlist : (updateDisplay w).lvTimers
        = [LvTimer.mk w.lvNextId TimerCb.effects 100 1] := by
      rw [t3, stopTimer_lvTimers_owned w ho]
      simp
    refine ⟨hlist, fun clock => ?_⟩
    obtain ⟨x1, x2, x3, _⟩ := lv_timer_exec_oneshot clock w.lvNextId (updateDisplay w) hlist t1
    exact ⟨x3, x2, x1⟩

theorem startTimer_fresh : startTimer System.fresh = System.started := by
  have hc := updateDisplay_count
    { System.fresh with card := { System.fresh.card with _is_running := true } }
    (by decide) (by decide) (by decide)
  simp only [startTimer]
  rw [if_neg (by decide)]
  simp only [hc]
  decide

/-- Mode and tally after `updateDisplay()`: toggled and counted when the call
takes the expiry branch, unchanged otherwise. -/
theorem updateDisplay_mode_tally (w : System) :
    (w.tickExpires = true →
        (updateDisplay w).card._is_work_mode = (!w.card._is_work_mode)
          ∧ (updateDisplay w).card._completed_work_sessions
            = (if w.card._is_work_mode then wrapInt32 (w.card._completed_work_sessions + 1)
              else w.card._completed_work_sessions))
      ∧ (w.tickExpires = false →
        (updateDisplay w).card._is_work_mode = w.card._is_work_mode
          ∧ (updateDisplay w).card._completed_work_sessions
            = w.card._completed_work_sessions) := by
  constructor
  · intro h
    simp only [System.tickExpires, Bool.and_eq_true, decide_eq_true_eq] at h
    obtain ⟨⟨hl, hr⟩, hneg⟩ := h
    have hs := updateDisplay_expire_session w hl hr hneg
    simp only [PomodoroCard.session, TimerSession.mk.injEq] at hs
    exact ⟨hs.2.1, hs.2.2.2⟩
  · intro h
    cases hl : w.labelsPresent
    · rw [updateDisplay_no_labels w hl]
      exact ⟨rfl, rfl⟩
    · cases hr : w.card._is_running
      · have hs := refreshDisplay_session w
        rw [← updateDisplay_idle w hl hr] at hs
        simp only [PomodoroCard.session, TimerSession.mk.injEq] at hs
        exact ⟨hs.2.1, hs.2.2.2⟩
      · have hpos : 0 ≤ wrapInt32 (w.card._remaining_seconds - 1) := by
          simp only [System.tickExpires, hl, hr, Bool.and_self, Bool.true_and,
            decide_eq_false_iff_not, not_lt] at h
          exact h
        have hs := (updateDisplay_count_session w hl hr hpos).1
        simp only [PomodoroCard.session, TimerSession.mk.injEq] at hs
        exact ⟨hs.2.1, hs.2.2.2⟩

/-- Mode and tally after any operation: toggled and counted when the operation
expires the countdown, unchanged otherwise. -/
theorem op_mode_tally (op : TimerOp) (w : System) :
    (op.expires w = true →
        (op.apply w).card._is_work_mode = (!w.card._is_work_mode)
          ∧ (op.apply w).card._completed_work_sessions
            = (if w.card._is_work_mode then wrapInt32 (w.card._completed_work_sessions + 1)
              else w.card._completed_work_sessions))
      ∧ (op.expires w = false →
        (op.apply w).card._is_work_mode = w.card._is_work_mode
          ∧ (op.apply w).card._completed_work_sessions
            = w.card._completed_work_sessions) := by
  have hstart : ∀ v : System,
      (TimerOp.startTimer.expires v = true →
        (startTimer v).card._is_work_mode = (!v.card._is_work_mode)
          ∧ (startTimer v).card._completed_work_sessions
            = (if v.card._is_work_mode then wrapInt32 (v.card._completed_work_sessions + 1)
              else v.card._completed_work_sessions))
      ∧ (TimerOp.startTimer.expires v = false →
        (startTimer v).card._is_work_mode = v.card._is_work_mode
          ∧ (startTimer v).card._completed_work_sessions
            = v.card._completed_work_sessions) := by
    intro v
    cases hr : v.card._is_running
    · have hs := (startTimer_card v hr).1
      simp only [PomodoroCard.session, TimerSession.mk.injEq] at hs
      obtain ⟨_, m, _, t⟩ := hs
      have hu := updateDisplay_mode_tally
        { v with card := { v.card with _is_running := true } }
      simp only [TimerOp.expires, hr, Bool.not_false, Bool.true_and]
      rw [m, t]
      exact hu
    · have : startTimer v = v := by simp [startTimer, hr]
      simp [TimerOp.expires, hr, this]
  cases op with
  | updateDisplay => exact updateDisplay_mode_tally w
  | startTimer => exact hstart w
  | stopTimer =>
    simp only [TimerOp.expires, TimerOp.apply, stopTimer_card]
    simp
  | handleButtonPress i =>
    by_cases hi : i = 1
    · subst hi
      cases hr : w.card._is_running
      · have h := hstart w
        simp only [TimerOp.expires, hr, Bool.not_false, Bool.true_and] at h
        simp only [TimerOp.expires, TimerOp.apply, handleButtonPress, hr, decide_True,
          Bool.not_false, Bool.true_and, Bool.false_eq_true, if_false, if_true]
        exact h
      · simp only [TimerOp.expires, TimerOp.apply, handleButtonPress, hr, if_true,
          stopTimer_card]
        simp
    · simp [TimerOp.expires, TimerOp.apply, handleButtonPress, hi]
  | effects_timer_cb clock timer =>
    have hs := (effects_timer_cb_effect clock timer w).1
    simp only [PomodoroCard.session, TimerSession.mk.injEq] at hs
    simp only [TimerOp.expires, TimerOp.apply]
    exact ⟨fun h => absurd h (by decide), fun _ => ⟨hs.2.1, hs.2.2.2⟩⟩

/-- C13: for every operation on the card (`updateDisplay`, `startTimer`,
`stopTimer`, `handleButtonPress(i)`, the effects callback) and every state
whose tally is an `int` below its maximum, the tally afterwards is unchanged
or exactly one greater; it is one greater exactly when the operation expired
the countdown while in work mode; and the mode is toggled exactly when the
operation expired the countdown. -/
theorem C13_tally_counts_work_expiries (op : TimerOp) (w : System)
    (hlo : -2147483648 ≤ w.card._completed_work_sessions)
    (hhi : w.card._completed_work_sessions < 2147483647) :
    ((op.apply w).card._completed_work_sessions = w.card._completed_work_sessions
        ∨ (op.apply w).card._completed_work_sessions = w.card._completed_work_sessions + 1)
      ∧ ((op.apply w).card._completed_work_sessions = w.card._completed_work_sessions + 1
        ↔ (op.expires w = true ∧ w.card._is_work_mode = true))
      ∧ ((op.apply w).card._is_work_mode ≠ w.card._is_work_mode ↔ op.expires w = true) := by
  have hw : wrapInt32 (w.card._completed_work_sessions + 1)
      = w.card._completed_work_sessions + 1 := wrapInt32_id _ (by omega) (by omega)
  obtain ⟨h1, h2⟩ := op_mode_tally op w
  cases he : op.expires w
  · obtain ⟨m, t⟩ := h2 he
    rw [m, t]
    refine ⟨Or.inl rfl, ⟨fun h => by omega, fun h => absurd h.1 (by decide)⟩, ?_⟩
    simp
  · obtain ⟨m, t⟩ := h1 he
    rw [m, t, hw]
    cases hm : w.card._is_work_mode <;> simp

/-- Witness for C13: the tick that expires a work session with tally 5. -/
theorem C13_tally_counts_work_expiries_witness :
    (updateDisplay (System.started.withSession ⟨true, true, 0, 5⟩)).card._completed_work_sessions
      = 5 + 1 :=
  (C13_tally_counts_work_expiries TimerOp.updateDisplay
    (System.started.withSession ⟨true, true, 0, 5⟩) (by decide) (by decide)).2.1.mpr
    ⟨by decide, by decide⟩

/-- The characters one round of the tally loop appends for the index `j + 1`. -/
theorem tally_loop_step (n : Nat) (tally_str : String) (j : Nat) :
    (if ((j : Int) + 1) % 5 = 0 ∧ (j : Int) + 1 ≠ (n : Int) then
        (if ((j : Int) + 1) % 5 = 0 then tally_str ++ "/" else tally_str ++ "|") ++ " "
      else (if ((j : Int) + 1) % 5 = 0 then tally_str ++ "/" else tally_str ++ "|")).data
      = tally_str.data
        ++ ((if (j + 1) % 5 = 0 then '/' else '|')
          :: (if (j + 1) % 5 = 0 ∧ j + 1 ≠ n then [' '] else [])) := by
  by_cases h5 : (j + 1) % 5 = 0
  · have h5' : ((j : Int) + 1) % 5 = 0 := by omega
    by_cases hn : j + 1 = n
    · have hn' : (j : Int) + 1 = (n : Int) := by omega
      rw [if_neg (fun h => h.2 hn'), if_pos h5', if_pos h5, if_neg (fun h => h.2 hn),
        String.data_append]
    · have hn' : (j : Int) + 1 ≠ (n : Int) := by omega
      rw [if_pos ⟨h5', hn'⟩, if_pos h5', if_pos h5, if_pos ⟨h5, hn⟩, String.data_append,
        String.data_append, List.append_assoc]
      rfl
  · have h5' : ¬ ((j : Int) + 1) % 5 = 0 := by omega
    rw [if_neg (fun h => h5' h.1), if_neg h5', if_neg h5, if_neg (fun h => h5 h.1),
      String.data_append]

theorem tally_loop_data (n : Nat) (l : List Nat) (acc : String) :
    (l.foldl
      (fun (tally_str : String) (j : Nat) =>
        let i : Int := (j : Int) + 1
        let tally_str := if i % 5 = 0 then tally_str ++ "/" else tally_str ++ "|"
        if i % 5 = 0 ∧ i ≠ (n : Int) then tally_str ++ " " else tally_str)
      acc).data
      = acc.data ++ l.flatMap
          (fun j =>
            (if (j + 1) % 5 = 0 then '/' else '|')
              :: (if (j + 1) % 5 = 0 ∧ j + 1 ≠ n then [' '] else [])) := by
  induction l generalizing acc with
  | nil => simp
  | cons j l ih =>
    rw [List.foldl_cons, ih, List.flatMap_cons, ← List.append_assoc]
    congr 1
    exact tally_loop_step n acc j

theorem tallyString_data (n : Nat) : (tallyString (n : Int)).data = specTallyChars n := by
  have h := tally_loop_data n (List.range n) ""
  simpa [tallyString, specTallyChars] using h

theorem specTally_marks_aux (n : Nat) (l : List Nat) :
    (l.flatMap
        (fun j =>
          (if (j + 1) % 5 = 0 then '/' else '|')
            :: (if (j + 1) % 5 = 0 ∧ j + 1 ≠ n then [' '] else []))).filter
        (fun c => decide (c ≠ ' '))
      = l.map (fun j => if (j + 1) % 5 = 0 then '/' else '|') := by
  induction l with
  | nil => rfl
  | cons j l ih =>
    rw [List.flatMap_cons, List.filter_append, ih, List.map_cons]
    by_cases h5 : (j + 1) % 5 = 0
    · by_cases hn : j + 1 = n
      · rw [if_pos h5, if_neg (fun h => h.2 hn)]
        rfl
      · rw [if_pos h5, if_pos ⟨h5, hn⟩]
        rfl
    · rw [if_neg h5, if_neg (fun h => h5 h.1)]
      rfl

theorem specTallyChars_head (n : Nat) : (specTallyChars n).head? ≠ some ' ' := by
  cases n with
  | zero => simp [specTallyChars]
  | succ n =>
    rw [specTallyChars, List.range_succ_eq_map, List.flatMap_cons]
    simp

theorem specTallyChars_last (n : Nat) : (specTallyChars n).getLast? ≠ some ' ' := by
  cases n with
  | zero => simp [specTallyChars]
  | succ n =>
    rw [specTallyChars, List.range_succ, List.flatMap_append]
    by_cases h5 : (n + 1) % 5 = 0 <;> simp [h5]

theorem specTallyChars_nil (n : Nat) : specTallyChars n = [] ↔ n = 0 := by
  cases n with
  | zero => simp [specTallyChars]
  | succ n =>
    rw [specTallyChars, List.range_succ_eq_map, List.flatMap_cons]
    simp

/-- C15: for every `n ≥ 0` the tally text for `n` completed work sessions is
the text the specification describes: the `n` marks in order, the `k`-th the
closing glyph `/` when `k` is a multiple of 5 and `|` otherwise, each closing
glyph that is not the final mark followed by one space, and no other
character. Without its spaces the text is the list of the `n` marks; it does
not start or end with a space and is empty exactly when `n = 0`; and it is the
text `updateTallyDisplay` writes to the tally label. -/
theorem C15_tally_text (n : Nat) :
    (tallyString (n : Int)).data = specTallyChars n
      ∧ (tallyString (n : Int)).data.filter (fun c => decide (c ≠ ' ')) = specTallyMarks n
      ∧ (specTallyMarks n).length = n
      ∧ (tallyString (n : Int)).data.head? ≠ some ' '
      ∧ (tallyString (n : Int)).data.getLast? ≠ some ' '
      ∧ (tallyString (n : Int) = "" ↔ n = 0)
      ∧ (∀ w : System, w.card._tally_label.isSome = true →
          w.card._completed_work_sessions = (n : Int) →
          (updateTallyDisplay w).card._tally_label = some (tallyString (n : Int))) := by
  have hd := tallyString_data n
  have hnil : tallyString (n : Int) = "" ↔ n = 0 := by
    rw [← specTallyChars_nil n, ← hd]
    constructor
    · intro h; rw [h]
    · intro h; exact String.ext h
  refine ⟨hd, ?_, ?_, ?_, ?_, hnil, ?_⟩
  · rw [hd]
    exact specTally_marks_aux n (List.range n)
  · simp [specTallyMarks]
  · rw [hd]; exact specTallyChars_head n
  · rw [hd]; exact specTallyChars_last n
  · intro w hl hn
    have hn' : w.card._tally_label.isNone = false := by
      cases ht : w.card._tally_label <;> simp_all
    by_cases h0 : n = 0
    · subst h0
      have t0 : tallyString (0 : Int) = "" := by decide
      simp [updateTallyDisplay, hn', hn, t0]
    · have h0' : ¬ ((n : Int) = 0) := by omega
      simp [updateTallyDisplay, hn', hn, h0']

/-- Witness for C15: the tally label after eleven completed work sessions. -/
theorem C15_tally_text_witness :
    (updateTallyDisplay (System.fresh.withSession ⟨false, true, 1500, 11⟩)).card._tally_label
      = some "||||/ ||||/ |" := by
  have h := (C15_tally_text 11).2.2.2.2.2.2 (System.fresh.withSession ⟨false, true, 1500, 11⟩)
    (by decide) (by decide)
  rw [h]
  decide

/-! ## Theorems: third part -/

theorem call_keeps_previous_steady (call : LightCall) (c : NeoPixelController)
    (h : c._previousLedState ≠ LedState.BLINKING) :
    (call.apply c)._previousLedState ≠ LedState.BLINKING := by
  cases call with
  | begin => exact h
  | setLedState s =>
    simp only [LightCall.apply, NeoPixelController.setLedState]
    split_ifs <;> exact h
  | blinkLight clock n d =>
    simp only [LightCall.apply, NeoPixelController.blinkLight]
    split_ifs <;> first | exact h | assumption
  | update clock =>
    simp only [LightCall.apply, NeoPixelController.update]
    split_ifs with hr
    · exact h
    · simp only [updateSteady_prev]
      split_ifs with hb
      · exact hb
      · rw [updateBlink_prev]
        exact h

theorem runCalls_keeps_previous_steady (calls : List LightCall) (c : NeoPixelController)
    (h : c._previousLedState ≠ LedState.BLINKING) :
    (c.runCalls calls)._previousLedState ≠ LedState.BLINKING := by
  induction calls generalizing c with
  | nil => exact h
  | cons call calls ih =>
    exact ih (call.apply c) (call_keeps_previous_steady call c h)

theorem blinkLight_saves_brightness (c : NeoPixelController) (clock : Nat) (n d : Int)
    (h : c._previousLedState ≠ LedState.BLINKING) :
    (c.blinkLight clock n d)._blink_original_brightness = c.fastLedBrightness := by
  simp only [NeoPixelController.blinkLight]
  split_ifs <;> rfl

/-- C23: in every controller state reached from the constructed controller by
`begin()`, `setLedState(s)` (any of the four states), `blinkLight(n, d)` and
`update()` calls, the saved previous state is not Blinking; so the guard of
`blinkLight` holds and every `blinkLight` call, also one made while Blinking,
overwrites the saved original brightness with the driver's current brightness. -/
theorem C23_previous_state_never_blinking (calls : List LightCall) :
    (NeoPixelController.new.runCalls calls)._previousLedState ≠ LedState.BLINKING
      ∧ ∀ (clock : Nat) (n d : Int),
        ((NeoPixelController.new.runCalls calls).blinkLight clock n d)._previousLedState
            ≠ LedState.BLINKING
          ∧ ((NeoPixelController.new.runCalls calls).blinkLight clock n d)._blink_original_brightness
            = (NeoPixelController.new.runCalls calls).fastLedBrightness := by
  have h := runCalls_keeps_previous_steady calls NeoPixelController.new (by decide)
  exact ⟨h, fun clock n d =>
    ⟨call_keeps_previous_steady (LightCall.blinkLight clock n d) _ h,
      blinkLight_saves_brightness _ clock n d h⟩⟩

theorem modeDuration_pos (m : Bool) : 1 ≤ modeDuration m := by
  cases m <;> decide

theorem updateDisplay_inRange (w : System) (h : w.card.session.inRange) :
    (updateDisplay w).card.session.inRange := by
  obtain ⟨h0, h1⟩ := h
  simp only [PomodoroCard.session] at h0 h1
  have hmax := modeDuration_le w.card._is_work_mode
  cases hl : w.labelsPresent
  · rw [updateDisplay_no_labels w hl]
    exact ⟨h0, h1⟩
  · cases hr : w.card._is_running
    · rw [updateDisplay_idle w hl hr, refreshDisplay_session]
      exact ⟨h0, h1⟩
    · have hw : wrapInt32 (w.card._remaining_seconds - 1) = w.card._remaining_seconds - 1 :=
        wrapInt32_id _ (by omega) (by omega)
      by_cases hz : w.card._remaining_seconds = 0
      · rw [updateDisplay_expire_session w hl hr (by rw [hz]; decide)]
        have := modeDuration_pos (!w.card._is_work_mode)
        exact ⟨by simp only; omega, le_refl _⟩
      · rw [(updateDisplay_count_session w hl hr (by rw [hw]; omega)).1, hw]
        exact ⟨by simp only; omega, by simp only; omega⟩

theorem startTimer_inRange (w : System) (h : w.card.session.inRange) :
    (startTimer w).card.session.inRange := by
  cases hr : w.card._is_running
  · rw [(startTimer_card w hr).1]
    exact updateDisplay_inRange { w with card := { w.card with _is_running := true } } h
  · have : startTimer w = w := by simp [startTimer, hr]
    rw [this]
    exact h

theorem stopTimer_inRange (w : System) (h : w.card.session.inRange) :
    (stopTimer w).card.session.inRange := by
  rw [stopTimer_card]
  exact h

theorem handleButtonPress_inRange (i : Nat) (w : System) (h : w.card.session.inRange) :
    (handleButtonPress i w).1.card.session.inRange := by
  simp only [handleButtonPress]
  split_ifs
  · exact stopTimer_inRange w h
  · exact startTimer_inRange w h
  · exact h

/-- The card after LVGL has run a timer: untouched, or what the callback
(`updateDisplay()` or `effects_timer_cb`) leaves of a system with the same card. -/
theorem lv_timer_exec_card (clock id : Nat) (w : System) :
    (lv_timer_exec clock id w).card = w.card
      ∨ ∃ w1 : System, w1.card = w.card
        ∧ ((lv_timer_exec clock id w).card = (updateDisplay w1).card
          ∨ (lv_timer_exec clock id w).card = (effects_timer_cb clock id w1).card) := by
  unfold lv_timer_exec
  split
  · exact Or.inl rfl
  · rename_i t _
    right
    refine ⟨if t.repeat_count > 0 then lv_timer_set_repeat_count id (t.repeat_count - 1) w
      else w, ?_, ?_⟩
    · split_ifs <;> rfl
    · cases t.cb
      · left
        simp only
        split
        · split_ifs <;> rfl
        · rfl
      · right
        simp only
        split
        · split_ifs <;> rfl
        · rfl

theorem lv_timer_exec_inRange (clock id : Nat) (w : System) (h : w.card.session.inRange) :
    (lv_timer_exec clock id w).card.session.inRange := by
  rcases lv_timer_exec_card clock id w with e | ⟨w1, e1, e | e⟩
  · rw [e]; exact h
  · rw [e]
    exact updateDisplay_inRange w1 (by rw [e1]; exact h)
  · rw [e, (effects_timer_cb_effect clock id w1).1, e1]
    exact h

theorem runEvents_inRange (events : List CardEvent) (w : System)
    (h : w.card.session.inRange) : (w.runEvents events).card.session.inRange := by
  induction events generalizing w with
  | nil => exact h
  | cons e events ih =>
    apply ih
    cases e with
    | handleButtonPress i => exact handleButtonPress_inRange i w h
    | timerFires clock id => exact lv_timer_exec_inRange clock id w h

theorem updateDisplay_stopped_session (w : System) (hr : w.card._is_running = false) :
    (updateDisplay w).card.session = w.card.session := by
  cases hl : w.labelsPresent
  · rw [updateDisplay_no_labels w hl]
  · rw [updateDisplay_idle w hl hr, refreshDisplay_session]

theorem new_session (alloc : WidgetAlloc) (neo : Option NeoPixelController) :
    (PomodoroCard.new alloc neo).card.session = ⟨false, true, 1500, 0⟩ := by
  simp only [PomodoroCard.new]
  split_ifs <;>
    first
    | rfl
    | (rw [setLight_card, (updateTallyDisplay_session _).1,
        updateDisplay_stopped_session _ (by rfl)]; rfl)

theorem fmt02d_length : ∀ v : Nat, v < 100 → (fmt02d (v : Int)).length = 2 := by
  decide

/-- For a countdown between 0 and 1500 seconds the formatted time has five
characters, so `snprintf` into the 6-byte buffer does not cut it. -/
theorem timeText_fits (r : Int) (h0 : 0 ≤ r) (h1 : r ≤ 1500) :
    (formatTime (Int.tdiv r 60) (Int.tmod r 60)).length = 5
      ∧ timeText r = formatTime (Int.tdiv r 60) (Int.tmod r 60) := by
  obtain ⟨k, rfl⟩ := Int.eq_ofNat_of_zero_le h0
  have hd : Int.tdiv (k : Int) 60 = ((k / 60 : Nat) : Int) := (Int.ofNat_tdiv k 60).symm
  have hm : Int.tmod (k : Int) 60 = ((k % 60 : Nat) : Int) := (Int.ofNat_tmod k 60).symm
  have hlen : (formatTime (Int.tdiv (k : Int) 60) (Int.tmod (k : Int) 60)).length = 5 := by
    rw [hd, hm]
    simp only [formatTime, String.length_append]
    rw [fmt02d_length (k / 60) (by omega), fmt02d_length (k % 60) (by omega)]
    rfl
  refine ⟨hlen, ?_⟩
  simp only [timeText, snprintf6]
  rw [List.take_of_length_le (by
    have : (formatTime (Int.tdiv (k : Int) 60) (Int.tmod (k : Int) 60)).data.length = 5 := hlen
    omega)]

/-- C21: in every state reached from a constructed card (whatever widgets
could be created, whatever the light controller) by button presses and by
LVGL running timers of its list, the remaining seconds lie between 0 and the
duration of the current mode (1500 in work mode, 300 in break mode); the
formatted time then has five characters and fits the 6-byte buffer uncut. -/
theorem C21_remaining_in_range (alloc : WidgetAlloc) (neo : Option NeoPixelController)
    (events : List CardEvent) :
    0 ≤ ((PomodoroCard.new alloc neo).runEvents events).card._remaining_seconds
      ∧ ((PomodoroCard.new alloc neo).runEvents events).card._remaining_seconds
        ≤ (if ((PomodoroCard.new alloc neo).runEvents events).card._is_work_mode then 1500
          else 300)
      ∧ (formatTime
          (Int.tdiv ((PomodoroCard.new alloc neo).runEvents events).card._remaining_seconds 60)
          (Int.tmod ((PomodoroCard.new alloc neo).runEvents events).card._remaining_seconds 60)
          ).length = 5
      ∧ timeText ((PomodoroCard.new alloc neo).runEvents events).card._remaining_seconds
        = formatTime
          (Int.tdiv ((PomodoroCard.new alloc neo).runEvents events).card._remaining_seconds 60)
          (Int.tmod ((PomodoroCard.new alloc neo).runEvents events).card._remaining_seconds 60)
    := by
  have hinit : (PomodoroCard.new alloc neo).card.session.inRange := by
    rw [new_session]
    exact ⟨by decide, by decide⟩
  obtain ⟨h0, h1⟩ := runEvents_inRange events _ hinit
  simp only [PomodoroCard.session] at h0 h1
  have hmax := modeDuration_le ((PomodoroCard.new alloc neo).runEvents events).card._is_work_mode
  obtain ⟨f1, f2⟩ := timeText_fits _ h0 (by omega)
  refine ⟨h0, ?_, f1, f2⟩
  cases hm : ((PomodoroCard.new alloc neo).runEvents events).card._is_work_mode
  · rw [hm] at h1
    exact h1
  · rw [hm] at h1
    exact h1

theorem new_all_fresh :
    PomodoroCard.new WidgetAlloc.all (some NeoPixelController.new.begin) = System.fresh := by
  simp only [PomodoroCard.new, WidgetAlloc.all, Bool.not_true, Bool.false_eq_true, if_false,
    if_true]
  rw [updateDisplay_idle _ (by decide) (by decide)]
  decide

theorem updateDisplay_count_frame (w : System) (h : w.labelsPresent = true)
    (hr : w.card._is_running = true) (hpos : 0 ≤ wrapInt32 (w.card._remaining_seconds - 1)) :
    (updateDisplay w).lvTimers = w.lvTimers
      ∧ (updateDisplay w).lvNextId = w.lvNextId
      ∧ (updateDisplay w).card._timer = w.card._timer
      ∧ (updateDisplay w).card._effects_timer = w.card._effects_timer := by
  rw [updateDisplay_count w h hr hpos]
  exact refreshDisplay_frame _

/-- LVGL running the 1 Hz timer while the countdown has seconds left: the
callback `updateDisplay()` runs and the timer stays. -/
theorem lv_timer_exec_periodic (clock id p : Nat) (w : System)
    (hfind : w.lvTimers.find? (fun t => t.id = id)
      = some (LvTimer.mk id TimerCb.display p (-1)))
    (hl : w.labelsPresent = true) (hr : w.card._is_running = true)
    (hpos : 0 ≤ wrapInt32 (w.card._remaining_seconds - 1)) :
    lv_timer_exec clock id w = updateDisplay w := by
  have hf := (updateDisplay_count_frame w hl hr hpos).1
  simp only [lv_timer_exec, hfind]
  rw [if_neg (by decide)]
  simp only [hf, hfind]
  rw [if_neg (by decide)]

theorem ticks_count_frame (k : Nat) (w : System) (h : w.labelsPresent = true)
    (hr : w.card._is_running = true) (hk : (k : Int) ≤ w.card._remaining_seconds)
    (hmax : w.card._remaining_seconds < 2147483648) :
    (ticks k w).lvTimers = w.lvTimers
      ∧ (ticks k w).lvNextId = w.lvNextId
      ∧ (ticks k w).card._timer = w.card._timer
      ∧ (ticks k w).card._effects_timer = w.card._effects_timer := by
  induction k generalizing w with
  | zero => exact ⟨rfl, rfl, rfl, rfl⟩
  | succ k ih =>
    have hw : wrapInt32 (w.card._remaining_seconds - 1) = w.card._remaining_seconds - 1 :=
      wrapInt32_id _ (by omega) (by omega)
    have hpos : 0 ≤ wrapInt32 (w.card._remaining_seconds - 1) := by rw [hw]; omega
    obtain ⟨hs, hl⟩ := updateDisplay_count_session w h hr hpos
    rw [hw] at hs
    simp only [PomodoroCard.session, TimerSession.mk.injEq] at hs
    obtain ⟨h1, _, h3, _⟩ := hs
    obtain ⟨f1, f2, f3, f4⟩ := updateDisplay_count_frame w h hr hpos
    obtain ⟨g1, g2, g3, g4⟩ := ih (updateDisplay w) hl h1 (by rw [h3]; omega)
      (by rw [h3]; omega)
    simp only [ticks]
    exact ⟨by rw [g1, f1], by rw [g2, f2], by rw [g3, f3], by rw [g4, f4]⟩

/-- A run of firings of the 1 Hz timer, no longer than the seconds left, is a
run of `updateDisplay()` calls. -/
theorem runEvents_periodic (cs : List Nat) (id p : Nat) (w : System)
    (hfind : w.lvTimers.find? (fun t => t.id = id)
      = some (LvTimer.mk id TimerCb.display p (-1)))
    (hl : w.labelsPresent = true) (hr : w.card._is_running = true)
    (hk : (cs.length : Int) ≤ w.card._remaining_seconds)
    (hmax : w.card._remaining_seconds < 2147483648) :
    w.runEvents (cs.map (fun c => CardEvent.timerFires c id)) = ticks cs.length w := by
  induction cs generalizing w with
  | nil => rfl
  | cons c cs ih =>
    simp only [List.length_cons, Nat.cast_add, Nat.cast_one] at hk
    have hw : wrapInt32 (w.card._remaining_seconds - 1) = w.card._remaining_seconds - 1 :=
      wrapInt32_id _ (by omega) (by omega)
    have hpos : 0 ≤ wrapInt32 (w.card._remaining_seconds - 1) := by rw [hw]; omega
    obtain ⟨hs, hl'⟩ := updateDisplay_count_session w hl hr hpos
    rw [hw] at hs
    simp only [PomodoroCard.session, TimerSession.mk.injEq] at hs
    obtain ⟨h1, _, h3, _⟩ := hs
    have hf := (updateDisplay_count_frame w hl hr hpos).1
    have hstep : (CardEvent.timerFires c id).apply w = updateDisplay w :=
      lv_timer_exec_periodic c id p w hfind hl hr hpos
    simp only [System.runEvents, List.map_cons, List.foldl_cons, List.length_cons, ticks]
    rw [hstep]
    exact ih (updateDisplay w) (by rw [hf]; exact hfind) hl' h1 (by rw [h3]; omega)
      (by rw [h3]; omega)

theorem startTimer_registers (w : System) (hr : w.card._is_running = false) :
    (startTimer w).periodicRegistered = true
      ∨ (updateDisplay { w with card := { w.card with _is_running := true } }).card._timer
        ≠ none := by
  by_cases hn : (updateDisplay { w with card := { w.card with _is_running := true }
      }).card._timer = none
  · left
    simp [startTimer, hr, setLight_card, hn, System.periodicRegistered, lv_timer_create]
  · exact Or.inr hn

/-- The state when the button is pressed at 00:00: the started timer after
1499 firings of the 1 Hz timer. -/
theorem pause_at_zero_prefix :
    ((PomodoroCard.new WidgetAlloc.all (some NeoPixelController.new.begin)).runEvents
        ([CardEvent.handleButtonPress 1]
          ++ ((List.range 1499).map (fun j => 1000 * (j + 1))).map
              (fun clock => CardEvent.timerFires clock 0)))
      = ticks 1499 System.started := by
  have hlen : ((List.range 1499).map (fun j => 1000 * (j + 1))).length = 1499 := by
    rw [List.length_map, List.length_range]
  have hstart : (CardEvent.handleButtonPress 1).apply System.fresh = System.started := by
    simp only [CardEvent.apply, handleButtonPress, if_true]
    rw [if_neg (by decide)]
    exact startTimer_fresh
  have hrun := runEvents_periodic ((List.range 1499).map (fun j => 1000 * (j + 1))) 0 1000
    System.started (by decide) (by decide) (by decide) (by rw [hlen]; decide) (by decide)
  rw [hlen] at hrun
  rw [new_all_fresh, System.runEvents, List.foldl_append, List.foldl_cons, List.foldl_nil,
    hstart]
  exact hrun

/-- Stopping and starting a timer with 0 seconds left and the time labels
present: the start expires the countdown, and the 1 Hz timer is registered
although the timer is stopped. -/
theorem stop_start_at_zero (w : System) (hl : w.labelsPresent = true)
    (h0 : w.card._remaining_seconds = 0) :
    (startTimer (stopTimer w)).card.session
        = ⟨false, !w.card._is_work_mode, modeDuration (!w.card._is_work_mode),
            if w.card._is_work_mode then wrapInt32 (w.card._completed_work_sessions + 1)
            else w.card._completed_work_sessions⟩
      ∧ (startTimer (stopTimer w)).periodicRegistered = true := by
  have hc := stopTimer_card w
  have hstop : (stopTimer w).card._is_running = false := by rw [hc]
  have hl2 : (stopTimer w).labelsPresent = true := by
    simpa [System.labelsPresent, hc] using hl
  have hneg : wrapInt32 ((stopTimer w).card._remaining_seconds - 1) < 0 := by
    rw [hc]; simp only; rw [h0]; decide
  constructor
  · rw [(startTimer_session _ hstop).2.2 hl2 hneg, hc]
  · rcases startTimer_registers _ hstop with h | h
    · exact h
    · exact absurd (updateDisplay_expire_timers
        { stopTimer w with card := { (stopTimer w).card with _is_running := true } }
        (by simpa [System.labelsPresent] using hl2) rfl hneg).2.1 h

theorem runEvents_append (w : System) (a b : List CardEvent) :
    w.runEvents (a ++ b) = (w.runEvents a).runEvents b := by
  simp only [System.runEvents, List.foldl_append]

theorem runEvents_two (w : System) (e1 e2 : CardEvent) :
    w.runEvents [e1, e2] = e2.apply (e1.apply w) := rfl

theorem press_running (w : System) (hr : w.card._is_running = true) :
    (CardEvent.handleButtonPress 1).apply w = stopTimer w := by
  simp [CardEvent.apply, handleButtonPress, hr]

theorem press_stopped (w : System) (hr : w.card._is_running = false) :
    (CardEvent.handleButtonPress 1).apply w = startTimer w := by
  simp [CardEvent.apply, handleButtonPress, hr]

theorem stopTimer_stopped (w : System) : (stopTimer w).card._is_running = false := by
  rw [stopTimer_card]

/-- The whole run of `CardEvent.pauseAtZero` from a constructed card. -/
theorem pause_at_zero_run :
    (PomodoroCard.new WidgetAlloc.all (some NeoPixelController.new.begin)).runEvents
        CardEvent.pauseAtZero
      = startTimer (stopTimer (ticks 1499 System.started)) := by
  obtain ⟨hs, _⟩ := ticks_count 1499 System.started (by decide) (by decide) (by decide)
    (by decide)
  have hs' : (ticks 1499 System.started).card.session = ⟨true, true, 0, 0⟩ := by
    rw [hs]; decide
  simp only [PomodoroCard.session, TimerSession.mk.injEq] at hs'
  obtain ⟨s1, _, _, _⟩ := hs'
  rw [CardEvent.pauseAtZero, runEvents_append, pause_at_zero_prefix, runEvents_two,
    press_running _ s1, press_stopped _ (stopTimer_stopped _)]

/-- C22 (failing input): a card constructed with every widget; the button
starts the timer, the 1 Hz timer fires 1499 times (the countdown shows 00:00),
the button stops the timer, the button starts it again. The second start
expires the countdown at once, which stops the timer, and `startTimer` then
goes on to register the 1 Hz timer: the timer is stopped (break mode, 300
seconds, tally 1) and the periodic is registered. -/
theorem C22_periodic_registered_while_stopped :
    ((PomodoroCard.new WidgetAlloc.all (some NeoPixelController.new.begin)).runEvents
        CardEvent.pauseAtZero).card.session = ⟨false, false, 300, 1⟩
      ∧ ((PomodoroCard.new WidgetAlloc.all (some NeoPixelController.new.begin)).runEvents
        CardEvent.pauseAtZero).periodicRegistered = true := by
  obtain ⟨hs, hl⟩ := ticks_count 1499 System.started (by decide) (by decide) (by decide)
    (by decide)
  have hs' : (ticks 1499 System.started).card.session = ⟨true, true, 0, 0⟩ := by
    rw [hs]; decide
  simp only [PomodoroCard.session, TimerSession.mk.injEq] at hs'
  obtain ⟨_, s2, s3, s4⟩ := hs'
  obtain ⟨r1, r2⟩ := stop_start_at_zero (ticks 1499 System.started) hl s3
  rw [pause_at_zero_run]
  refine ⟨?_, r2⟩
  rw [r1, s2, s4]
  decide

/-! ## Theorems: the card from its constructor -/

theorem setLight_frame (s : LedState) (w : System) :
    (setLight s w).lvTimers = w.lvTimers ∧ (setLight s w).lvNextId = w.lvNextId := by
  unfold setLight
  split <;> exact ⟨rfl, rfl⟩

/-- A system with the same timer list and the same timer handles has
well-formed timers when the other has. -/
theorem timersWellFormed_congr (w v : System) (hl : v.lvTimers = w.lvTimers)
    (ht : v.card._timer = w.card._timer) (he : v.card._effects_timer = w.card._effects_timer) :
    v.timersWellFormed = w.timersWellFormed := by
  simp only [System.timersWellFormed, hl, ht, he]

theorem timersWellFormed_owned (w : System) (h : w.timersWellFormed = true) :
    w.timersOwned = true := by
  simp only [System.timersWellFormed, System.timersOwned, List.all_eq_true,
    decide_eq_true_eq] at h ⊢
  intro t ht
  rcases h t ht with ⟨_, _, h3⟩ | ⟨_, _, h3⟩
  · exact Or.inl h3
  · exact Or.inr h3

theorem updateDisplay_labels_kept (w : System) (h : w.labelsPresent = true) :
    (updateDisplay w).labelsPresent = true := by
  cases hr : w.card._is_running
  · rw [updateDisplay_idle w h hr, refreshDisplay_labels]
  · by_cases hneg : wrapInt32 (w.card._remaining_seconds - 1) < 0
    · rw [updateDisplay_expire w h hr hneg]
      exact (scheduleEffects_session _).2.1
    · exact (updateDisplay_count_session w h hr (not_lt.mp hneg)).2

theorem updateDisplay_wellFormed (w : System) (h : w.timersWellFormed = true) :
    (updateDisplay w).timersWellFormed = true := by
  cases hl : w.labelsPresent
  · rw [updateDisplay_no_labels w hl]
    exact h
  · cases hr : w.card._is_running
    · obtain ⟨f1, _, f3, f4⟩ := refreshDisplay_frame w
      rw [updateDisplay_idle w hl hr, timersWellFormed_congr w _ f1 f3 f4]
      exact h
    · by_cases hneg : wrapInt32 (w.card._remaining_seconds - 1) < 0
      · obtain ⟨t1, t2, t3⟩ := updateDisplay_expire_timers w hl hr hneg
        rw [stopTimer_lvTimers_owned w (timersWellFormed_owned w h)] at t3
        simp [System.timersWellFormed, t1, t3]
      · obtain ⟨f1, _, f3, f4⟩ := updateDisplay_count_frame w hl hr (not_lt.mp hneg)
        rw [timersWellFormed_congr w _ f1 f3 f4]
        exact h

theorem stopTimer_wellFormed (w : System) (h : w.timersWellFormed = true) :
    (stopTimer w).timersWellFormed = true := by
  simp [System.timersWellFormed, stopTimer_lvTimers_owned w (timersWellFormed_owned w h)]

/-- What `startTimer()` leaves of a stopped timer besides the session: the
labels as `updateDisplay()` left them, and the 1 Hz timer created when no
handle is held. -/
theorem startTimer_frame (w : System) (hr : w.card._is_running = false) :
    (startTimer w).labelsPresent
        = (updateDisplay { w with card := { w.card with _is_running := true } }).labelsPresent
      ∧ (startTimer w).card._effects_timer
        = (updateDisplay { w with card := { w.card with _is_running := true }
            }).card._effects_timer
      ∧ ((updateDisplay { w with card := { w.card with _is_running := true } }).card._timer
          = none →
        (startTimer w).lvTimers
            = (updateDisplay { w with card := { w.card with _is_running := true } }).lvTimers
              ++ [LvTimer.mk
                (updateDisplay { w with card := { w.card with _is_running := true } }).lvNextId
                TimerCb.display 1000 (-1)]
          ∧ (startTimer w).card._timer
            = some (updateDisplay { w with card := { w.card with _is_running := true }
                }).lvNextId)
      ∧ ((updateDisplay { w with card := { w.card with _is_running := true } }).card._timer
          ≠ none →
        (startTimer w).lvTimers
            = (updateDisplay { w with card := { w.card with _is_running := true } }).lvTimers
          ∧ (startTimer w).card._timer
            = (updateDisplay { w with card := { w.card with _is_running := true }
                }).card._timer) := by
  simp only [startTimer, hr, Bool.false_eq_true, if_false, setLight_card]
  split_ifs with h <;>
    simp_all [System.labelsPresent, lv_timer_create, setLight_card, setLight_frame]

theorem startTimer_wellFormed (w : System) (h : w.timersWellFormed = true) :
    (startTimer w).timersWellFormed = true := by
  cases hr : w.card._is_running
  · have h1 : ({ w with card := { w.card with _is_running := true } } : System).timersWellFormed
        = true := by
      rw [timersWellFormed_congr w
        ({ w with card := { w.card with _is_running := true } } : System) rfl rfl rfl]
      exact h
    have h2 := updateDisplay_wellFormed _ h1
    obtain ⟨_, e2, e3, e4⟩ := startTimer_frame w hr
    by_cases hn : (updateDisplay { w with card := { w.card with _is_running := true }
        }).card._timer = none
    · obtain ⟨g1, g2⟩ := e3 hn
      simp only [System.timersWellFormed, List.all_eq_true, decide_eq_true_eq] at h2 ⊢
      intro t ht
      rw [g1, List.mem_append, List.mem_singleton] at ht
      rcases ht with ht | rfl
      · rcases h2 t ht with ⟨_, _, a3⟩ | ⟨a1, a2, a3⟩
        · rw [hn] at a3
          exact absurd a3 (by simp)
        · exact Or.inr ⟨a1, a2, by rw [e2]; exact a3⟩
      · exact Or.inl ⟨rfl, rfl, g2⟩
    · obtain ⟨g1, g2⟩ := e4 hn
      rw [timersWellFormed_congr _ _ g1 g2 e2]
      exact h2
  · have : startTimer w = w := by simp [startTimer, hr]
    rw [this]
    exact h

theorem handleButtonPress_wellFormed (i : Nat) (w : System) (h : w.timersWellFormed = true) :
    (handleButtonPress i w).1.timersWellFormed = true := by
  simp only [handleButtonPress]
  split_ifs
  · exact stopTimer_wellFormed w h
  · exact startTimer_wellFormed w h
  · exact h

theorem updateTallyDisplay_wellFormed (w : System) (h : w.timersWellFormed = true) :
    (updateTallyDisplay w).timersWellFormed = true := by
  obtain ⟨f1, _, f3, f4⟩ := updateTallyDisplay_frame w
  rw [timersWellFormed_congr w _ f1 f3 f4]
  exact h

/-- LVGL running a forever-repeating timer with the display callback: the
callback `updateDisplay()` runs, and nothing is deleted afterwards. -/
theorem lv_timer_exec_display (clock id : Nat) (w : System) (t : LvTimer)
    (hfind : w.lvTimers.find? (fun t => t.id = id) = some t)
    (hcb : t.cb = TimerCb.display) (hrep : t.repeat_count = -1)
    (hwf : w.timersWellFormed = true) :
    lv_timer_exec clock id w = updateDisplay w := by
  have h2 := updateDisplay_wellFormed w hwf
  simp only [System.timersWellFormed, List.all_eq_true, decide_eq_true_eq] at h2
  simp only [lv_timer_exec, hfind, hcb, hrep]
  rw [if_neg (by decide)]
  split
  · rename_i t1 ht1
    have := h2 t1 (List.mem_of_find?_eq_some ht1)
    rw [if_neg]
    rcases this with ⟨_, a, _⟩ | ⟨_, a, _⟩ <;> rw [a] <;> decide
  · rfl

/-- LVGL running a one-shot timer with the effects callback: the repeat count
drops to 0, the callback runs, and the timer is deleted. -/
theorem lv_timer_exec_effects (clock id : Nat) (w : System) (t : LvTimer)
    (hfind : w.lvTimers.find? (fun t => t.id = id) = some t)
    (hcb : t.cb = TimerCb.effects) (hrep : t.repeat_count = 1) :
    lv_timer_exec clock id w
      = lv_timer_del id (effects_timer_cb clock id (lv_timer_set_repeat_count id 0 w)) := by
  obtain ⟨_, e2, _⟩ := effects_timer_cb_effect clock id (lv_timer_set_repeat_count id 0 w)
  have hid : t.id = id := by simpa using List.find?_some hfind
  have hcomp : ((fun u : LvTimer => decide (u.id = id))
      ∘ (fun u : LvTimer => if u.id = id then { u with repeat_count := 0 } else u))
      = (fun u : LvTimer => decide (u.id = id)) := by
    funext u
    simp only [Function.comp]
    split_ifs <;> rfl
  have hf2 : ∃ t1, (lv_timer_set_repeat_count id 0 w).lvTimers.find? (fun t => t.id = id)
      = some t1 ∧ t1.repeat_count = 0 := by
    simp only [lv_timer_set_repeat_count, List.find?_map]
    rw [hcomp, hfind]
    refine ⟨_, rfl, ?_⟩
    simp [hid]
  obtain ⟨t1, g1, g2⟩ := hf2
  simp only [lv_timer_exec, hfind, hcb, hrep, gt_iff_lt, zero_lt_one, if_true, sub_self]
  rw [e2]
  simp only [g1]
  rw [if_pos g2]

theorem lv_timer_exec_wellFormed (clock id : Nat) (w : System)
    (h : w.timersWellFormed = true) : (lv_timer_exec clock id w).timersWellFormed = true := by
  cases hfind : w.lvTimers.find? (fun t => t.id = id) with
  | none =>
    have : lv_timer_exec clock id w = w := by simp only [lv_timer_exec, hfind]
    rw [this]
    exact h
  | some t =>
    have hmem := List.mem_of_find?_eq_some hfind
    have hid : t.id = id := by simpa using List.find?_some hfind
    have hall := h
    simp only [System.timersWellFormed, List.all_eq_true, decide_eq_true_eq] at hall
    rcases hall t hmem with ⟨a1, a2, _⟩ | ⟨a1, a2, a3⟩
    · rw [lv_timer_exec_display clock id w t hfind a1 a2 h]
      exact updateDisplay_wellFormed w h
    · rw [lv_timer_exec_effects clock id w t hfind a1 a2]
      obtain ⟨_, e2, _, _, e5⟩ := effects_timer_cb_effect clock id
        (lv_timer_set_repeat_count id 0 w)
      simp only [System.timersWellFormed, List.all_eq_true, decide_eq_true_eq]
      intro u hu
      have hu1 : u ∈ (effects_timer_cb clock id (lv_timer_set_repeat_count id 0 w)).lvTimers
          ∧ u.id ≠ id := by
        simpa [lv_timer_del] using hu
      obtain ⟨hu2, hne⟩ := hu1
      rw [e2] at hu2
      simp only [lv_timer_set_repeat_count, List.mem_map] at hu2
      obtain ⟨v, hv, hvu⟩ := hu2
      by_cases hvid : v.id = id
      · rw [if_pos hvid] at hvu
        exact absurd (by rw [← hvu]; exact hvid) hne
      · rw [if_neg hvid] at hvu
        subst hvu
        rcases hall v hv with ⟨b1, b2, b3⟩ | ⟨_, _, b3⟩
        · refine Or.inl ⟨b1, b2, ?_⟩
          show (effects_timer_cb clock id (lv_timer_set_repeat_count id 0 w)).card._timer = _
          rw [e5]
          exact b3
        · rw [a3, hid] at b3
          exact absurd (Option.some.inj b3).symm hvid

theorem labelsPresent_of_card (w v : System) (h : v.card = w.card) :
    v.labelsPresent = w.labelsPresent := by
  simp only [System.labelsPresent, h]

theorem effects_timer_cb_labels (clock timer : Nat) (w : System) :
    (effects_timer_cb clock timer w).labelsPresent = w.labelsPresent := by
  cases hn : w.neoPixelController <;>
    simp only [effects_timer_cb, executePostTimerEffects, flashRainbow, System.labelsPresent] <;>
    split_ifs <;> simp [hn]

/-- The null guard of `updateDisplay()` keeps a card without time labels at its
countdown: after a call the labels are still missing and the remaining seconds
are what they were. -/
theorem updateDisplay_guarded (w : System) (h : (updateDisplay w).labelsPresent = false) :
    w.labelsPresent = false
      ∧ (updateDisplay w).card._remaining_seconds = w.card._remaining_seconds := by
  cases hl : w.labelsPresent
  · rw [updateDisplay_no_labels w hl]
    exact ⟨rfl, rfl⟩
  · rw [updateDisplay_labels_kept w hl] at h
    exact absurd h (by decide)

theorem stopTimer_guarded (w : System) (h : (stopTimer w).labelsPresent = false) :
    w.labelsPresent = false
      ∧ (stopTimer w).card._remaining_seconds = w.card._remaining_seconds := by
  have hc := stopTimer_card w
  refine ⟨?_, by rw [hc]⟩
  rw [← h]
  simp [System.labelsPresent, hc]

theorem startTimer_guarded (w : System) (h : (startTimer w).labelsPresent = false) :
    w.labelsPresent = false
      ∧ (startTimer w).card._remaining_seconds = w.card._remaining_seconds := by
  cases hr : w.card._is_running
  · obtain ⟨e1, _⟩ := startTimer_frame w hr
    have hs := congrArg TimerSession.remaining_seconds (startTimer_card w hr).1
    simp only [PomodoroCard.session] at hs
    rw [e1] at h
    obtain ⟨g1, g2⟩ := updateDisplay_guarded _ h
    exact ⟨g1, by rw [hs, g2]⟩
  · have : startTimer w = w := by simp [startTimer, hr]
    rw [this] at h ⊢
    exact ⟨h, rfl⟩

theorem handleButtonPress_guarded (i : Nat) (w : System)
    (h : (handleButtonPress i w).1.labelsPresent = false) :
    w.labelsPresent = false
      ∧ (handleButtonPress i w).1.card._remaining_seconds = w.card._remaining_seconds := by
  simp only [handleButtonPress] at h ⊢
  split_ifs at h ⊢
  · exact stopTimer_guarded w h
  · exact startTimer_guarded w h
  · exact ⟨h, rfl⟩

theorem lv_timer_exec_guarded (clock id : Nat) (w : System)
    (h : (lv_timer_exec clock id w).labelsPresent = false) :
    w.labelsPresent = false
      ∧ (lv_timer_exec clock id w).card._remaining_seconds = w.card._remaining_seconds := by
  rcases lv_timer_exec_card clock id w with e | ⟨w1, e1, e | e⟩
  · rw [labelsPresent_of_card _ _ e] at h
    exact ⟨h, by rw [e]⟩
  · rw [labelsPresent_of_card _ _ e] at h
    obtain ⟨g1, g2⟩ := updateDisplay_guarded w1 h
    rw [labelsPresent_of_card _ _ e1] at g1
    exact ⟨g1, by rw [e, g2, e1]⟩
  · rw [labelsPresent_of_card _ _ e, effects_timer_cb_labels, labelsPresent_of_card _ _ e1] at h
    have hs := congrArg TimerSession.remaining_seconds (effects_timer_cb_effect clock id w1).1
    simp only [PomodoroCard.session] at hs
    exact ⟨h, by rw [e, hs, e1]⟩

theorem updateTallyDisplay_guarded (w : System)
    (h : (updateTallyDisplay w).labelsPresent = false) :
    w.labelsPresent = false
      ∧ (updateTallyDisplay w).card._remaining_seconds = w.card._remaining_seconds := by
  obtain ⟨e1, e2, _⟩ := updateTallyDisplay_session w
  have hs := congrArg TimerSession.remaining_seconds e1
  simp only [PomodoroCard.session] at hs
  rw [e2] at h
  exact ⟨h, hs⟩

theorem call_guarded (c : CardCall) (w : System) (h : (c.apply w).labelsPresent = false) :
    w.labelsPresent = false
      ∧ (c.apply w).card._remaining_seconds = w.card._remaining_seconds := by
  cases c with
  | event e =>
    cases e with
    | handleButtonPress i => exact handleButtonPress_guarded i w h
    | timerFires clock id => exact lv_timer_exec_guarded clock id w h
  | updateDisplay => exact updateDisplay_guarded w h
  | updateTallyDisplay => exact updateTallyDisplay_guarded w h

theorem call_wellFormed (c : CardCall) (w : System) (h : w.timersWellFormed = true) :
    (c.apply w).timersWellFormed = true := by
  cases c with
  | event e =>
    cases e with
    | handleButtonPress i => exact handleButtonPress_wellFormed i w h
    | timerFires clock id => exact lv_timer_exec_wellFormed clock id w h
  | updateDisplay => exact updateDisplay_wellFormed w h
  | updateTallyDisplay => exact updateTallyDisplay_wellFormed w h

/-- Two facts kept by every call on the card: the timers in LVGL's list are
the card's, and a card without time labels keeps the countdown it has. -/
theorem runCardCalls_invariant (calls : List CardCall) (w : System) (r : Int)
    (h1 : w.timersWellFormed = true)
    (h2 : w.labelsPresent = false → w.card._remaining_seconds = r) :
    (w.runCardCalls calls).timersWellFormed = true
      ∧ ((w.runCardCalls calls).labelsPresent = false
        → (w.runCardCalls calls).card._remaining_seconds = r) := by
  induction calls generalizing w with
  | nil => exact ⟨h1, h2⟩
  | cons c calls ih =>
    apply ih (c.apply w) (call_wellFormed c w h1)
    intro h
    obtain ⟨g1, g2⟩ := call_guarded c w h
    rw [g2]
    exact h2 g1

theorem updateDisplay_stopped_frame (w : System) (hr : w.card._is_running = false) :
    (updateDisplay w).lvTimers = w.lvTimers
      ∧ (updateDisplay w).lvNextId = w.lvNextId
      ∧ (updateDisplay w).card._timer = w.card._timer
      ∧ (updateDisplay w).card._effects_timer = w.card._effects_timer := by
  cases hl : w.labelsPresent
  · rw [updateDisplay_no_labels w hl]
    exact ⟨rfl, rfl, rfl, rfl⟩
  · rw [updateDisplay_idle w hl hr]
    exact refreshDisplay_frame w

/-- The last three calls of the constructor leave LVGL's timers and the
timer handles as they are. -/
theorem construct_frame (w : System) (hr : w.card._is_running = false) :
    (setLight LedState.IDLE (updateTallyDisplay (updateDisplay w))).lvTimers = w.lvTimers
      ∧ (setLight LedState.IDLE (updateTallyDisplay (updateDisplay w))).lvNextId = w.lvNextId
      ∧ (setLight LedState.IDLE (updateTallyDisplay (updateDisplay w))).card._timer
        = w.card._timer
      ∧ (setLight LedState.IDLE (updateTallyDisplay (updateDisplay w))).card._effects_timer
        = w.card._effects_timer := by
  obtain ⟨a1, a2, a3, a4⟩ := updateDisplay_stopped_frame w hr
  obtain ⟨b1, b2, b3, b4⟩ := updateTallyDisplay_frame (updateDisplay w)
  exact ⟨by rw [(setLight_frame _ _).1, b1, a1], by rw [(setLight_frame _ _).2, b2, a2],
    by rw [setLight_card, b3, a3], by rw [setLight_card, b4, a4]⟩

/-- A card just constructed has no LVGL timer and holds no timer handle. -/
theorem new_frame (alloc : WidgetAlloc) (neo : Option NeoPixelController) :
    (PomodoroCard.new alloc neo).lvTimers = []
      ∧ (PomodoroCard.new alloc neo).lvNextId = 0
      ∧ (PomodoroCard.new alloc neo).card._timer = none
      ∧ (PomodoroCard.new alloc neo).card._effects_timer = none := by
  simp only [PomodoroCard.new]
  split_ifs <;>
    first
    | exact ⟨rfl, rfl, rfl, rfl⟩
    | exact construct_frame _ rfl

/-- In every state a constructed card reaches, the timers in LVGL's list are
the card's, and a running timer with 0 seconds left has both time labels. -/
theorem reachable_facts (alloc : WidgetAlloc) (neo : Option NeoPixelController)
    (calls : List CardCall) :
    ((PomodoroCard.new alloc neo).runCardCalls calls).timersWellFormed = true
      ∧ (((PomodoroCard.new alloc neo).runCardCalls calls).labelsPresent = false
        → ((PomodoroCard.new alloc neo).runCardCalls calls).card._remaining_seconds = 1500) := by
  apply runCardCalls_invariant
  · simp [System.timersWellFormed, (new_frame alloc neo).1]
  · intro _
    have hs := congrArg TimerSession.remaining_seconds (new_session alloc neo)
    simpa [PomodoroCard.session] using hs

theorem runCardCalls_events (events : List CardEvent) (w : System) :
    w.runCardCalls (events.map CardCall.event) = w.runEvents events := by
  induction events generalizing w with
  | nil => rfl
  | cons e events ih => exact ih (e.apply w)

theorem ticks_wellFormed (k : Nat) (w : System) (h : w.timersWellFormed = true) :
    (ticks k w).timersWellFormed = true := by
  induction k generalizing w with
  | zero => exact h
  | succ k ih => exact ih (updateDisplay w) (updateDisplay_wellFormed w h)

/-- A run of firings of the 1 Hz timer, at most one longer than the seconds
left, is a run of `updateDisplay()` calls: the last of them may expire the
countdown. -/
theorem runEvents_periodic_expiring (cs : List Nat) (id : Nat) (t : LvTimer) (w : System)
    (hfind : w.lvTimers.find? (fun t => t.id = id) = some t)
    (hcb : t.cb = TimerCb.display) (hrep : t.repeat_count = -1)
    (hwf : w.timersWellFormed = true)
    (hl : w.labelsPresent = true) (hr : w.card._is_running = true)
    (h0 : 0 ≤ w.card._remaining_seconds)
    (hk : (cs.length : Int) ≤ w.card._remaining_seconds + 1)
    (hmax : w.card._remaining_seconds < 2147483648) :
    w.runEvents (CardEvent.firings id cs) = ticks cs.length w := by
  induction cs generalizing w with
  | nil => rfl
  | cons c cs ih =>
    simp only [List.length_cons, Nat.cast_add, Nat.cast_one] at hk
    have hstep : (CardEvent.timerFires c id).apply w = updateDisplay w :=
      lv_timer_exec_display c id w t hfind hcb hrep hwf
    simp only [CardEvent.firings, System.runEvents, List.map_cons, List.foldl_cons,
      List.length_cons, ticks]
    rw [hstep]
    by_cases hz : w.card._remaining_seconds = 0
    · have hnil : cs = [] := by
        apply List.eq_nil_of_length_eq_zero
        have : (cs.length : Int) ≤ 0 := by omega
        omega
      subst hnil
      rfl
    · have hw : wrapInt32 (w.card._remaining_seconds - 1) = w.card._remaining_seconds - 1 :=
        wrapInt32_id _ (by omega) (by omega)
      have hpos : 0 ≤ wrapInt32 (w.card._remaining_seconds - 1) := by rw [hw]; omega
      obtain ⟨hs, hl1⟩ := updateDisplay_count_session w hl hr hpos
      rw [hw] at hs
      simp only [PomodoroCard.session, TimerSession.mk.injEq] at hs
      obtain ⟨h1, _, h3, _⟩ := hs
      have hf := (updateDisplay_count_frame w hl hr hpos).1
      exact ih (updateDisplay w) (by rw [hf]; exact hfind) (updateDisplay_wellFormed w hwf)
        hl1 h1 (by rw [h3]; omega) (by rw [h3]; omega) (by rw [h3]; omega)

/-- The countdown of a running timer over `updateDisplay()` calls: second by
second down to 0, and expiry on the call after that. -/
theorem ticks_expire (w : System) (h : w.labelsPresent = true)
    (hr : w.card._is_running = true) (h0 : 0 ≤ w.card._remaining_seconds)
    (hmax : w.card._remaining_seconds < 2147483648) (k : Nat) :
    ((k : Int) ≤ w.card._remaining_seconds →
        (ticks k w).card.session
          = ⟨true, w.card._is_work_mode, w.card._remaining_seconds - k,
              w.card._completed_work_sessions⟩)
      ∧ ((k : Int) = w.card._remaining_seconds + 1 →
        (ticks k w).card.session
          = ⟨false, !w.card._is_work_mode, modeDuration (!w.card._is_work_mode),
              if w.card._is_work_mode then wrapInt32 (w.card._completed_work_sessions + 1)
              else w.card._completed_work_sessions⟩) := by
  refine ⟨fun hk => (ticks_count k w h hr hk hmax).1, fun hk => ?_⟩
  cases k with
  | zero => simp only [Nat.cast_zero] at hk; omega
  | succ k =>
    simp only [Nat.cast_add, Nat.cast_one] at hk
    obtain ⟨hs, hl1⟩ := ticks_count k w h hr (by omega) hmax
    simp only [PomodoroCard.session, TimerSession.mk.injEq] at hs
    obtain ⟨g1, g2, g3, g4⟩ := hs
    rw [ticks_succ k w, updateDisplay_expire_session _ hl1 g1
      (by rw [g3]; have : w.card._remaining_seconds - (k : Int) = 0 := by omega
          rw [this]; decide), g2, g4]

/-- LVGL running a timer of a card without time labels leaves the session as
it is: the display callback returns at its null guard. -/
theorem lv_timer_exec_no_labels (clock id : Nat) (w : System) (hl : w.labelsPresent = false) :
    (lv_timer_exec clock id w).card.session = w.card.session
      ∧ (lv_timer_exec clock id w).labelsPresent = false := by
  rcases lv_timer_exec_card clock id w with e | ⟨w1, e1, e | e⟩
  · exact ⟨by rw [e], by rw [labelsPresent_of_card _ _ e, hl]⟩
  · have hl1 : w1.labelsPresent = false := by rw [labelsPresent_of_card _ _ e1, hl]
    rw [updateDisplay_no_labels w1 hl1] at e
    exact ⟨by rw [e, e1], by rw [labelsPresent_of_card _ _ e, hl1]⟩
  · exact ⟨by rw [e, (effects_timer_cb_effect clock id w1).1, e1],
      by rw [labelsPresent_of_card _ _ e, effects_timer_cb_labels,
        labelsPresent_of_card _ _ e1, hl]⟩

theorem runEvents_firings_no_labels (cs : List Nat) (id : Nat) (w : System)
    (hl : w.labelsPresent = false) :
    (w.runEvents (CardEvent.firings id cs)).card.session = w.card.session := by
  induction cs generalizing w with
  | nil => rfl
  | cons c cs ih =>
    obtain ⟨e1, e2⟩ := lv_timer_exec_no_labels c id w hl
    simp only [CardEvent.firings, System.runEvents, List.map_cons, List.foldl_cons]
    exact (ih (lv_timer_exec c id w) e2).trans e1

theorem runEvents_cons (w : System) (e : CardEvent) (events : List CardEvent) :
    w.runEvents (e :: events) = (e.apply w).runEvents events := rfl

/-- The first press of the button on a card just constructed, when the time
labels exist: `startTimer()` counts the first second and registers the 1 Hz
timer with handle 0. -/
theorem first_press (alloc : WidgetAlloc) (neo : Option NeoPixelController)
    (hl : (PomodoroCard.new alloc neo).labelsPresent = true) :
    ((CardEvent.handleButtonPress 1).apply (PomodoroCard.new alloc neo)).card.session
        = ⟨true, true, 1499, 0⟩
      ∧ ((CardEvent.handleButtonPress 1).apply (PomodoroCard.new alloc neo)).labelsPresent = true
      ∧ ((CardEvent.handleButtonPress 1).apply (PomodoroCard.new alloc neo)).lvTimers
        = [LvTimer.mk 0 TimerCb.display 1000 (-1)]
      ∧ ((CardEvent.handleButtonPress 1).apply (PomodoroCard.new alloc neo)).card._timer
        = some 0 := by
  have hs := new_session alloc neo
  simp only [PomodoroCard.session, TimerSession.mk.injEq] at hs
  obtain ⟨s1, s2, s3, s4⟩ := hs
  obtain ⟨n1, n2, n3, n4⟩ := new_frame alloc neo
  have hpos : 0 ≤ wrapInt32 ((PomodoroCard.new alloc neo).card._remaining_seconds - 1) := by
    rw [s3]; decide
  have hl1 : ({ PomodoroCard.new alloc neo with
      card := { (PomodoroCard.new alloc neo).card with _is_running := true } }
      : System).labelsPresent = true := hl
  obtain ⟨c1, c2, c3, _⟩ := updateDisplay_count_frame _ hl1 rfl hpos
  obtain ⟨d1, d2⟩ := updateDisplay_count_session _ hl1 rfl hpos
  obtain ⟨e1, _, e3, _⟩ := startTimer_frame _ s1
  obtain ⟨g1, g2⟩ := e3 (by rw [c3]; exact n3)
  rw [press_stopped _ s1]
  refine ⟨?_, by rw [e1]; exact d2, ?_, ?_⟩
  · rw [(startTimer_session _ s1).2.1 hl hpos, s2, s3, s4]
    decide
  · rw [g1, c1, c2]
    show (PomodoroCard.new alloc neo).lvTimers
      ++ [LvTimer.mk (PomodoroCard.new alloc neo).lvNextId TimerCb.display 1000 (-1)] = _
    rw [n1, n2]
    rfl
  · rw [g2, c2]
    show some (PomodoroCard.new alloc neo).lvNextId = _
    rw [n2]

/-- The first press of the button on a card constructed without a time label:
the timer runs, the countdown stays at 1500, and the 1 Hz timer is registered
with handle 0. -/
theorem first_press_no_labels (alloc : WidgetAlloc) (neo : Option NeoPixelController)
    (hl : (PomodoroCard.new alloc neo).labelsPresent = false) :
    ((CardEvent.handleButtonPress 1).apply (PomodoroCard.new alloc neo)).card.session
        = ⟨true, true, 1500, 0⟩
      ∧ ((CardEvent.handleButtonPress 1).apply (PomodoroCard.new alloc neo)).labelsPresent
        = false
      ∧ ((CardEvent.handleButtonPress 1).apply (PomodoroCard.new alloc neo)).lvTimers
        = [LvTimer.mk 0 TimerCb.display 1000 (-1)] := by
  have hs := new_session alloc neo
  simp only [PomodoroCard.session, TimerSession.mk.injEq] at hs
  obtain ⟨s1, s2, s3, s4⟩ := hs
  obtain ⟨n1, n2, n3, n4⟩ := new_frame alloc neo
  have hl1 : ({ PomodoroCard.new alloc neo with
      card := { (PomodoroCard.new alloc neo).card with _is_running := true } }
      : System).labelsPresent = false := hl
  have hu := updateDisplay_no_labels _ hl1
  obtain ⟨e1, _, e3, _⟩ := startTimer_frame _ s1
  obtain ⟨g1, _⟩ := e3 (by rw [hu]; exact n3)
  rw [press_stopped _ s1]
  refine ⟨?_, by rw [e1, hu]; exact hl1, ?_⟩
  · rw [(startTimer_session _ s1).1 hl, s2, s3, s4]
  · rw [g1, hu]
    show (PomodoroCard.new alloc neo).lvTimers
      ++ [LvTimer.mk (PomodoroCard.new alloc neo).lvNextId TimerCb.display 1000 (-1)] = _
    rw [n1, n2]
    rfl

theorem secondsClock_length (n : Nat) : (secondsClock n).length = n := by
  rw [secondsClock, List.length_map, List.length_range]

theorem new_withoutLabels :
    (PomodoroCard.new WidgetAlloc.withoutLabels
      (some NeoPixelController.new.begin)).labelsPresent = false := by
  simp only [PomodoroCard.new, WidgetAlloc.withoutLabels, Bool.not_true, Bool.false_eq_true,
    if_false, if_true]
  rw [updateDisplay_no_labels _ (by decide)]
  decide

/-- C6 (counterexample): a card whose two time labels could not be created
(`lv_label_create` returned null). The button starts the timer: it is running
in work mode with 1500 seconds left and tally 0, and the 1 Hz timer is
registered with handle 0. After exactly 1500 firings of that timer, each a call
of `updateDisplay()`, nothing has expired: still running, work mode, 1500
seconds left, tally 0. -/
theorem C6_without_labels_never_expires :
    ((PomodoroCard.new WidgetAlloc.withoutLabels (some NeoPixelController.new.begin)).runEvents
        [CardEvent.handleButtonPress 1]).card.session = ⟨true, true, 1500, 0⟩
      ∧ ((PomodoroCard.new WidgetAlloc.withoutLabels
          (some NeoPixelController.new.begin)).runEvents
        [CardEvent.handleButtonPress 1]).lvTimers = [LvTimer.mk 0 TimerCb.display 1000 (-1)]
      ∧ ((PomodoroCard.new WidgetAlloc.withoutLabels
          (some NeoPixelController.new.begin)).runEvents
        (CardEvent.handleButtonPress 1 :: CardEvent.firings 0 (secondsClock 1500))).card.session
        = ⟨true, true, 1500, 0⟩ := by
  obtain ⟨p1, p2, p3⟩ := first_press_no_labels WidgetAlloc.withoutLabels
    (some NeoPixelController.new.begin) new_withoutLabels
  refine ⟨p1, p3, ?_⟩
  rw [runEvents_cons, runEvents_firings_no_labels _ _ _ p2]
  exact p1

/-- C6 (amended): a card just constructed (stopped, work mode, 1500 seconds,
tally 0) whose time labels exist is started by the button, which counts the
first second: running with 1499 seconds left and the 1 Hz timer registered
with handle 0. Firings of that timer are `updateDisplay()` calls; after fewer
than 1500 of them the timer is still running in work mode with tally 0 and
`1499 - k` seconds left, and the 1500th takes the countdown to -1 and fires the
expiry: stopped, break mode, 300 seconds left, tally 1. When a time label is
missing, the started timer stays at 1500 seconds whatever the number of
firings. -/
theorem C6_work_session_expires_on_tick_1500 (alloc : WidgetAlloc)
    (neo : Option NeoPixelController) (clocks : List Nat) :
    ((PomodoroCard.new alloc neo).labelsPresent = true →
        ((PomodoroCard.new alloc neo).runEvents [CardEvent.handleButtonPress 1]).card.session
            = ⟨true, true, 1499, 0⟩
          ∧ (clocks.length ≤ 1500 →
            (PomodoroCard.new alloc neo).runEvents
                (CardEvent.handleButtonPress 1 :: CardEvent.firings 0 clocks)
              = ticks clocks.length
                  ((PomodoroCard.new alloc neo).runEvents [CardEvent.handleButtonPress 1]))
          ∧ (clocks.length < 1500 →
            ((PomodoroCard.new alloc neo).runEvents
                (CardEvent.handleButtonPress 1 :: CardEvent.firings 0 clocks)).card.session
              = ⟨true, true, 1499 - (clocks.length : Int), 0⟩)
          ∧ (clocks.length = 1500 →
            ((PomodoroCard.new alloc neo).runEvents
                (CardEvent.handleButtonPress 1 :: CardEvent.firings 0 clocks)).card.session
              = ⟨false, false, 300, 1⟩))
      ∧ ((PomodoroCard.new alloc neo).labelsPresent = false →
          ((PomodoroCard.new alloc neo).runEvents
              (CardEvent.handleButtonPress 1 :: CardEvent.firings 0 clocks)).card.session
            = ⟨true, true, 1500, 0⟩) := by
  constructor
  · intro hl
    obtain ⟨p1, p2, p3, p4⟩ := first_press alloc neo hl
    have hone : (PomodoroCard.new alloc neo).runEvents [CardEvent.handleButtonPress 1]
        = (CardEvent.handleButtonPress 1).apply (PomodoroCard.new alloc neo) := rfl
    have q := p1
    simp only [PomodoroCard.session, TimerSession.mk.injEq] at q
    obtain ⟨q1, q2, q3, q4⟩ := q
    have hfind : ((CardEvent.handleButtonPress 1).apply (PomodoroCard.new alloc neo)).lvTimers.find?
        (fun t => t.id = 0) = some (LvTimer.mk 0 TimerCb.display 1000 (-1)) := by
      rw [p3]
      rfl
    have hwf : ((CardEvent.handleButtonPress 1).apply
        (PomodoroCard.new alloc neo)).timersWellFormed = true := by
      simp [System.timersWellFormed, p3, p4]
    have hrun : clocks.length ≤ 1500 →
        (PomodoroCard.new alloc neo).runEvents
            (CardEvent.handleButtonPress 1 :: CardEvent.firings 0 clocks)
          = ticks clocks.length
              ((CardEvent.handleButtonPress 1).apply (PomodoroCard.new alloc neo)) := by
      intro hk
      rw [runEvents_cons]
      exact runEvents_periodic_expiring clocks 0 _ _ hfind rfl rfl hwf p2 q1
        (by rw [q3]; decide) (by rw [q3]; omega) (by rw [q3]; decide)
    have hexp := ticks_expire ((CardEvent.handleButtonPress 1).apply (PomodoroCard.new alloc neo))
      p2 q1 (by rw [q3]; decide) (by rw [q3]; decide) clocks.length
    rw [q2, q3, q4] at hexp
    rw [hone]
    refine ⟨p1, hrun, fun hk => ?_, fun hk => ?_⟩
    · rw [hrun (by omega), hexp.1 (by omega)]
    · rw [hrun (by omega), hexp.2 (by omega)]
      decide
  · intro hl
    obtain ⟨p1, p2, _⟩ := first_press_no_labels alloc neo hl
    rw [runEvents_cons, runEvents_firings_no_labels _ _ _ p2]
    exact p1

/-- Witness for C6 (amended): a card constructed with every widget, the button,
and 1500 firings of the 1 Hz timer one second apart. -/
theorem C6_work_session_expires_on_tick_1500_witness :
    ((PomodoroCard.new WidgetAlloc.all (some NeoPixelController.new.begin)).runEvents
        (CardEvent.handleButtonPress 1 :: CardEvent.firings 0 (secondsClock 1500))).card.session
      = ⟨false, false, 300, 1⟩ :=
  ((C6_work_session_expires_on_tick_1500 WidgetAlloc.all (some NeoPixelController.new.begin)
    (secondsClock 1500)).1 (by rw [new_all_fresh]; decide)).2.2.2 (secondsClock_length 1500)

/-- The progress arc after a 1 Hz tick that counts a second: the progress value
of the decremented countdown. -/
theorem updateDisplay_count_arc (w : System) (hl : w.labelsPresent = true)
    (hr : w.card._is_running = true) (hpos : 0 ≤ wrapInt32 (w.card._remaining_seconds - 1))
    (ha : w.card._progress_arc.isSome = true) :
    (updateDisplay w).card._progress_arc
      = some (progressPercent w.card._is_work_mode
          (wrapInt32 (w.card._remaining_seconds - 1))) := by
  rw [updateDisplay_count w hl hr hpos]
  exact refreshDisplay_arc
    { w with card := { w.card with
        _remaining_seconds := wrapInt32 (w.card._remaining_seconds - 1) } } ha

theorem scheduleEffects_arc (w : System) (ha : w.card._progress_arc.isSome = true) :
    (scheduleEffects w).card._progress_arc = some 100 := by
  cases h1 : w.card._effects_timer <;>
    simp [scheduleEffects, h1, lv_timer_create, lv_timer_del, lv_timer_set_repeat_count, ha]

theorem switchModeBegin_arc (w : System) :
    (switchModeBegin w).card._progress_arc.isSome = w.card._progress_arc.isSome := by
  have h : ∀ v : System, (updateTallyDisplay v).card._progress_arc = v.card._progress_arc := by
    intro v
    simp only [updateTallyDisplay]
    split_ifs <;> rfl
  have h1 := h { w with card := { w.card with
      _completed_work_sessions := wrapInt32 (w.card._completed_work_sessions + 1) } }
  cases hm : w.card._is_work_mode <;>
    simp only [switchModeBegin, hm, Bool.false_eq_true,
      if_false, if_true, Bool.not_false, Bool.not_true] <;>
    split_ifs <;> simp_all

theorem refreshDisplay_arc_isSome (w : System) :
    (refreshDisplay w).card._progress_arc.isSome = w.card._progress_arc.isSome := by
  simp only [refreshDisplay]
  split_ifs <;> simp_all

/-- The progress arc after a 1 Hz tick that expires the countdown: full. -/
theorem updateDisplay_expire_arc (w : System) (hl : w.labelsPresent = true)
    (hr : w.card._is_running = true) (hneg : wrapInt32 (w.card._remaining_seconds - 1) < 0)
    (ha : w.card._progress_arc.isSome = true) :
    (updateDisplay w).card._progress_arc = some 100 := by
  obtain ⟨hl1, hs⟩ := stopped_facts w (wrapInt32 (w.card._remaining_seconds - 1))
  have hrun := congrArg TimerSession.is_running hs
  simp only [PomodoroCard.session] at hrun
  rw [updateDisplay_expire w hl hr hneg, switchMode_idle _ (by rw [hl1, hl]) hrun]
  apply scheduleEffects_arc
  rw [refreshDisplay_arc_isSome, switchModeBegin_arc, stopTimer_card]
  exact ha

/-- C9 (counterexample): a card constructed with every widget and started by
the button: 1499 seconds are left in work mode and `updateDisplay` has sent 99
to the progress arc, while `round(1499 / 1500 * 100)` is 100. -/
theorem C9_progress_is_truncated :
    ((PomodoroCard.new WidgetAlloc.all (some NeoPixelController.new.begin)).runEvents
        [CardEvent.handleButtonPress 1]).card.session = ⟨true, true, 1499, 0⟩
      ∧ ((PomodoroCard.new WidgetAlloc.all (some NeoPixelController.new.begin)).runEvents
        [CardEvent.handleButtonPress 1]).card._progress_arc = some 99
      ∧ specRoundedPercent true 1499 = 100 := by
  have e : (PomodoroCard.new WidgetAlloc.all (some NeoPixelController.new.begin)).runEvents
      [CardEvent.handleButtonPress 1] = System.started := by
    rw [new_all_fresh]
    show (CardEvent.handleButtonPress 1).apply System.fresh = System.started
    rw [press_stopped _ (by decide), startTimer_fresh]
  rw [e]
  decide

/-- C9 (amended): for every mode and every remaining-seconds value `r` with
`r ≤ modeDuration`, the progress value lies in `[0, 100]`, is 0 when `r < 0`,
and for `r ≥ 0` is the single-precision product truncated toward zero: the
floor of `100 * r / modeDuration`, and one less than that when
`r / modeDuration` is exactly 0.53 or 0.59. It is the value `updateDisplay`
sends to the progress arc: for the countdown `r` of a stopped timer, and for
the decremented countdown `r` of a running timer, the 1 Hz tick, when `r ≥ 0`;
a tick that takes the countdown below 0 expires it and sends 100, the full arc
of the new mode. -/
theorem C9_progress_value (m : Bool) (r : Int) (hr : r ≤ modeDuration m) :
    0 ≤ progressPercent m r ∧ progressPercent m r ≤ 100
      ∧ (r < 0 → progressPercent m r = 0)
      ∧ (0 ≤ r → progressPercent m r
          = 100 * r / modeDuration m
            - (if 100 * r = 53 * modeDuration m ∨ 100 * r = 59 * modeDuration m then 1 else 0))
      ∧ (∀ w : System, w.labelsPresent = true → w.card._progress_arc.isSome = true →
          w.card._is_work_mode = m →
          (w.card._is_running = false → w.card._remaining_seconds = r →
              (updateDisplay w).card._progress_arc = some (progressPercent m r))
            ∧ (w.card._is_running = true → wrapInt32 (w.card._remaining_seconds - 1) = r →
              0 ≤ r →
              (updateDisplay w).card._progress_arc = some (progressPercent m r))
            ∧ (w.card._is_running = true → wrapInt32 (w.card._remaining_seconds - 1) = r →
              r < 0 →
              (updateDisplay w).card._progress_arc = some 100)) := by
  have hlink : ∀ w : System, w.labelsPresent = true → w.card._progress_arc.isSome = true →
      w.card._is_work_mode = m →
      (w.card._is_running = false → w.card._remaining_seconds = r →
          (updateDisplay w).card._progress_arc = some (progressPercent m r))
        ∧ (w.card._is_running = true → wrapInt32 (w.card._remaining_seconds - 1) = r →
          0 ≤ r →
          (updateDisplay w).card._progress_arc = some (progressPercent m r))
        ∧ (w.card._is_running = true → wrapInt32 (w.card._remaining_seconds - 1) = r →
          r < 0 →
          (updateDisplay w).card._progress_arc = some 100) := by
    intro w hl ha hm
    refine ⟨fun hrun hrem => ?_, fun hrun hrem hpos => ?_, fun hrun hrem hneg => ?_⟩
    · rw [updateDisplay_idle_arc w hl hrun ha, hm, hrem]
    · rw [updateDisplay_count_arc w hl hrun (by rw [hrem]; exact hpos) ha, hm, hrem]
    · exact updateDisplay_expire_arc w hl hrun (by rw [hrem]; exact hneg) ha
  by_cases hneg : r < 0
  · have h0 := progressPercent_neg m r hneg
    exact ⟨by rw [h0], by rw [h0]; decide, fun _ => h0, fun h => absurd hneg (not_lt.mpr h),
      hlink⟩
  · have hnn : 0 ≤ r := not_lt.mp hneg
    obtain ⟨k, rfl⟩ := Int.eq_ofNat_of_zero_le hnn
    cases m
    · have hk : k < 301 := by
        have : modeDuration false = 300 := by decide
        omega
      obtain ⟨t1, t2, t3⟩ := progress_table_break k hk
      exact ⟨t1, t2, fun h => absurd h hneg, fun _ => t3, hlink⟩
    · have hk : k < 1501 := by
        have : modeDuration true = 1500 := by decide
        omega
      obtain ⟨t1, t2, t3⟩ := progress_table_work k hk
      exact ⟨t1, t2, fun h => absurd h hneg, fun _ => t3, hlink⟩

/-- Witness for C9 (amended): break mode with 177 seconds left, where the
single-precision value falls just below 59; and the first 1 Hz tick of a
started timer, which sends the progress value of 1498 seconds. -/
theorem C9_progress_value_witness :
    progressPercent false 177 = 100 * 177 / modeDuration false - 1
      ∧ (updateDisplay System.started).card._progress_arc
        = some (progressPercent true 1498) := by
  constructor
  · have h := (C9_progress_value false 177 (by decide)).2.2.2.1 (by decide)
    rw [h]
    decide
  · exact ((C9_progress_value true 1498 (by decide)).2.2.2.2 System.started (by decide)
      (by decide) (by decide)).2.1 (by decide) (by decide) (by decide)

/-- C11: the expiry step. For every state `w` that a constructed card (whatever
widgets could be created, whatever the light controller) reaches by button
presses, LVGL running its timers and direct calls of the public methods, if the
timer is running with 0 seconds left, then one `updateDisplay` call leaves the
timer stopped, the 1 Hz periodic cancelled (no handle, no such timer in LVGL's
list), the mode toggled, the remaining seconds the new mode's duration (300
leaving work, 1500 leaving break), and exactly one one-shot effects timer
(100 ms, repeat count 1) pending, held by the card, every earlier timer deleted;
when that timer fires it calls `blinkLight(2, 250)` on the light controller,
clears the handle and is deleted, so no effects action is pending. -/
theorem C11_expiry_step (alloc : WidgetAlloc) (neo : Option NeoPixelController)
    (calls : List CardCall) (w : System)
    (hw : w = (PomodoroCard.new alloc neo).runCardCalls calls)
    (hr : w.card._is_running = true) (h0 : w.card._remaining_seconds = 0) :
    (updateDisplay w).card._is_running = false
      ∧ (updateDisplay w).card._timer = none
      ∧ (updateDisplay w).card._is_work_mode = (!w.card._is_work_mode)
      ∧ (updateDisplay w).card._remaining_seconds
        = (if w.card._is_work_mode then 300 else 1500)
      ∧ (updateDisplay w).card._effects_timer = some w.lvNextId
      ∧ (updateDisplay w).lvTimers = [LvTimer.mk w.lvNextId TimerCb.effects 100 1]
      ∧ ∀ clock : Nat,
          (lv_timer_exec clock w.lvNextId (updateDisplay w)).neoPixelController
              = (updateDisplay w).neoPixelController.map (fun c => c.blinkLight clock 2 250)
            ∧ (lv_timer_exec clock w.lvNextId (updateDisplay w)).card._effects_timer = none
            ∧ (lv_timer_exec clock w.lvNextId (updateDisplay w)).lvTimers = [] := by
  obtain ⟨f1, f2⟩ := reachable_facts alloc neo calls
  rw [← hw] at f1 f2
  have hl : w.labelsPresent = true := by
    cases h : w.labelsPresent
    · have := f2 h
      rw [h0] at this
      exact absurd this (by decide)
    · rfl
  obtain ⟨s1, s2, s3, s4, s5, _, s7⟩ := (updateDisplay_expiry_step w hr h0).2 hl
  obtain ⟨t1, t2⟩ := s7 (timersWellFormed_owned w f1)
  exact ⟨s1, s2, s3, s4, s5, t1, t2⟩

/-- Witness for C11: a card constructed with every widget, started by the
button, after 1499 firings of the 1 Hz timer: running with 0 seconds left. -/
theorem C11_expiry_step_witness :
    (updateDisplay
        ((PomodoroCard.new WidgetAlloc.all (some NeoPixelController.new.begin)).runCardCalls
          (([CardEvent.handleButtonPress 1]
            ++ CardEvent.firings 0 (secondsClock 1499)).map CardCall.event))).card._is_running
        = false
      ∧ (updateDisplay
        ((PomodoroCard.new WidgetAlloc.all (some NeoPixelController.new.begin)).runCardCalls
          (([CardEvent.handleButtonPress 1]
            ++ CardEvent.firings 0 (secondsClock 1499)).map CardCall.event))).card._timer
        = none := by
  have e : (PomodoroCard.new WidgetAlloc.all (some NeoPixelController.new.begin)).runCardCalls
      (([CardEvent.handleButtonPress 1]
        ++ CardEvent.firings 0 (secondsClock 1499)).map CardCall.event)
      = ticks 1499 System.started := by
    rw [runCardCalls_events, CardEvent.firings, secondsClock, pause_at_zero_prefix]
  obtain ⟨hs, _⟩ := ticks_count 1499 System.started (by decide) (by decide) (by decide)
    (by decide)
  have hs1 : (ticks 1499 System.started).card.session = ⟨true, true, 0, 0⟩ := by
    rw [hs]; decide
  simp only [PomodoroCard.session, TimerSession.mk.injEq] at hs1
  obtain ⟨s1, _, s3, _⟩ := hs1
  have h := C11_expiry_step WidgetAlloc.all (some NeoPixelController.new.begin)
    (([CardEvent.handleButtonPress 1]
      ++ CardEvent.firings 0 (secondsClock 1499)).map CardCall.event) _ rfl
    (by rw [e]; exact s1) (by rw [e]; exact s3)
  exact ⟨h.1, h.2.1⟩

end DeskHog
